import Mathlib

/-!
# monitoring_system : a shallow embedding of the health classifier

The Go program probes proxy egress lines and keeps two tiers in a SQLite
store (`good_line`, `bad_line`) driven by the per-line counters
`good_count` / `bad_count` of the `cities` table.

Modelling conventions

* A `*sql.DB` is a value `DB`: the tables plus the number of statements issued
  so far.  Whether the n-th statement hits a driver error is read from an
  oracle `Faults = Nat → Bool` that every store function receives; `true`
  means that the statement returns an error and changes nothing.
  `sql.ErrNoRows` is data dependent and is computed from the tables.
* SQLite `INTEGER` columns and Go `int` / `int64` values are unbounded `Int`
  (the counters move by one per cycle, overflow is out of reach).
* Go `float64` speeds are modelled by the rational number they denote;
  comparisons against the floors `3` and `10` are exact under this reading,
  scaling by powers of two is exact short of overflow, the rounding error of
  sums and quotients is not modelled.  An average is therefore the exact
  quotient, and where that quotient lies on a tie of the `%.2f` rounding the
  program, which divides in `float64` first, can print the neighbouring value
  (`10.01` for the model's `10`).  The theorems on speeds are stated in terms
  of the speed a cycle returns, and the concrete inputs use rates whose sums
  and quotients are exact in binary.
* Everything outside the process is an oracle indexed by call number (`Env`):
  the HTTP exchange of each control-plane call up to the decoded response, the
  outcome of each `curl` subprocess and of each SOCKS5 dial, and the random
  source behind `rand.Intn` and `ORDER BY RANDOM()`.  The process state is a
  `World`: the store, the shared `ExitErrorMap`, the two dedupe caches, a
  clock that advances in `Sleep`, the count of semaphore slots taken, the call
  counters, and the trace of the calls that leave the process.
* Loops without a bound in the source (`retryOperation`, the scan loop of
  `Check`) take a fuel; Go's unspecified order of `range` over a map is the
  order of the association list that models the map.
* A Go runtime panic is the `Except.error` result of the function that hits
  it.
* Logging is dropped, and so are the mutexes: the model is sequential.  The
  five second time box around the two worker classifiers is not modelled: the
  classifier body runs to completion.  The one place where goroutines are
  interleaved is `Pool`, which follows the worker goroutines of `main` through
  the send and the receive on the semaphore channel and nothing else.
-/

namespace MonitoringSystem

/-! ## The store -/

/-- A row of the `cities` table.  The columns `name`, `line_type`, `max` and
`area_id` are never read or written by the code modelled here. -/
structure City where
  id : Int
  good_count : Int := 0
  bad_count : Int := 0
deriving DecidableEq, Repr

/-- A row of `node_test_results` as written by `SaveNodeTestResult`
(the `outbound_ip` column is always written as the empty string).  The node
name is kept as the bytes of the Go string: `removeLeadingChar` slices bytes. -/
structure NodeTestResult where
  node_name : List UInt8
  success_rate : ℚ
  avg_response_time : Int
  outbound_ip : String
  download_rate : ℚ
  node_id : Int
deriving DecidableEq

/-- The tables created by `CreateTables` that the classifier touches.
`good_line` has primary key `node_id`, `bad_line` has primary key
`outbound_ip`, `bad_ips` has the composite key `(outboundIP, randomCityID)`. -/
structure Tables where
  cities : List City := []
  node_test_results : List NodeTestResult := []
  download_url : List String := []
  good_line : List Int := []
  bad_line : List (String × Int) := []
  bad_ips : List (String × Int) := []
deriving DecidableEq

/-- The error values a store call can return. -/
inductive SqlError where
  | driver
  | ErrNoRows
deriving DecidableEq, Repr

/-- Outcome oracle of the store: `f n = true` when the n-th statement fails. -/
abbrev Faults := Nat → Bool

/-- The store handle: tables and the count of statements issued so far. -/
structure DB where
  tables : Tables := {}
  stmts : Nat := 0
deriving DecidableEq

/-- Go `db.Exec(stmt)`: a failing statement leaves the tables alone. -/
def DB.Exec (f : Faults) (db : DB) (run : Tables → Tables) : Option SqlError × DB :=
  if f db.stmts then (some SqlError.driver, { db with stmts := db.stmts + 1 })
  else (none, { tables := run db.tables, stmts := db.stmts + 1 })

/-- Go `db.QueryRow(q).Scan(&v)`: `none` from the query is `sql.ErrNoRows`. -/
def DB.QueryRow {α : Type} (f : Faults) (db : DB) (q : Tables → Option α) :
    Except SqlError α × DB :=
  if f db.stmts then (Except.error SqlError.driver, { db with stmts := db.stmts + 1 })
  else
    match q db.tables with
    | none => (Except.error SqlError.ErrNoRows, { db with stmts := db.stmts + 1 })
    | some a => (Except.ok a, { db with stmts := db.stmts + 1 })

/-- Go `db.Query(q)` followed by the `rows.Next` / `rows.Scan` loop. -/
def DB.Query {α : Type} (f : Faults) (db : DB) (q : Tables → List α) :
    Except SqlError (List α) × DB :=
  if f db.stmts then (Except.error SqlError.driver, { db with stmts := db.stmts + 1 })
  else (Except.ok (q db.tables), { db with stmts := db.stmts + 1 })

namespace database

/-- Statement `INSERT OR IGNORE INTO good_line (node_id) VALUES (?)`. -/
def sqlInsertGoodLine (nodeID : Int) (t : Tables) : Tables :=
  if nodeID ∈ t.good_line then t else { t with good_line := t.good_line ++ [nodeID] }

/-- Statement `DELETE FROM good_line WHERE node_id = ?`. -/
def sqlDeleteGoodLine (nodeID : Int) (t : Tables) : Tables :=
  { t with good_line := t.good_line.filter (fun n => n ≠ nodeID) }

/-- Statement `INSERT OR IGNORE INTO bad_line (outbound_ip, randomCityID) VALUES (?,?)`. -/
def sqlInsertBadLine (outboundIP : String) (randomCityID : Int) (t : Tables) : Tables :=
  if outboundIP ∈ t.bad_line.map Prod.fst then t
  else { t with bad_line := t.bad_line ++ [(outboundIP, randomCityID)] }

/-- Statement `DELETE FROM bad_line WHERE outbound_ip = ?`. -/
def sqlDeleteBadLine (outboundIP : String) (t : Tables) : Tables :=
  { t with bad_line := t.bad_line.filter (fun r => r.1 ≠ outboundIP) }

/-- Statement `DELETE FROM bad_line WHERE randomCityID = ?`. -/
def sqlDeleteBadLine_id (randomCityID : Int) (t : Tables) : Tables :=
  { t with bad_line := t.bad_line.filter (fun r => r.2 ≠ randomCityID) }

/-- Statement `INSERT OR IGNORE INTO bad_ips (outboundIP, randomCityID) VALUES (?,?)`. -/
def sqlInsertBadIPs (outboundIP : String) (randomCityID : Int) (t : Tables) : Tables :=
  if (outboundIP, randomCityID) ∈ t.bad_ips then t
  else { t with bad_ips := t.bad_ips ++ [(outboundIP, randomCityID)] }

/-- Statement `UPDATE cities SET good_count = good_count + 1 WHERE id = ?` when
`increment`, `UPDATE cities SET good_count = 0 WHERE id = ?` otherwise. -/
def sqlUpdateGoodCount (randomCityID : Int) (increment : Bool) (t : Tables) : Tables :=
  { t with cities := t.cities.map (fun c =>
      if c.id = randomCityID then
        { c with good_count := if increment then c.good_count + 1 else 0 }
      else c) }

/-- Statement `UPDATE cities SET bad_count = bad_count + 1 WHERE id = ?` when
`increment`, `UPDATE cities SET bad_count = 0 WHERE id = ?` otherwise. -/
def sqlUpdateBadCount (randomCityID : Int) (increment : Bool) (t : Tables) : Tables :=
  { t with cities := t.cities.map (fun c =>
      if c.id = randomCityID then
        { c with bad_count := if increment then c.bad_count + 1 else 0 }
      else c) }

/-- Statement `SELECT good_count FROM cities WHERE id = ?`. -/
def sqlGoodCount (randomCityID : Int) (t : Tables) : Option Int :=
  (t.cities.find? (fun c => c.id = randomCityID)).map City.good_count

/-- Statement `SELECT bad_count FROM cities WHERE id = ?`. -/
def sqlBadCount (randomCityID : Int) (t : Tables) : Option Int :=
  (t.cities.find? (fun c => c.id = randomCityID)).map City.bad_count

/-- Source function `InsertIntoGoodLine`. -/
def InsertIntoGoodLine (f : Faults) (db : DB) (nodeID : Int) : Option SqlError × DB :=
  db.Exec f (sqlInsertGoodLine nodeID)

/-- Source function `DeleteFromGoodLine`. -/
def DeleteFromGoodLine (f : Faults) (db : DB) (nodeID : Int) : Option SqlError × DB :=
  db.Exec f (sqlDeleteGoodLine nodeID)

/-- Source function `InsertIntoBadLine`. -/
def InsertIntoBadLine (f : Faults) (db : DB) (outboundIP : String) (randomCityID : Int) :
    Option SqlError × DB :=
  db.Exec f (sqlInsertBadLine outboundIP randomCityID)

/-- Source function `DeleteFromBadLine`. -/
def DeleteFromBadLine (f : Faults) (db : DB) (outboundIP : String) : Option SqlError × DB :=
  db.Exec f (sqlDeleteBadLine outboundIP)

/-- Source function `DeleteFromBadLine_id`. -/
def DeleteFromBadLine_id (f : Faults) (db : DB) (randomCityID : Int) : Option SqlError × DB :=
  db.Exec f (sqlDeleteBadLine_id randomCityID)

/-- Source function `CheckNodeIDExistsInBadLine`: `SELECT COUNT(*) FROM bad_line WHERE
outbound_ip = ?`, then `count > 0`. -/
def CheckNodeIDExistsInBadLine (f : Faults) (db : DB) (outboundIP : String) :
    Except SqlError Bool × DB :=
  db.QueryRow f (fun t =>
    some (decide ((t.bad_line.filter (fun r => r.1 = outboundIP)).length > 0)))

/-- Source function `CheckNodeIDExistsInBadLine_id`: `SELECT COUNT(*) FROM bad_line WHERE
randomCityID = ?`, then `count > 0`. -/
def CheckNodeIDExistsInBadLine_id (f : Faults) (db : DB) (randomCityID : Int) :
    Except SqlError Bool × DB :=
  db.QueryRow f (fun t =>
    some (decide ((t.bad_line.filter (fun r => r.2 = randomCityID)).length > 0)))

/-- Source function `UpdateGoodCount`. -/
def UpdateGoodCount (f : Faults) (db : DB) (randomCityID : Int) (increment : Bool) :
    Option SqlError × DB :=
  db.Exec f (sqlUpdateGoodCount randomCityID increment)

/-- Source function `UpdateBadCount`. -/
def UpdateBadCount (f : Faults) (db : DB) (randomCityID : Int) (increment : Bool) :
    Option SqlError × DB :=
  db.Exec f (sqlUpdateBadCount randomCityID increment)

/-- Source function `GetGoodCount`. -/
def GetGoodCount (f : Faults) (db : DB) (randomCityID : Int) : Except SqlError Int × DB :=
  db.QueryRow f (sqlGoodCount randomCityID)

/-- Source function `GetBadCount`. -/
def GetBadCount (f : Faults) (db : DB) (randomCityID : Int) : Except SqlError Int × DB :=
  db.QueryRow f (sqlBadCount randomCityID)

/-- Source function `InsertIntoBadIPs`. -/
def InsertIntoBadIPs (f : Faults) (db : DB) (outboundIP : String) (randomCityID : Int) :
    Option SqlError × DB :=
  db.Exec f (sqlInsertBadIPs outboundIP randomCityID)

/-- Source function `GetDownloadURL`: `SELECT url FROM download_url`; no row is the empty
string without error. -/
def GetDownloadURL (f : Faults) (db : DB) : Except SqlError String × DB :=
  match db.QueryRow f (fun t => t.download_url.head?) with
  | (Except.error SqlError.ErrNoRows, db1) => (Except.ok "", db1)
  | (Except.error e, db1) => (Except.error e, db1)
  | (Except.ok url, db1) => (Except.ok url, db1)

/-- Source function `GetAllCityIDs`: `SELECT id FROM cities`. -/
def GetAllCityIDs (f : Faults) (db : DB) : Except SqlError (List Int) × DB :=
  db.Query f (fun t => t.cities.map City.id)

/-- Statement `INSERT INTO node_test_results (...) VALUES (?,?,?,?,?,?,?)`;
the `test_time` column is not kept. -/
def sqlInsertNodeTestResult (row : NodeTestResult) (t : Tables) : Tables :=
  { t with node_test_results := t.node_test_results ++ [row] }

/-- Source function `SaveNodeTestResult`. -/
def SaveNodeTestResult (f : Faults) (db : DB) (nodeName : List UInt8) (successRate : ℚ)
    (avgResponseTime : Int) (downloadRate : ℚ) (nodeID : Int) : Option SqlError × DB :=
  db.Exec f (sqlInsertNodeTestResult
    { node_name := nodeName
      success_rate := successRate
      avg_response_time := avgResponseTime
      outbound_ip := ""
      download_rate := downloadRate
      node_id := nodeID })

end database

/-! ## The worker classifier (`cmd.LineProcessor`) -/

namespace cmd

/-- Source function `LineProcessor.ProcessGoodLine`: the body of the classifier goroutine. -/
def ProcessGoodLine (f : Faults) (db : DB) (randomCityID : Int) (avgResponseTime : Int)
    (avgDownloadSpeed : ℚ) : DB :=
  if avgResponseTime > 500 ∨ avgDownloadSpeed > 10 then
    match database.UpdateGoodCount f db randomCityID true with
    | (some _, db1) => db1
    | (none, db1) =>
      match database.GetGoodCount f db1 randomCityID with
      | (Except.error _, db2) => db2
      | (Except.ok goodCount, db2) =>
        if goodCount ≥ 3 then (database.InsertIntoGoodLine f db2 randomCityID).2 else db2
  else
    match database.UpdateGoodCount f db randomCityID false with
    | (some _, db1) => db1
    | (none, db1) => (database.DeleteFromGoodLine f db1 randomCityID).2

/-- Source function `LineProcessor.ProcessBadLine`: the body of the classifier goroutine. -/
def ProcessBadLine (f : Faults) (db : DB) (randomCityID : Int) (avgResponseTime : Int)
    (avgDownloadSpeed : ℚ) (outboundIP : String) : DB :=
  let isBadLine : Bool := decide (avgResponseTime > 20000 ∨ avgDownloadSpeed < 3)
  match database.CheckNodeIDExistsInBadLine f db outboundIP with
  | (Except.error _, db0) => db0
  | (Except.ok existsInBadLine, db0) =>
    if isBadLine then
      match database.UpdateBadCount f db0 randomCityID true with
      | (some _, db1) => db1
      | (none, db1) =>
        match database.GetBadCount f db1 randomCityID with
        | (Except.error _, db2) => db2
        | (Except.ok badCount, db2) =>
          if badCount ≥ 3 ∧ existsInBadLine = false then
            (database.InsertIntoBadLine f db2 outboundIP randomCityID).2
          else db2
    else
      match database.UpdateBadCount f db0 randomCityID false with
      | (some _, db1) => db1
      | (none, db1) =>
        if existsInBadLine then (database.DeleteFromBadLine f db1 outboundIP).2 else db1

end cmd

/-! ## The environment: control plane, subprocesses, dials, clock -/

/-- Go error values as far as the code tells them apart: a type assertion to
`*exec.ExitError` succeeds on `ExitError` only.  `rejected code msg` is the
error that the control-plane calls format from the code and the message of a
response, `fmt.Errorf("...: 代码 %d, 消息 %s", code, msg)`. -/
inductive GoError where
  | ExitError (code : Int)
  | other
  | rejected (code : Int) (msg : String)
deriving DecidableEq, Repr

/-- A Go `map[K]V` as an association list with one entry per key. -/
abbrev GoMap (κ ν : Type) := List (κ × ν)

/-- Go `v, exists := m[k]`. -/
def GoMap.get {κ ν : Type} [DecidableEq κ] (m : GoMap κ ν) (k : κ) : Option ν :=
  (m.find? (fun e => e.1 = k)).map Prod.snd

/-- Go `m[k] = v`. -/
def GoMap.set {κ ν : Type} [DecidableEq κ] (m : GoMap κ ν) (k : κ) (v : ν) : GoMap κ ν :=
  if (m.get k).isSome then m.map (fun e => if e.1 = k then (k, v) else e) else m ++ [(k, v)]

/-- Go `delete(m, k)`. -/
def GoMap.delete {κ ν : Type} [DecidableEq κ] (m : GoMap κ ν) (k : κ) : GoMap κ ν :=
  m.filter (fun e => e.1 ≠ k)

/-- Go `time.Second` in nanoseconds. -/
def Second : Int := 1000000000

/-- Go `time.Minute` in nanoseconds. -/
def Minute : Int := 60 * Second

namespace http_requests

/-- Source type `http_requests.Line`. -/
structure Line where
  ID : Int := 0
  TradeName : String := ""
  SSUser : String := ""
  SSPass : String := ""
  EndpointAddr : String := ""
  OutboundIP : String := ""
  LineType : String := ""
  GroupName : String := ""
  NodeName : String := ""
  ProjectName : String := ""
  CreateTime : String := ""
  ExpiredTime : String := ""
  RemainingTime : String := ""
deriving DecidableEq, Repr

/-- The fields of `http_requests.Config` read by the worker and the checker. -/
structure Config where
  TradeIDs : List Int := []
  DownloadTestCount : Int := 0
  DownloadURL : String := ""
  WatchTradeID : List Int := []
  BaseAPIAddr : String := ""
  Errtestnum : Int := 0
  ConnectBaseURL : String := ""
deriving DecidableEq, Repr

/-- Source type `http_requests.ChangeNodeResponse`, also the shape of the
anonymous response struct of `ChangeLineIP`; the `data` array is never read. -/
structure ChangeNodeResponse where
  Code : Int := 0
  Msg : String := ""
deriving DecidableEq, Repr

/-- Source type `http_requests.LineResponse`. -/
structure LineResponse where
  Code : Int := 0
  Msg : String := ""
  Data : List Line := []
deriving DecidableEq, Repr

end http_requests

/-- One HTTP exchange with the control plane, up to the decoded JSON body:
the request may fail to be built or sent, the body may fail to be read, it may
fail to parse, or it parses into a response of type `ρ`. -/
inductive HttpOutcome (ρ : Type) where
  | transportFailed
  | readFailed
  | unparsable
  | parsed (resp : ρ)
deriving DecidableEq, Repr

open http_requests (Line Config)

/-- Go `fmt.Sprintf("socks5://%s:%s@%s", line.SSUser, line.SSPass,
line.EndpointAddr)`. -/
def proxyURL (line : Line) : String :=
  "socks5://" ++ line.SSUser ++ ":" ++ line.SSPass ++ "@" ++ line.EndpointAddr

/-- What was read back from the temp file after a zero exit. -/
inductive Readback where
  | openFailed
  | scanFailed
  | parseFailed
  | rate (speed : ℚ)
deriving DecidableEq

namespace cmd

/-- One run of the worker copy of `executeCurlCommand`, as the operating
system lets it unfold. -/
inductive CurlOutcome where
  | createFailed
  | pipeFailed
  | startFailed
  | waitFailed
  | timedOut
  | exited (code : Int) (stderrDrained : Bool) (rb : Readback)
deriving DecidableEq

end cmd

namespace checker

/-- One run of the checker copy of `executeCurlCommand`. -/
inductive CurlOutcome where
  | createFailed
  | startFailed
  | waitFailed
  | exited (code : Int) (rb : Readback)
deriving DecidableEq

end checker

/-- One SOCKS5 dial: building the dialer may fail, the dial may fail, or the
connection is made after `elapsedMs` milliseconds. -/
inductive DialOutcome where
  | dialerFailed
  | dialFailed
  | connected (elapsedMs : Int)
deriving DecidableEq, Repr

/-- Everything outside the process, as oracles indexed by call number. -/
structure Env where
  dbFaults : Faults := fun _ => false
  ChangeNode : Nat → HttpOutcome http_requests.ChangeNodeResponse :=
    fun _ => HttpOutcome.parsed { Code := 1000 }
  GetLines : Nat → HttpOutcome http_requests.LineResponse :=
    fun _ => HttpOutcome.transportFailed
  ChangeLineIP : Nat → HttpOutcome http_requests.ChangeNodeResponse :=
    fun _ => HttpOutcome.parsed { Code := 1000 }
  workerCurl : Nat → cmd.CurlOutcome := fun _ => cmd.CurlOutcome.startFailed
  checkerCurl : Nat → checker.CurlOutcome := fun _ => checker.CurlOutcome.startFailed
  dial : Nat → DialOutcome := fun _ => DialOutcome.dialFailed
  rand : Nat → Nat := fun _ => 0

/-- Calls that leave the process, in the order they are made, and the tier
draws of the scanner (`drawBadLine`, `drawGoodLine`). -/
inductive Event where
  | ChangeNode (nodeID tradeID : Int)
  | GetLines
  | ChangeLineIP (lineID : Int)
  | curl (randomCityID : Int) (outboundIP : String)
  | dial (endpointAddr targetAddr : String)
  | Sleep (d : Int)
  | drawBadLine
  | drawGoodLine
deriving DecidableEq, Repr

/-- The mutable state of the process together with the call counters that
index the oracles of `Env` and the trace of outside calls.  The clock `now`
(nanoseconds) advances in `Sleep` only.  `sem` is the number of slots of the
worker semaphore that are taken, `randoms` counts the random draws
(`rand.Intn` and `ORDER BY RANDOM()`), the n-th of which picks the index
`env.rand n % len` among `len` candidates. -/
structure World where
  db : DB := {}
  ExitErrorMap : GoMap Int (List String) := []
  ScannedIDs : GoMap Int Int := []
  GoodLineCheckedIDs : GoMap Int Int := []
  now : Int := 0
  binds : Nat := 0
  listings : Nat := 0
  rotations : Nat := 0
  workerCurls : Nat := 0
  checkerCurls : Nat := 0
  dials : Nat := 0
  trace : List Event := []
  sem : Nat := 0
  randoms : Nat := 0
deriving DecidableEq

/-- Go `time.Sleep(d)`. -/
def Sleep (d : Int) (w : World) : World :=
  { w with now := w.now + d, trace := w.trace ++ [Event.Sleep d] }

namespace http_requests

/-- The tail of `ChangeNode` from the HTTP exchange on: every failure up to
the parse is returned as it is, a parsed response is accepted when its code is
`1000` or its message is the success message. -/
def ChangeNode.decode : HttpOutcome ChangeNodeResponse → Option GoError
  | HttpOutcome.parsed changeNodeResp =>
    if changeNodeResp.Code = 1000 ∨ changeNodeResp.Msg = "节点变更成功." then none
    else some (GoError.rejected changeNodeResp.Code changeNodeResp.Msg)
  | _ => some GoError.other

/-- The tail of `ChangeLineIP` from the HTTP exchange on. -/
def ChangeLineIP.decode : HttpOutcome ChangeNodeResponse → Option GoError
  | HttpOutcome.parsed changeIPResp =>
    if changeIPResp.Code = 1000 ∨ changeIPResp.Msg = "变更成功." then none
    else some (GoError.rejected changeIPResp.Code changeIPResp.Msg)
  | _ => some GoError.other

/-- The tail of `GetLines` from the HTTP exchange on: a parsed response is
turned down when `len(response.Data) == 0` and is otherwise answered with
`response.Data`; `response.Code` and `response.Msg` are not read. -/
def GetLines.decode : HttpOutcome LineResponse → Except GoError (List Line)
  | HttpOutcome.parsed response =>
    if response.Data.length = 0 then Except.error GoError.other
    else Except.ok response.Data
  | _ => Except.error GoError.other

/-- Source function `ChangeNode(config, nodeID, tradeID)` seen from the caller. -/
def ChangeNode (env : Env) (w : World) (nodeID tradeID : Int) : Option GoError × World :=
  (ChangeNode.decode (env.ChangeNode w.binds),
    { w with binds := w.binds + 1, trace := w.trace ++ [Event.ChangeNode nodeID tradeID] })

/-- Source function `GetLines(config)` seen from the caller. -/
def GetLines (env : Env) (w : World) : Except GoError (List Line) × World :=
  (GetLines.decode (env.GetLines w.listings),
    { w with listings := w.listings + 1, trace := w.trace ++ [Event.GetLines] })

/-- Source function `ChangeLineIP(config, lineID)` seen from the caller. -/
def ChangeLineIP (env : Env) (w : World) (lineID : Int) : Option GoError × World :=
  (ChangeLineIP.decode (env.ChangeLineIP w.rotations),
    { w with rotations := w.rotations + 1, trace := w.trace ++ [Event.ChangeLineIP lineID] })

end http_requests

/-- Round to the nearest integer, ties to even. -/
def roundHalfEven (q : ℚ) : Int :=
  let fl : Int := Int.floor q
  let d : ℚ := q - fl
  if d < 1 / 2 then fl
  else if 1 / 2 < d then fl + 1
  else if fl % 2 = 0 then fl else fl + 1

/-- Source function `FormatSpeed` (both copies): `%.2f` and `ParseFloat` back; the parse of a
string produced by `%.2f` does not fail. -/
def FormatSpeed (speed : ℚ) : ℚ × Option GoError :=
  ((roundHalfEven (speed * 100) : ℚ) / 100, none)

namespace socks5

/-- The dial loop of `socks5.TestSOCKS5`: `(totalTime, successCount)` carried
along. -/
def TestSOCKS5.loop (env : Env) (endpointAddr targetAddr : String) :
    Nat → World × Int × Int → World × Int × Int
  | 0, st => st
  | n + 1, (w, totalTime, successCount) =>
    let w1 : World :=
      { w with dials := w.dials + 1, trace := w.trace ++ [Event.dial endpointAddr targetAddr] }
    match env.dial w.dials with
    | DialOutcome.dialerFailed =>
      loop env endpointAddr targetAddr n ({ w with dials := w.dials + 1 }, totalTime, successCount)
    | DialOutcome.dialFailed => loop env endpointAddr targetAddr n (w1, totalTime, successCount)
    | DialOutcome.connected elapsed =>
      loop env endpointAddr targetAddr n (w1, totalTime + elapsed, successCount + 1)

/-- Source function `socks5.TestSOCKS5`. -/
def TestSOCKS5 (env : Env) (w : World) (_user _pass endpointAddr targetAddr _nodeName
    _outboundIP : String) (testCount : Int) : (ℚ × Int × Option GoError) × World :=
  let (w1, totalTime, successCount) :=
    TestSOCKS5.loop env endpointAddr targetAddr testCount.toNat (w, 0, 0)
  if successCount = 0 then ((0, 0, some GoError.other), w1)
  else
    let successRate : ℚ := (successCount : ℚ) / (testCount : ℚ) * 100
    let avgResponseTime : Int := Int.tdiv totalTime successCount
    ((successRate, avgResponseTime, none), w1)

end socks5

namespace cmd

/-- Source function `Socks5Tester.TestSOCKS5`: hands over to `socks5.TestSOCKS5`. -/
def Socks5Tester.TestSOCKS5 (env : Env) (w : World) (user pass endpointAddr targetAddr nodeName
    outboundIP : String) (testCount : Int) : (ℚ × Int × Option GoError) × World :=
  socks5.TestSOCKS5 env w user pass endpointAddr targetAddr nodeName outboundIP testCount

/-- The worker `DownloadManager`; `DB`, `ExitErrorMap` and its mutex live in
the `World`. -/
structure DownloadManager where
  TradeID : Int
  Config : Config
deriving DecidableEq

/-- Source function `DownloadManager.GetDownloadURL` (worker copy). -/
def DownloadManager.GetDownloadURL (env : Env) (dm : DownloadManager) (w : World) :
    (String × Option GoError) × World :=
  match database.GetDownloadURL env.dbFaults w.db with
  | (Except.error _, db1) => ((dm.Config.DownloadURL, some GoError.other), { w with db := db1 })
  | (Except.ok downloadURL, db1) =>
    if downloadURL = "" then ((dm.Config.DownloadURL, none), { w with db := db1 })
    else ((downloadURL, none), { w with db := db1 })

/-- The hard exit codes. -/
def hardExit (exitCode : Int) : Bool := exitCode == 18 || exitCode == 28 || exitCode == 97

/-- Source function `DownloadManager.executeCurlCommand` (worker copy): records the outbound
IP in `ExitErrorMap` on a hard exit code. -/
def DownloadManager.executeCurlCommand (env : Env) (_dm : DownloadManager) (w : World)
    (_url _proxy : String) (randomCityID : Int) (outboundIP : String) :
    (ℚ × Option GoError) × World :=
  let w0 : World := { w with workerCurls := w.workerCurls + 1 }
  let started : World := { w0 with trace := w0.trace ++ [Event.curl randomCityID outboundIP] }
  match env.workerCurl w.workerCurls with
  | CurlOutcome.createFailed => ((0, some GoError.other), w0)
  | CurlOutcome.pipeFailed => ((0, some GoError.other), w0)
  | CurlOutcome.startFailed => ((0, some GoError.other), started)
  | CurlOutcome.waitFailed => ((0, some GoError.other), started)
  | CurlOutcome.timedOut => ((0, some GoError.other), started)
  | CurlOutcome.exited exitCode stderrDrained rb =>
    if exitCode ≠ 0 then
      if hardExit exitCode then
        let m0 : GoMap Int (List String) :=
          if (started.ExitErrorMap.get randomCityID).isSome then started.ExitErrorMap
          else started.ExitErrorMap.set randomCityID []
        let ips : List String := (m0.get randomCityID).getD []
        let m1 : GoMap Int (List String) :=
          m0.set randomCityID (if outboundIP ∈ ips then ips else ips ++ [outboundIP])
        ((0, some GoError.other), { started with ExitErrorMap := m1 })
      else ((0, some GoError.other), started)
    else if stderrDrained = false then ((0, some GoError.other), started)
    else
      match rb with
      | Readback.openFailed => ((0, some GoError.other), started)
      | Readback.scanFailed => ((0, some GoError.other), started)
      | Readback.parseFailed => ((0, some GoError.other), started)
      | Readback.rate speed => ((speed * 8 / (1024 * 1024), none), started)

/-- The attempts loop of the worker `PerformDownloadTests`: `n` attempts left,
`totalSpeed` carried along. -/
def DownloadManager.PerformDownloadTests.loop (env : Env) (dm : DownloadManager)
    (line : Line) (randomCityID : Int) (downloadURL proxyURL : String) :
    Nat → World × ℚ → World × ℚ
  | 0, st => st
  | n + 1, (w, totalSpeed) =>
    match dm.executeCurlCommand env w downloadURL proxyURL randomCityID line.OutboundIP with
    | ((_, some _), w1) => loop env dm line randomCityID downloadURL proxyURL n (w1, totalSpeed)
    | ((speed, none), w1) =>
      loop env dm line randomCityID downloadURL proxyURL n (w1, totalSpeed + speed)

/-- Source function `DownloadManager.PerformDownloadTests` (worker copy).  The sum of the
speeds and its quotient by the number of attempts are exact. -/
def DownloadManager.PerformDownloadTests (env : Env) (dm : DownloadManager) (w : World)
    (line : Line) (randomCityID : Int) : (ℚ × Option GoError) × World :=
  match dm.GetDownloadURL env w with
  | ((_, some err), w1) => ((0, some err), w1)
  | ((downloadURL, none), w1) =>
    let proxyURL : String := proxyURL line
    let downloadTestCount : Int := dm.Config.DownloadTestCount
    let (w2, totalSpeed) :=
      PerformDownloadTests.loop env dm line randomCityID downloadURL proxyURL
        downloadTestCount.toNat (w1, 0)
    if downloadTestCount > 0 then
      let avgDownloadSpeed : ℚ := totalSpeed / (downloadTestCount : ℚ)
      match FormatSpeed avgDownloadSpeed with
      | (_, some err) => ((0, some err), w2)
      | (formattedSpeed, none) => ((formattedSpeed, none), w2)
    else ((0, none), w2)

end cmd

namespace checker

/-- The checker `DownloadManager`; `DB`, `ExitErrorMap` and the mutexes live
in the `World`, `downloadURL` is its private cache. -/
structure DownloadManager where
  TradeID : Int
  Config : Config
  downloadURL : String := ""
deriving DecidableEq

/-- Source function `DownloadManager.GetDownloadURL` (checker copy, with the cache). -/
def DownloadManager.GetDownloadURL (env : Env) (dm : DownloadManager) (w : World) :
    (String × Option GoError) × DownloadManager × World :=
  if dm.downloadURL ≠ "" then ((dm.downloadURL, none), dm, w)
  else
    match database.GetDownloadURL env.dbFaults w.db with
    | (Except.error _, db1) =>
      ((dm.Config.DownloadURL, some GoError.other), dm, { w with db := db1 })
    | (Except.ok downloadURL, db1) =>
      let dm1 : DownloadManager :=
        if downloadURL = "" then { dm with downloadURL := dm.Config.DownloadURL }
        else { dm with downloadURL := downloadURL }
      ((dm1.downloadURL, none), dm1, { w with db := db1 })

/-- Source function `DownloadManager.executeCurlCommand` (checker copy): every failure is
returned as a freshly formatted error, `ExitErrorMap` is not touched. -/
def DownloadManager.executeCurlCommand (env : Env) (_dm : DownloadManager) (w : World)
    (_url _proxy : String) (randomCityID : Int) (outboundIP : String) :
    (ℚ × Option GoError) × World :=
  let w0 : World := { w with checkerCurls := w.checkerCurls + 1 }
  let started : World := { w0 with trace := w0.trace ++ [Event.curl randomCityID outboundIP] }
  match env.checkerCurl w.checkerCurls with
  | CurlOutcome.createFailed => ((0, some GoError.other), w0)
  | CurlOutcome.startFailed => ((0, some GoError.other), started)
  | CurlOutcome.waitFailed => ((0, some GoError.other), started)
  | CurlOutcome.exited exitCode rb =>
    if exitCode ≠ 0 then
      if exitCode = 18 ∨ exitCode = 28 ∨ exitCode = 97 then ((0, some GoError.other), started)
      else ((0, some GoError.other), started)
    else
      match rb with
      | Readback.openFailed => ((0, some GoError.other), started)
      | Readback.scanFailed => ((0, some GoError.other), started)
      | Readback.parseFailed => ((0, some GoError.other), started)
      | Readback.rate speed => ((speed * 8 / (1024 * 1024), none), started)

/-- The attempts loop of the checker `PerformDownloadTests`: a failed attempt
asks for a new outbound IP and sleeps five seconds. -/
def DownloadManager.PerformDownloadTests.loop (env : Env) (dm : DownloadManager)
    (line : Line) (randomCityID : Int) (downloadURL proxyURL : String) :
    Nat → World × ℚ → World × ℚ
  | 0, st => st
  | n + 1, (w, totalSpeed) =>
    match dm.executeCurlCommand env w downloadURL proxyURL randomCityID line.OutboundIP with
    | ((_, some _), w1) =>
      let w2 : World := Sleep (5 * Second) (http_requests.ChangeLineIP env w1 dm.TradeID).2
      loop env dm line randomCityID downloadURL proxyURL n (w2, totalSpeed)
    | ((speed, none), w1) =>
      loop env dm line randomCityID downloadURL proxyURL n (w1, totalSpeed + speed)

/-- Source function `DownloadManager.PerformDownloadTests` (checker copy, `Errtestnum`
attempts).  The sum of the speeds and its quotient by the number of attempts
are exact. -/
def DownloadManager.PerformDownloadTests (env : Env) (dm : DownloadManager) (w : World)
    (line : Line) (randomCityID : Int) : (ℚ × Option GoError) × DownloadManager × World :=
  match dm.GetDownloadURL env w with
  | ((_, some err), dm1, w1) => ((0, some err), dm1, w1)
  | ((downloadURL, none), dm1, w1) =>
    let proxyURL : String := proxyURL line
    let downloadTestCount : Int := dm1.Config.Errtestnum
    let (w2, totalSpeed) :=
      PerformDownloadTests.loop env dm1 line randomCityID downloadURL proxyURL
        downloadTestCount.toNat (w1, 0)
    if downloadTestCount > 0 then
      let avgDownloadSpeed : ℚ := totalSpeed / (downloadTestCount : ℚ)
      match FormatSpeed avgDownloadSpeed with
      | (_, some err) => ((0, some err), dm1, w2)
      | (formattedSpeed, none) => ((formattedSpeed, none), dm1, w2)
    else ((0, none), dm1, w2)

/-- The dial loop of `TestSOCKS5`: `(totalTime, successCount)` carried along. -/
def TestSOCKS5.loop (env : Env) (endpointAddr TargetAddr : String) :
    Nat → World × Int × Int → World × Int × Int
  | 0, st => st
  | n + 1, (w, totalTime, successCount) =>
    let w1 : World :=
      { w with dials := w.dials + 1, trace := w.trace ++ [Event.dial endpointAddr TargetAddr] }
    match env.dial w.dials with
    | DialOutcome.dialerFailed =>
      loop env endpointAddr TargetAddr n ({ w with dials := w.dials + 1 }, totalTime, successCount)
    | DialOutcome.dialFailed => loop env endpointAddr TargetAddr n (w1, totalTime, successCount)
    | DialOutcome.connected elapsed =>
      loop env endpointAddr TargetAddr n (w1, totalTime + elapsed, successCount + 1)

/-- Source function `TestSOCKS5` (the checker copy). -/
def TestSOCKS5 (env : Env) (w : World) (_user _pass endpointAddr TargetAddr _nodeName
    _outboundIP : String) (testCount : Int) : (ℚ × Int × Option GoError) × World :=
  let (w1, totalTime, successCount) :=
    TestSOCKS5.loop env endpointAddr TargetAddr testCount.toNat (w, 0, 0)
  if successCount = 0 then ((0, 0, some GoError.other), w1)
  else
    let successRate : ℚ := (successCount : ℚ) / (testCount : ℚ) * 100
    let avgResponseTime : Int := Int.tdiv totalTime successCount
    ((successRate, avgResponseTime, none), w1)

/-- The loop of `retryOperation`; `σ` holds the variables the closure
captures.  The fuel bounds the number of invocations and is never used up
when it starts above `maxRetries`. -/
def retryOperation.loop {σ : Type} (operation : σ × World → Option GoError × σ × World)
    (maxRetries : Int) (sleepDuration : Int) :
    Nat → Int → σ × World → Option GoError × σ × World
  | 0, _, st => (some GoError.other, st)
  | fuel + 1, retryCount, st =>
    match operation st with
    | (none, st1) => (none, st1)
    | (some _, (x, w1)) =>
      let retryCount1 : Int := retryCount + 1
      if retryCount1 ≥ maxRetries then (some GoError.other, (x, w1))
      else loop operation maxRetries sleepDuration fuel retryCount1 (x, Sleep sleepDuration w1)

/-- Source function `retryOperation(operation, maxRetries, sleepDuration, ...)`. -/
def retryOperation {σ : Type} (operation : σ × World → Option GoError × σ × World)
    (maxRetries : Int) (sleepDuration : Int) (st : σ × World) : Option GoError × σ × World :=
  retryOperation.loop operation maxRetries sleepDuration (maxRetries.toNat + 1) 0 st

/-- The lookup-then-insert on a dedupe cache as `Check` performs it on
`ScannedIDs` and on `GoodLineCheckedIDs`: `true` means that the id is skipped
as still cooling down, otherwise `now + 30 min` is stored. -/
def dedupe (cache : GoMap Int Int) (id : Int) (now : Int) : Bool × GoMap Int Int :=
  match cache.get id with
  | some expiration =>
    if now - expiration < 30 * Minute then (true, cache)
    else (false, cache.set id (now + 30 * Minute))
  | none => (false, cache.set id (now + 30 * Minute))

end checker

/-- A Go runtime panic. -/
inductive Panic where
  | indexOutOfRange
  | invalidArgument
deriving DecidableEq, Repr

namespace checker

/-- The `Checker`; its store handle, `ExitErrorMap` and the two dedupe caches
live in the `World`. -/
structure Checker where
  Config : Config
deriving DecidableEq

/-- Go `strings.TrimPrefix(s, "http://")`. -/
def dropScheme (s : String) : String :=
  if s.startsWith "http://" then s.drop 7 else s

/-- The accumulators `processRandomCityID` declares before its loop over the
matched lines. -/
structure CycleVars where
  totalDownloadSpeed : ℚ := 0
  testCount : Int := 0
  allBelow10Mbps : Bool := true
deriving DecidableEq

/-- The variables `processRandomCityID` declares afresh for every matched
line. -/
structure LineVars where
  errorCount : Int := 0
  badOutboundIPs : List String := []
deriving DecidableEq

/-- The rotation request followed by the five second pause. -/
def rotate (env : Env) (w : World) (watchTradeID : Int) : World :=
  Sleep (5 * Second) (http_requests.ChangeLineIP env w watchTradeID).2

/-- The end of a round that is not cut short by `continue`. -/
def CycleVars.record (cv : CycleVars) (isFromGoodLine : Bool) (speed : ℚ) : CycleVars :=
  { totalDownloadSpeed := cv.totalDownloadSpeed + speed
    testCount := cv.testCount + 1
    allBelow10Mbps := if isFromGoodLine = true ∧ speed ≥ 10 then false else cv.allBelow10Mbps }

/-- The two probes that open a round: a one-dial reachability test, whose
result is only logged, and a throughput cycle on a fresh `DownloadManager`. -/
def Checker.processRandomCityID.probe (env : Env) (c : Checker) (randomCityID watchTradeID : Int)
    (targetAddr : String) (line : Line) (w : World) : (ℚ × Option GoError) × World :=
  let w1 : World :=
    (TestSOCKS5 env w line.SSUser line.SSPass line.EndpointAddr targetAddr line.NodeName
      line.OutboundIP 1).2
  let downloadManager : DownloadManager := { TradeID := watchTradeID, Config := c.Config }
  ((downloadManager.PerformDownloadTests env w1 line randomCityID).1,
    (downloadManager.PerformDownloadTests env w1 line randomCityID).2.2)

/-- One round of `processRandomCityID` on a matched line: the probes, then a
rotation when the round calls for one. -/
def Checker.processRandomCityID.round (env : Env) (c : Checker) (randomCityID watchTradeID : Int)
    (isFromGoodLine : Bool) (targetAddr : String) (line : Line)
    (st : World × CycleVars × LineVars) : World × CycleVars × LineVars :=
  let (w, cv, lv) := st
  match probe env c randomCityID watchTradeID targetAddr line w with
  | ((speed, some err), w2) =>
    let hard : Bool :=
      match err with
      | GoError.ExitError exitCode => decide (exitCode = 18 ∨ exitCode = 28 ∨ exitCode = 97)
      | _ => false
    if hard then
      (rotate env w2 watchTradeID, cv,
        { errorCount := lv.errorCount + 1
          badOutboundIPs :=
            if line.OutboundIP ∈ lv.badOutboundIPs then lv.badOutboundIPs
            else lv.badOutboundIPs ++ [line.OutboundIP] })
    else
      (rotate env w2 watchTradeID, cv.record isFromGoodLine speed,
        { lv with errorCount := lv.errorCount + 1 })
  | ((speed, none), w2) =>
    let w3 : World :=
      if isFromGoodLine = true ∧ speed < 10 then rotate env w2 watchTradeID
      else if isFromGoodLine = false ∧ speed < 3 then rotate env w2 watchTradeID
      else w2
    (w3, cv.record isFromGoodLine speed, lv)

/-- The `Errtestnum` rounds run on one matched line. -/
def Checker.processRandomCityID.rounds (env : Env) (c : Checker) (randomCityID watchTradeID : Int)
    (isFromGoodLine : Bool) (targetAddr : String) (line : Line) :
    Nat → World × CycleVars × LineVars → World × CycleVars × LineVars
  | 0, st => st
  | n + 1, st =>
    rounds env c randomCityID watchTradeID isFromGoodLine targetAddr line n
      (round env c randomCityID watchTradeID isFromGoodLine targetAddr line st)

/-- The average over all rounds counted so far, formatted to two decimals
(`0` when formatting fails), as computed after the rounds of a matched line.
The quotient is exact, where the program divides in `float64`. -/
def CycleVars.formattedSpeed (cv : CycleVars) : ℚ :=
  let avgDownloadSpeed : ℚ :=
    if cv.testCount > 0 then cv.totalDownloadSpeed / (cv.testCount : ℚ) else 0
  match FormatSpeed avgDownloadSpeed with
  | (_, some _) => 0
  | (v, none) => v

/-- The classification block that closes the work on one matched line:
eviction from `good_line` for a good-sourced id, the `bad_line` logic
otherwise. -/
def Checker.processRandomCityID.classify (f : Faults) (db : DB) (randomCityID : Int)
    (isFromGoodLine : Bool) (line : Line) (cv : CycleVars) (lv : LineVars) : DB :=
  let formattedSpeed : ℚ := cv.formattedSpeed
  let db1 : DB :=
    if isFromGoodLine = true ∧ cv.allBelow10Mbps = true then
      (db.Exec f (database.sqlDeleteGoodLine randomCityID)).2
    else db
  if isFromGoodLine = false then
    if lv.errorCount ≤ 2 ∨ formattedSpeed < 3 then
      let db2 : DB := (database.DeleteFromBadLine_id f db1 randomCityID).2
      let db3 : DB := (database.UpdateGoodCount f db2 randomCityID false).2
      if lv.badOutboundIPs.length > 0 then
        match database.CheckNodeIDExistsInBadLine_id f db3 randomCityID with
        | (Except.error _, db4) => db4
        | (Except.ok present, db4) =>
          if present = false then
            lv.badOutboundIPs.foldl
              (fun d outboundIP => (database.InsertIntoBadIPs f d outboundIP randomCityID).2) db4
          else db4
      else db3
    else
      match database.CheckNodeIDExistsInBadLine_id f db1 randomCityID with
      | (Except.error _, db2) => db2
      | (Except.ok present, db2) =>
        if present = false then
          (database.InsertIntoBadLine f db2 line.OutboundIP randomCityID).2
        else db2
  else db1

/-- The loop of `processRandomCityID` over the matched lines. -/
def Checker.processRandomCityID.lines (env : Env) (c : Checker) (randomCityID watchTradeID : Int)
    (isFromGoodLine : Bool) (targetAddr : String) :
    List Line → World × CycleVars → World × CycleVars
  | [], st => st
  | line :: rest, (w, cv) =>
    match rounds env c randomCityID watchTradeID isFromGoodLine targetAddr line
        c.Config.Errtestnum.toNat (w, cv, {}) with
    | (w1, cv1, lv1) =>
      lines env c randomCityID watchTradeID isFromGoodLine targetAddr rest
        ({ w1 with db := classify env.dbFaults w1.db randomCityID isFromGoodLine line cv1 lv1 },
          cv1)

/-- The membership lookup that opens `processRandomCityID`
(`SELECT 1 FROM good_line WHERE node_id = ?`): any error means that the id
is not treated as good-sourced. -/
def Checker.processRandomCityID.membership (env : Env) (w : World) (randomCityID : Int) :
    Bool × World :=
  let q := w.db.QueryRow env.dbFaults
    (fun t => if randomCityID ∈ t.good_line then some (1 : Int) else none)
  let isFromGoodLine : Bool :=
    match q.1 with
    | Except.ok _ => true
    | Except.error _ => false
  (isFromGoodLine, { w with db := q.2 })

/-- The bind of the watcher trade id to the line id, three tries one second
apart. -/
def Checker.processRandomCityID.bind (env : Env) (w : World) (randomCityID watchTradeID : Int) :
    Option GoError × Unit × World :=
  retryOperation
    (fun (st : Unit × World) =>
      ((http_requests.ChangeNode env st.2 randomCityID watchTradeID).1, (),
        (http_requests.ChangeNode env st.2 randomCityID watchTradeID).2))
    3 (1 * Second) ((), w)

/-- The fetch of the line listing, three tries one second apart; the closure
assigns the captured variable `lines`. -/
def Checker.processRandomCityID.listing (env : Env) (w : World) :
    Option GoError × List Line × World :=
  retryOperation
    (fun (st : List Line × World) =>
      match http_requests.GetLines env st.2 with
      | (Except.ok ls, w2) => (none, ls, w2)
      | (Except.error e, w2) => (some e, [], w2))
    3 (1 * Second) ([], w)

/-- Source function `Checker.processRandomCityID`: the remediation pipeline for one line id.
Indexing the empty `WatchTradeID` slice panics. -/
def Checker.processRandomCityID (env : Env) (c : Checker) (w : World) (randomCityID : Int) :
    Except Panic World :=
  match processRandomCityID.membership env w randomCityID with
  | (isFromGoodLine, w0) =>
    if randomCityID = 0 then
      Except.ok { w0 with ScannedIDs := w0.ScannedIDs.set randomCityID (w0.now + 30 * Minute) }
    else
      match c.Config.WatchTradeID with
      | [] => Except.error Panic.indexOutOfRange
      | watchTradeID :: _ =>
        match processRandomCityID.bind env w0 randomCityID watchTradeID with
        | (some _, _, w1) => Except.ok w1
        | (none, _, w1) =>
          match processRandomCityID.listing env w1 with
          | (some _, _, w2) => Except.ok w2
          | (none, lines, w2) =>
            let matchedLines : List Line :=
              lines.filter (fun line => line.SSUser = toString watchTradeID)
            let targetAddr : String := dropScheme c.Config.ConnectBaseURL
            Except.ok
              (processRandomCityID.lines env c randomCityID watchTradeID isFromGoodLine
                targetAddr matchedLines (w2, {})).1

/-- The row that `ORDER BY RANDOM() LIMIT 1` returns when the random source
yields `r`: none on an empty table. -/
def pickRandom {α : Type} (r : Nat) (rows : List α) : Option α :=
  rows.get? (r % rows.length)

/-- Statement `SELECT randomCityID FROM bad_line ORDER BY RANDOM() LIMIT 1`. -/
def sqlRandomBadLine (r : Nat) (t : Tables) : Option Int :=
  pickRandom r (t.bad_line.map Prod.snd)

/-- Statement `SELECT node_id FROM good_line ORDER BY RANDOM() LIMIT 1`. -/
def sqlRandomGoodLine (r : Nat) (t : Tables) : Option Int :=
  pickRandom r t.good_line

/-- How one turn of the scan loop of `Check` ends: `again` is `continue` with
the value of `consecutiveFailures`, `stop` is `break` (or a panic of the
pipeline). -/
inductive Check.Turn where
  | again (consecutiveFailures : Int) (w : World)
  | stop (r : Except Panic World)

/-- The tail of a turn of the scan loop once `randomCityID` is set: the zero
id is skipped, an id that is cooling down in `ScannedIDs` is skipped after a
sleep of 15 seconds, any other id goes through the pipeline. -/
def Checker.Check.scan (env : Env) (c : Checker) (consecutiveFailures : Int) (w : World)
    (randomCityID : Int) : Check.Turn :=
  if randomCityID = 0 then Check.Turn.again consecutiveFailures w
  else
    match dedupe w.ScannedIDs randomCityID w.now with
    | (true, _) => Check.Turn.again consecutiveFailures (Sleep (15 * Second) w)
    | (false, cache) =>
      Check.Turn.stop (c.processRandomCityID env { w with ScannedIDs := cache } randomCityID)

/-- The fallback of the scan loop: the candidate is drawn from `good_line`. -/
def Checker.Check.goodDraw (env : Env) (c : Checker) (consecutiveFailures : Int) (w : World) :
    Check.Turn :=
  let w0 : World :=
    { w with randoms := w.randoms + 1, trace := w.trace ++ [Event.drawGoodLine] }
  match w0.db.QueryRow env.dbFaults (sqlRandomGoodLine (env.rand w.randoms)) with
  | (Except.error err, db1) =>
    let w1 : World := { w0 with db := db1 }
    if err = SqlError.ErrNoRows then
      Check.Turn.stop (Except.ok (Nat.iterate (Sleep (1 * Minute)) 10 w1))
    else Check.Turn.stop (Except.ok w1)
  | (Except.ok goodLineRandomCityID, db1) =>
    let w1 : World := { w0 with db := db1 }
    match dedupe w1.GoodLineCheckedIDs goodLineRandomCityID w1.now with
    | (true, _) => Check.Turn.again consecutiveFailures w1
    | (false, cache) =>
      Check.scan env c consecutiveFailures { w1 with GoodLineCheckedIDs := cache }
        goodLineRandomCityID

/-- One turn of the scan loop of `Check`, entered with the current value of
`consecutiveFailures`. -/
def Checker.Check.turn (env : Env) (c : Checker) (consecutiveFailures : Int) (w : World) :
    Check.Turn :=
  let w0 : World :=
    { w with randoms := w.randoms + 1, trace := w.trace ++ [Event.drawBadLine] }
  match w0.db.QueryRow env.dbFaults (sqlRandomBadLine (env.rand w.randoms)) with
  | (Except.error err, db1) =>
    let w1 : World := { w0 with db := db1 }
    if err = SqlError.ErrNoRows then
      let consecutiveFailures1 : Int := consecutiveFailures + 1
      if consecutiveFailures1 ≥ 3 then Check.goodDraw env c consecutiveFailures1 w1
      else Check.Turn.again consecutiveFailures1 w1
    else Check.Turn.stop (Except.ok w1)
  | (Except.ok randomCityID, db1) =>
    Check.scan env c consecutiveFailures { w0 with db := db1 } randomCityID

/-- The scan loop of `Check` (the branch of an empty `ExitErrorMap`); `none`
when the turns allowed by the fuel are used up. -/
def Checker.Check.loop (env : Env) (c : Checker) : Nat → Int → World → Option (Except Panic World)
  | 0, _, _ => none
  | fuel + 1, consecutiveFailures, w =>
    match Check.turn env c consecutiveFailures w with
    | Check.Turn.again consecutiveFailures1 w1 => loop env c fuel consecutiveFailures1 w1
    | Check.Turn.stop r => some r

/-- The `range` loop of `Check` over the keys of a non-empty `ExitErrorMap`,
visited in the order of the association list (Go leaves the order open; every
order is the order of some list). -/
def Checker.Check.range (env : Env) (c : Checker) : List Int → World → Except Panic World
  | [], w => Except.ok w
  | randomCityID :: rest, w =>
    let w1 : World := { w with ExitErrorMap := w.ExitErrorMap.delete randomCityID }
    if randomCityID = 0 then range env c rest w1
    else c.processRandomCityID env w1 randomCityID

/-- Source function `Checker.Check`: one scan.  The fuel bounds the turns of the
scan loop. -/
def Checker.Check (env : Env) (c : Checker) (fuel : Nat) (w : World) :
    Option (Except Panic World) :=
  let consecutiveFailures : Int := 0
  if w.ExitErrorMap.length = 0 then Check.loop env c fuel consecutiveFailures w
  else some (Check.range env c (w.ExitErrorMap.map Prod.fst) w)

end checker

/-- A sample handed to the worker classifiers: latency, speed, outbound IP. -/
structure Sample where
  avgResponseTime : Int
  avgDownloadSpeed : ℚ
  outboundIP : String
deriving DecidableEq

/-- The two classifier calls `performChecks` makes for one matched line
(`ProcessGoodLine` first, `ProcessBadLine` second). -/
def performChecks_classify (f : Faults) (db : DB) (randomCityID : Int) (s : Sample) : DB :=
  cmd.ProcessBadLine f
    (cmd.ProcessGoodLine f db randomCityID s.avgResponseTime s.avgDownloadSpeed)
    randomCityID s.avgResponseTime s.avgDownloadSpeed s.outboundIP

/-- The oracle of a store on which every statement succeeds. -/
def noFaults : Faults := fun _ => false

/-- Source function `removeLeadingChar`: `s[1:]` when `len(s) > 1`, on bytes. -/
def removeLeadingChar (s : String) : List UInt8 :=
  if s.toUTF8.data.toList.length > 1 then s.toUTF8.data.toList.drop 1 else s.toUTF8.data.toList

/-- The first retry loop of `performChecks`: `n` is `maxRetries - i`; the
flag tells whether the cycle goes on (`false` is the `return` after the last
failed try). -/
def performChecks.changeNode (env : Env) (randomCityID tradeID : Int) :
    Nat → World → Bool × World
  | 0, w => (true, w)
  | n + 1, w =>
    match http_requests.ChangeNode env w randomCityID tradeID with
    | (none, w1) => (true, w1)
    | (some _, w1) =>
      if n = 0 then (false, w1)
      else changeNode env randomCityID tradeID n (Sleep (2 * Second) w1)

/-- The second retry loop of `performChecks`; `none` is the `return` after
the last failed try. -/
def performChecks.getLines (env : Env) : Nat → World → Option (List Line) × World
  | 0, w => (some [], w)
  | n + 1, w =>
    match http_requests.GetLines env w with
    | (Except.ok lines, w1) => (some lines, w1)
    | (Except.error _, w1) =>
      if n = 0 then (none, w1)
      else getLines env n (Sleep (2 * Second) w1)

/-- The body of the loop of `performChecks` over the matched lines. -/
def performChecks.line (env : Env) (downloadManager : cmd.DownloadManager) (targetAddr : String)
    (randomCityID : Int) (w : World) (line : Line) : World :=
  match cmd.Socks5Tester.TestSOCKS5 env w line.SSUser line.SSPass line.EndpointAddr targetAddr
      line.NodeName line.OutboundIP 10 with
  | ((successRate0, avgResponseTime0, err), w1) =>
    let nodeName : List UInt8 := removeLeadingChar line.NodeName
    let successRate : ℚ := if err.isSome then 0 else successRate0
    let avgResponseTime : Int := if err.isSome then -1 else avgResponseTime0
    match downloadManager.PerformDownloadTests env w1 line randomCityID with
    | ((_, some _), w2) => w2
    | ((avgDownloadSpeed, none), w2) =>
      let db1 : DB :=
        (database.SaveNodeTestResult env.dbFaults w2.db nodeName successRate avgResponseTime
          avgDownloadSpeed randomCityID).2
      { w2 with
        db := performChecks_classify env.dbFaults db1 randomCityID
          { avgResponseTime := avgResponseTime
            avgDownloadSpeed := avgDownloadSpeed
            outboundIP := line.OutboundIP } }

/-- Source function `performChecks`: one worker cycle for `tradeID`.  The deferred
release of the semaphore runs on every return; `rand.Intn(0)` panics. -/
def performChecks (env : Env) (w : World) (tradeID : Int) (config : Config)
    (targetAddr : String) : Except Panic World :=
  let release : World → World := fun v => { v with sem := v.sem - 1 }
  let w0 : World := { w with sem := w.sem + 1 }
  match database.GetAllCityIDs env.dbFaults w0.db with
  | (Except.error _, db1) => Except.ok (release { w0 with db := db1 })
  | (Except.ok cityIDs, db1) =>
    if cityIDs.length = 0 then Except.error Panic.invalidArgument
    else
      let randomCityID : Int := cityIDs.getD (env.rand w0.randoms % cityIDs.length) 0
      let w1 : World := { w0 with db := db1, randoms := w0.randoms + 1 }
      let maxRetries : Nat := 3
      match performChecks.changeNode env randomCityID tradeID maxRetries w1 with
      | (false, w2) => Except.ok (release w2)
      | (true, w2) =>
        match performChecks.getLines env maxRetries w2 with
        | (none, w3) => Except.ok (release w3)
        | (some lines, w3) =>
          let matchedLines : List Line :=
            lines.filter (fun line => line.SSUser = toString tradeID)
          let downloadManager : cmd.DownloadManager := { TradeID := tradeID, Config := config }
          Except.ok (release
            (matchedLines.foldl (performChecks.line env downloadManager targetAddr randomCityID)
              w3))

/-- The good condition of `ProcessGoodLine`. -/
def Sample.isGood (s : Sample) : Prop := s.avgResponseTime > 500 ∨ s.avgDownloadSpeed > 10

/-- The bad condition of `ProcessBadLine`. -/
def Sample.isBad (s : Sample) : Prop := s.avgResponseTime > 20000 ∨ s.avgDownloadSpeed < 3

instance (s : Sample) : Decidable s.isGood := by unfold Sample.isGood; infer_instance

instance (s : Sample) : Decidable s.isBad := by unfold Sample.isBad; infer_instance

/-- Mutual exclusion of the tiers: no line id is in `good_line` and also the
`randomCityID` of a `bad_line` row. -/
def Exclusive (t : Tables) : Prop := ∀ id ∈ t.good_line, id ∉ t.bad_line.map Prod.snd

instance (t : Tables) : Decidable (Exclusive t) := by unfold Exclusive; infer_instance

/-- Consecutive `ProcessGoodLine` calls for one line id, one per
`(latency, speed)` sample. -/
def feedGood (f : Faults) (db : DB) (randomCityID : Int) (samples : List (Int × ℚ)) : DB :=
  samples.foldl (fun d s => cmd.ProcessGoodLine f d randomCityID s.1 s.2) db

/-- Consecutive `ProcessBadLine` calls for one line id and outbound IP, one
per `(latency, speed)` sample. -/
def feedBad (f : Faults) (db : DB) (randomCityID : Int) (outboundIP : String)
    (samples : List (Int × ℚ)) : DB :=
  samples.foldl (fun d s => cmd.ProcessBadLine f d randomCityID s.1 s.2 outboundIP) db

/-- Empty tiers and zero counters. -/
def Initial (w : World) : Prop :=
  w.db.tables.good_line = [] ∧ w.db.tables.bad_line = [] ∧
    ∀ c ∈ w.db.tables.cities, c.good_count = 0 ∧ c.bad_count = 0

instance (w : World) : Decidable (Initial w) := by unfold Initial; infer_instance

/-- States reached from empty tiers by worker classifications of the samples
that `allowed` admits in the current state and by remediation cycles of the
checker. -/
inductive Reachable (env : Env) (c : checker.Checker)
    (allowed : World → Int → Sample → Prop) : World → Prop where
  | init (w : World) : Initial w → Reachable env c allowed w
  | worker (w : World) (randomCityID : Int) (s : Sample) :
      Reachable env c allowed w → allowed w randomCityID s →
      Reachable env c allowed
        { w with db := performChecks_classify env.dbFaults w.db randomCityID s }
  | remediate (w w1 : World) (randomCityID : Int) :
      Reachable env c allowed w → c.processRandomCityID env w randomCityID = Except.ok w1 →
      Reachable env c allowed w1

/-- The worker samples under which the two classifiers cannot put a line into
both tiers: the sample misses the good condition, or it misses the bad
condition and every `bad_line` row of the line id carries the outbound IP of
the sample. -/
def keepsApart (w : World) (randomCityID : Int) (s : Sample) : Prop :=
  ¬ s.isGood ∨
    (¬ s.isBad ∧ ∀ r ∈ w.db.tables.bad_line, r.2 = randomCityID → r.1 = s.outboundIP)

instance (w : World) (randomCityID : Int) (s : Sample) :
    Decidable (keepsApart w randomCityID s) := by
  unfold keepsApart; infer_instance

/-! ## Concrete inputs -/

/-- A store holding the single line `1` with zero counters and empty tiers. -/
def freshStore : DB := { tables := { cities := [{ id := 1 }] } }

/-- Three samples that meet the good condition of `ProcessGoodLine`. -/
def threeGoodSamples : List (Int × ℚ) := [(600, 0), (0, 11), (501, 20)]

/-- A sample that meets the bad condition of `ProcessBadLine` only. -/
def slowSample : Int × ℚ := (100, 2)

/-- A sample that meets the good and the bad condition at once: the latency
is above `500` and the speed is below `3`. -/
def lateSample : Sample :=
  { avgResponseTime := 600, avgDownloadSpeed := 2, outboundIP := "1.2.3.4" }

/-- An environment in which the first worker subprocess reports `1310720`
bytes per second and the first checker subprocess does the same. -/
def tenMbpsEnv : Env :=
  { workerCurl := fun _ => cmd.CurlOutcome.exited 0 true (Readback.rate 1310720)
    checkerCurl := fun _ => checker.CurlOutcome.exited 0 (Readback.rate 1310720) }

/-- An environment in which every worker subprocess exits with code `28`. -/
def timeoutEnv : Env :=
  { workerCurl := fun _ => cmd.CurlOutcome.exited 28 true Readback.scanFailed
    checkerCurl := fun _ => checker.CurlOutcome.exited 28 Readback.scanFailed }

/-- A worker download manager for trade id `592` making two attempts per
cycle. -/
def workerManager : cmd.DownloadManager :=
  { TradeID := 592, Config := { DownloadTestCount := 2, DownloadURL := "http://example/file" } }

/-- A checker download manager for trade id `592` making two attempts per
cycle. -/
def checkerManager : checker.DownloadManager :=
  { TradeID := 592, Config := { Errtestnum := 2, DownloadURL := "http://example/file" } }

/-- A matched line of trade id `592` behind the outbound IP `1.2.3.4`. -/
def probeLine : Line := { SSUser := "592", OutboundIP := "1.2.3.4" }

/-- The control plane lists the single line `probeLine`; every checker
subprocess reports `262144` bytes per second, which is 2 Mbps. -/
def slowEnv : Env :=
  { GetLines := fun _ => HttpOutcome.parsed { Code := 1000, Data := [probeLine] }
    checkerCurl := fun _ => checker.CurlOutcome.exited 0 (Readback.rate 262144) }

/-- A checker whose watcher trade id is `592`, three rounds per line and three
attempts per throughput cycle. -/
def watcher : checker.Checker := { Config := { WatchTradeID := [592], Errtestnum := 3 } }

/-- Line `7` sits in `bad_line` behind `1.2.3.4` with `good_count = 2` and
`bad_count = 3`; `good_line` is empty. -/
def quarantined : World :=
  { db := { tables := { cities := [{ id := 7, good_count := 2, bad_count := 3 }]
                        bad_line := [("1.2.3.4", 7)] } } }

/-- Line `7` sits in `good_line` with `good_count = 5`. -/
def promoted : World :=
  { db := { tables := { cities := [{ id := 7, good_count := 5 }], good_line := [7] } } }

/-- The accumulators after three rounds of 2 Mbps each. -/
def slowCycle : checker.CycleVars := { totalDownloadSpeed := 6, testCount := 3 }

/-- One worker classification of sample `s` on line `id`, every store
statement succeeding. -/
def afterSample (id : Int) (s : Sample) (w : World) : World :=
  { w with db := performChecks_classify ({} : Env).dbFaults w.db id s }

/-- The fresh store after three worker classifications of `lateSample`. -/
def bothTiers : World :=
  afterSample 1 lateSample
    (afterSample 1 lateSample (afterSample 1 lateSample { db := freshStore }))

/-- A sample that meets the bad condition only, behind `1.2.3.4`. -/
def slowAt4 : Sample := { avgResponseTime := 100, avgDownloadSpeed := 2, outboundIP := "1.2.3.4" }

/-- A sample that meets the good condition only, behind `5.6.7.8`. -/
def fastAt8 : Sample := { avgResponseTime := 100, avgDownloadSpeed := 20, outboundIP := "5.6.7.8" }

/-- The fresh store after three slow samples behind `1.2.3.4` followed by
three fast samples behind `5.6.7.8`, all on line `1`. -/
def staleRow : World :=
  afterSample 1 fastAt8 (afterSample 1 fastAt8 (afterSample 1 fastAt8
    (afterSample 1 slowAt4 (afterSample 1 slowAt4 (afterSample 1 slowAt4
      { db := freshStore })))))

/-- A store holding the lines `1` and `2` with zero counters and empty
tiers. -/
def twoLines : World := { db := { tables := { cities := [{ id := 1 }, { id := 2 }] } } }

/-- The store `twoLines` after three fast samples on line `1` and three slow
samples on line `2`. -/
def sortedTiers : World :=
  afterSample 2 slowAt4 (afterSample 2 slowAt4 (afterSample 2 slowAt4
    (afterSample 1 fastAt8 (afterSample 1 fastAt8 (afterSample 1 fastAt8 twoLines)))))

/-- An operation for `retryOperation` whose k-th invocation returns
`outcomes k`; it keeps the clock readings at which it was invoked. -/
def timedOperation (outcomes : Nat → Option GoError) :
    List Int × World → Option GoError × List Int × World :=
  fun st => (outcomes st.1.length, st.1 ++ [st.2.now], st.2)

/-- The elapsed time of a dial that connects. -/
def DialOutcome.elapsed? : DialOutcome → Option Int
  | DialOutcome.connected elapsed => some elapsed
  | _ => none

/-- The elapsed times of those among the dials `start, ..., start + n - 1`
that connect, in the order of the dials. -/
def connectedTimes (env : Env) (start n : Nat) : List Int :=
  (List.range n).filterMap (fun i => (env.dial (start + i)).elapsed?)

/-- An operation that fails twice and succeeds on its third invocation. -/
def thirdTimeLucky : Nat → Option GoError :=
  fun k => if k = 2 then none else some GoError.other

/-- Of every four dials the first connects in 30 ms, the second in 41 ms, the
other two fail. -/
def flakyDialEnv : Env :=
  { dial := fun i =>
      if i % 4 = 0 then DialOutcome.connected 30
      else if i % 4 = 1 then DialOutcome.connected 41
      else DialOutcome.dialFailed }

/-- The control plane answers the listing with code `500`, the message
`denied` and one line. -/
def deniedListingEnv : Env :=
  { GetLines := fun _ =>
      HttpOutcome.parsed { Code := 500, Msg := "denied", Data := [probeLine] } }

/-- The control plane answers the listing with the success code and no
line. -/
def emptyListingEnv : Env :=
  { GetLines := fun _ => HttpOutcome.parsed { Code := 1000, Msg := "ok", Data := [] } }

/-- The control plane answers every call with code `4001`, the message
`busy` and no data. -/
def busyEnv : Env :=
  { ChangeNode := fun _ => HttpOutcome.parsed { Code := 4001, Msg := "busy" }
    ChangeLineIP := fun _ => HttpOutcome.parsed { Code := 4001, Msg := "busy" }
    GetLines := fun _ => HttpOutcome.parsed { Code := 4001, Msg := "busy" } }

/-- A run of `retryOperation` on `timedOperation outcomes`, started with no
invocation made. -/
def timedRetry (outcomes : Nat → Option GoError) (maxRetries sleepDuration : Int) (w : World) :
    Option GoError × List Int × World :=
  checker.retryOperation (timedOperation outcomes) maxRetries sleepDuration ([], w)

/-- The state in which the worker cycle for trade id `592` starts on the fresh
store. -/
def freshWorld : World := { db := freshStore }

/-- No dial connects; the download of every worker subprocess reports
`1310720` bytes per second. -/
def unreachableEnv : Env :=
  { workerCurl := fun _ => cmd.CurlOutcome.exited 0 true (Readback.rate 1310720) }

/-- The state after one draw from `bad_line`: a statement and a random draw
are counted and the draw is traced. -/
def emptyDraw (w : World) : World :=
  { w with
    db := { w.db with stmts := w.db.stmts + 1 }
    randoms := w.randoms + 1
    trace := w.trace ++ [Event.drawBadLine] }

/-- The state `quarantined` with three keys in `ExitErrorMap`: the zero id and
the lines `7` and `8`. -/
def flaggedWorld : World :=
  { quarantined with
    ExitErrorMap := [(0, ["9.9.9.9"]), (7, ["1.2.3.4"]), (8, ["5.6.7.8"])] }

/-- A checker whose configuration lists no watcher trade id. -/
def unconfigured : checker.Checker := { Config := {} }

/-- A sample that meets neither the good nor the bad condition. -/
def plainSample : Sample :=
  { avgResponseTime := 100, avgDownloadSpeed := 5, outboundIP := "1.2.3.4" }

/-- Go `const maxConcurrency = 5`. -/
def maxConcurrency : Nat := 5

/-- Where the goroutine that `main` starts for one trade id stands: before
the send `sem <- struct{}{}` that opens `performChecks` (asleep between two
cycles, or blocked on the send), or past that send and before the deferred
receive `<-sem`. -/
inductive Phase where
  | waiting
  | running
deriving DecidableEq, Repr

/-- The worker goroutines of `main` around the semaphore: `sem` is the number
of values that the buffered channel holds, `workers` the phase of the
goroutine of each configured trade id. -/
structure Pool where
  sem : Nat := 0
  workers : List Phase := []
deriving DecidableEq, Repr

/-- The state in which `main` starts the worker goroutines:
`sem := make(chan struct{}, maxConcurrency)` is empty and no goroutine has
entered `performChecks`. -/
def Pool.start (tradeIDs : List Int) : Pool :=
  { sem := 0, workers := tradeIDs.map (fun _ => Phase.waiting) }

/-- The scheduler lets goroutine `i` make its next move at the semaphore.  A
waiting goroutine performs the send when the channel holds fewer than
`maxConcurrency` values and stays blocked otherwise; a running goroutine
finishes its cycle and performs the deferred receive. -/
def Pool.step (p : Pool) (i : Nat) : Pool :=
  match p.workers.get? i with
  | none => p
  | some Phase.waiting =>
    if p.sem < maxConcurrency then
      { sem := p.sem + 1, workers := p.workers.set i Phase.running }
    else p
  | some Phase.running => { sem := p.sem - 1, workers := p.workers.set i Phase.waiting }

/-- An interleaving of the goroutines: the moves are made in the order of
`schedule`. -/
def Pool.run (p : Pool) (schedule : List Nat) : Pool :=
  schedule.foldl Pool.step p

/-- The number of executions of `performChecks` that are past the
acquisition of the semaphore and before its release. -/
def Pool.running (p : Pool) : Nat :=
  p.workers.count Phase.running

/-- Every counter of the `cities` table holds the column default `0`. -/
def CountersAtZero (t : Tables) : Prop :=
  ∀ c ∈ t.cities, c.good_count = 0 ∧ c.bad_count = 0

instance (t : Tables) : Decidable (CountersAtZero t) := by
  unfold CountersAtZero; infer_instance

/-- No counter of the `cities` table is negative. -/
def CountersNonNeg (t : Tables) : Prop :=
  ∀ c ∈ t.cities, 0 ≤ c.good_count ∧ 0 ≤ c.bad_count

instance (t : Tables) : Decidable (CountersNonNeg t) := by
  unfold CountersNonNeg; infer_instance

/-- One step of the program on the counters: a call of `UpdateGoodCount` or of
`UpdateBadCount`, a worker classifier, or a remediation cycle. -/
inductive CounterStep (env : Env) (c : checker.Checker) : World → World → Prop where
  | updateGood (w : World) (randomCityID : Int) (increment : Bool) :
      CounterStep env c w
        { w with db := (database.UpdateGoodCount env.dbFaults w.db randomCityID increment).2 }
  | updateBad (w : World) (randomCityID : Int) (increment : Bool) :
      CounterStep env c w
        { w with db := (database.UpdateBadCount env.dbFaults w.db randomCityID increment).2 }
  | good (w : World) (randomCityID avgResponseTime : Int) (avgDownloadSpeed : ℚ) :
      CounterStep env c w
        { w with
          db := cmd.ProcessGoodLine env.dbFaults w.db randomCityID avgResponseTime
            avgDownloadSpeed }
  | bad (w : World) (randomCityID avgResponseTime : Int) (avgDownloadSpeed : ℚ)
      (outboundIP : String) :
      CounterStep env c w
        { w with
          db := cmd.ProcessBadLine env.dbFaults w.db randomCityID avgResponseTime
            avgDownloadSpeed outboundIP }
  | remediate (w w1 : World) (randomCityID : Int) :
      c.processRandomCityID env w randomCityID = Except.ok w1 → CounterStep env c w w1

/-- The speeds that the throughput cycles of the `n` rounds run on one
matched line return, in the order of the rounds. -/
def checker.Checker.processRandomCityID.roundSpeeds (env : Env) (c : checker.Checker)
    (randomCityID watchTradeID : Int) (isFromGoodLine : Bool) (targetAddr : String)
    (line : Line) : Nat → World × checker.CycleVars × checker.LineVars → List ℚ
  | 0, _ => []
  | n + 1, st =>
    (checker.Checker.processRandomCityID.probe env c randomCityID watchTradeID targetAddr line
        st.1).1.1 ::
      roundSpeeds env c randomCityID watchTradeID isFromGoodLine targetAddr line n
        (checker.Checker.processRandomCityID.round env c randomCityID watchTradeID
          isFromGoodLine targetAddr line st)

/-- The speeds of all rounds of all the matched lines of a list, in the order
in which `processRandomCityID` runs them. -/
def checker.Checker.processRandomCityID.lineSpeeds (env : Env) (c : checker.Checker)
    (randomCityID watchTradeID : Int) (isFromGoodLine : Bool) (targetAddr : String) :
    List Line → World × checker.CycleVars → List ℚ
  | [], _ => []
  | line :: rest, st =>
    checker.Checker.processRandomCityID.roundSpeeds env c randomCityID watchTradeID
        isFromGoodLine targetAddr line c.Config.Errtestnum.toNat (st.1, st.2, {}) ++
      lineSpeeds env c randomCityID watchTradeID isFromGoodLine targetAddr rest
        (checker.Checker.processRandomCityID.lines env c randomCityID watchTradeID
          isFromGoodLine targetAddr [line] st)

/-- The control plane lists the single line `probeLine`; every checker
subprocess exits with code `28`. -/
def exhaustedEnv : Env :=
  { GetLines := fun _ => HttpOutcome.parsed { Code := 1000, Data := [probeLine] }
    checkerCurl := fun _ => checker.CurlOutcome.exited 28 Readback.scanFailed }

/-- The control plane lists the single line `probeLine`; the first checker
subprocess exits with code `28`, every later one reports `1048576` bytes per
second, which is 8 Mbps. -/
def recoveringEnv : Env :=
  { GetLines := fun _ => HttpOutcome.parsed { Code := 1000, Data := [probeLine] }
    checkerCurl := fun i =>
      if i = 0 then checker.CurlOutcome.exited 28 Readback.scanFailed
      else checker.CurlOutcome.exited 0 (Readback.rate 1048576) }

/-- A checker whose watcher trade id is `592`, two rounds per line and two
attempts per throughput cycle. -/
def pairWatcher : checker.Checker := { Config := { WatchTradeID := [592], Errtestnum := 2 } }

/-- The state, the accumulators and the per-line variables with which the
classification block of `line` is entered when the matched lines `pre` were
processed before it in the same cycle. -/
def checker.Checker.processRandomCityID.classified (env : Env) (c : checker.Checker)
    (randomCityID watchTradeID : Int) (isFromGoodLine : Bool) (targetAddr : String)
    (pre : List Line) (line : Line) (w : World) :
    World × checker.CycleVars × checker.LineVars :=
  checker.Checker.processRandomCityID.rounds env c randomCityID watchTradeID isFromGoodLine
    targetAddr line c.Config.Errtestnum.toNat
    ((checker.Checker.processRandomCityID.lines env c randomCityID watchTradeID isFromGoodLine
        targetAddr pre (w, {})).1,
      (checker.Checker.processRandomCityID.lines env c randomCityID watchTradeID isFromGoodLine
        targetAddr pre (w, {})).2, {})

/-- A second matched line of trade id `592`, behind `5.6.7.8`. -/
def secondLine : Line := { SSUser := "592", OutboundIP := "5.6.7.8" }

/-- The first four checker subprocesses report `262144` bytes per second
(2 Mbps), every later one `1048576` (8 Mbps). -/
def twoRateEnv : Env :=
  { checkerCurl := fun i =>
      if i < 4 then checker.CurlOutcome.exited 0 (Readback.rate 262144)
      else checker.CurlOutcome.exited 0 (Readback.rate 1048576) }

/-- Line `7` with both counters at `0`, in neither tier. -/
def idleLine : World := { db := { tables := { cities := [{ id := 7 }] } } }

/-- The control plane lists the single line `probeLine`; the store statements
number 1, 2 and 3 fail; every checker subprocess reports `1572864` bytes per
second, which is 12 Mbps. -/
def faultyUrlEnv : Env :=
  { dbFaults := fun n => decide (1 ≤ n ∧ n ≤ 3)
    GetLines := fun _ => HttpOutcome.parsed { Code := 1000, Data := [probeLine] }
    checkerCurl := fun _ => checker.CurlOutcome.exited 0 (Readback.rate 1572864) }

/-- A checker whose watcher trade id is `592`, four rounds per line and four
attempts per throughput cycle. -/
def quadWatcher : checker.Checker := { Config := { WatchTradeID := [592], Errtestnum := 4 } }

/-- The accumulators after three failed rounds and one round at 12 Mbps. -/
def unresolvedCycle : checker.CycleVars := { totalDownloadSpeed := 12, testCount := 4 }

/-- The per-line variables after three failed rounds. -/
def threeErrors : checker.LineVars := { errorCount := 3 }

/-- One operation on `ExitErrorMap`: a worker `executeCurlCommand` call for a
line id and an outbound IP whose subprocess unfolds as `outcome`, or the
removal of a key by the `range` loop of `Check`. -/
inductive MapOp where
  | curl (randomCityID : Int) (outboundIP : String) (outcome : cmd.CurlOutcome)
  | pop (randomCityID : Int)
deriving DecidableEq

/-- The operations of a history that come after the last removal of the key
`randomCityID` (all of them when the key was never removed). -/
def MapOp.sinceRemoval (h : List MapOp) (randomCityID : Int) : List MapOp :=
  (h.reverse.takeWhile (fun op => decide (op ≠ MapOp.pop randomCityID))).reverse

/-- The operation is a worker subprocess for this line id and this outbound IP
that exited with code 18, 28 or 97. -/
def MapOp.isHardFailure (randomCityID : Int) (outboundIP : String) : MapOp → Bool
  | MapOp.curl id ip (cmd.CurlOutcome.exited exitCode _ _) =>
    decide (id = randomCityID) && decide (ip = outboundIP) && cmd.hardExit exitCode
  | _ => false

/-- The keys that the `range` loop of `Check` deletes when it visits the keys
in the given order: the zero ids it meets first, then the first non-zero id,
on which it breaks. -/
def checker.Checker.Check.deleted : List Int → List Int
  | [] => []
  | randomCityID :: rest => if randomCityID = 0 then randomCityID :: deleted rest else [randomCityID]

/-- The states reached from an empty `ExitErrorMap` by worker
`executeCurlCommand` calls and by scans of `Check` that return, together with
the history of the operations made on the map. -/
inductive History (env : Env) (c : checker.Checker) : List MapOp → World → Prop where
  | start (w : World) : w.ExitErrorMap = [] → History env c [] w
  | worker (h : List MapOp) (w : World) (dm : cmd.DownloadManager) (url proxy : String)
      (randomCityID : Int) (outboundIP : String) :
      History env c h w →
      History env c (h ++ [MapOp.curl randomCityID outboundIP (env.workerCurl w.workerCurls)])
        (dm.executeCurlCommand env w url proxy randomCityID outboundIP).2
  | scan (h : List MapOp) (w w1 : World) (fuel : Nat) :
      History env c h w → c.Check env fuel w = some (Except.ok w1) →
      History env c
        (h ++ (checker.Checker.Check.deleted (w.ExitErrorMap.map Prod.fst)).map MapOp.pop) w1

/-- The state in which the loop over the matched lines starts when
`quadWatcher` runs `processRandomCityID` on line `7` from `idleLine` under
`faultyUrlEnv`: after the membership lookup, the bind and the listing. -/
def idleListed : World :=
  (checker.Checker.processRandomCityID.listing faultyUrlEnv
    (checker.Checker.processRandomCityID.bind faultyUrlEnv
      (checker.Checker.processRandomCityID.membership faultyUrlEnv idleLine 7).2 7 592).2.2).2.2

/-! ## Facts about the store -/

section store

open database

theorem sqlGoodCount_update (id : Int) (inc : Bool) (t : Tables) :
    sqlGoodCount id (sqlUpdateGoodCount id inc t) =
      (sqlGoodCount id t).map (fun g => if inc then g + 1 else 0) := by
  unfold sqlGoodCount sqlUpdateGoodCount
  induction t.cities with
  | nil => simp
  | cons c cs ih =>
    by_cases h : c.id = id
    · simp [List.find?_cons, h]
    · simpa [List.find?_cons, h] using ih

theorem sqlBadCount_update (id : Int) (inc : Bool) (t : Tables) :
    sqlBadCount id (sqlUpdateBadCount id inc t) =
      (sqlBadCount id t).map (fun g => if inc then g + 1 else 0) := by
  unfold sqlBadCount sqlUpdateBadCount
  induction t.cities with
  | nil => simp
  | cons c cs ih =>
    by_cases h : c.id = id
    · simp [List.find?_cons, h]
    · simpa [List.find?_cons, h] using ih

end store

section projections

open database

@[simp] theorem sqlUpdateGoodCount_good_line (id : Int) (inc : Bool) (t : Tables) :
    (sqlUpdateGoodCount id inc t).good_line = t.good_line := rfl

@[simp] theorem sqlUpdateGoodCount_bad_line (id : Int) (inc : Bool) (t : Tables) :
    (sqlUpdateGoodCount id inc t).bad_line = t.bad_line := rfl

@[simp] theorem sqlUpdateGoodCount_bad_ips (id : Int) (inc : Bool) (t : Tables) :
    (sqlUpdateGoodCount id inc t).bad_ips = t.bad_ips := rfl

@[simp] theorem sqlUpdateBadCount_good_line (id : Int) (inc : Bool) (t : Tables) :
    (sqlUpdateBadCount id inc t).good_line = t.good_line := rfl

@[simp] theorem sqlUpdateBadCount_bad_line (id : Int) (inc : Bool) (t : Tables) :
    (sqlUpdateBadCount id inc t).bad_line = t.bad_line := rfl

@[simp] theorem sqlUpdateBadCount_bad_ips (id : Int) (inc : Bool) (t : Tables) :
    (sqlUpdateBadCount id inc t).bad_ips = t.bad_ips := rfl

@[simp] theorem sqlDeleteGoodLine_good_line (id : Int) (t : Tables) :
    (sqlDeleteGoodLine id t).good_line = t.good_line.filter (fun n => n ≠ id) := rfl

@[simp] theorem sqlDeleteGoodLine_bad_line (id : Int) (t : Tables) :
    (sqlDeleteGoodLine id t).bad_line = t.bad_line := rfl

@[simp] theorem sqlDeleteGoodLine_cities (id : Int) (t : Tables) :
    (sqlDeleteGoodLine id t).cities = t.cities := rfl

@[simp] theorem sqlDeleteBadLine_bad_line (ip : String) (t : Tables) :
    (sqlDeleteBadLine ip t).bad_line = t.bad_line.filter (fun r => r.1 ≠ ip) := rfl

@[simp] theorem sqlDeleteBadLine_good_line (ip : String) (t : Tables) :
    (sqlDeleteBadLine ip t).good_line = t.good_line := rfl

@[simp] theorem sqlDeleteBadLine_cities (ip : String) (t : Tables) :
    (sqlDeleteBadLine ip t).cities = t.cities := rfl

@[simp] theorem sqlDeleteBadLine_id_bad_line (id : Int) (t : Tables) :
    (sqlDeleteBadLine_id id t).bad_line = t.bad_line.filter (fun r => r.2 ≠ id) := rfl

@[simp] theorem sqlDeleteBadLine_id_good_line (id : Int) (t : Tables) :
    (sqlDeleteBadLine_id id t).good_line = t.good_line := rfl

@[simp] theorem sqlDeleteBadLine_id_cities (id : Int) (t : Tables) :
    (sqlDeleteBadLine_id id t).cities = t.cities := rfl

@[simp] theorem sqlDeleteBadLine_id_bad_ips (id : Int) (t : Tables) :
    (sqlDeleteBadLine_id id t).bad_ips = t.bad_ips := rfl

@[simp] theorem sqlInsertGoodLine_bad_line (id : Int) (t : Tables) :
    (sqlInsertGoodLine id t).bad_line = t.bad_line := by
  unfold sqlInsertGoodLine; split <;> rfl

@[simp] theorem sqlInsertGoodLine_cities (id : Int) (t : Tables) :
    (sqlInsertGoodLine id t).cities = t.cities := by
  unfold sqlInsertGoodLine; split <;> rfl

theorem sqlInsertGoodLine_good_line (id : Int) (t : Tables) :
    (sqlInsertGoodLine id t).good_line =
      if id ∈ t.good_line then t.good_line else t.good_line ++ [id] := by
  unfold sqlInsertGoodLine; split <;> rfl

@[simp] theorem sqlInsertBadLine_good_line (ip : String) (id : Int) (t : Tables) :
    (sqlInsertBadLine ip id t).good_line = t.good_line := by
  unfold sqlInsertBadLine; split <;> rfl

@[simp] theorem sqlInsertBadLine_cities (ip : String) (id : Int) (t : Tables) :
    (sqlInsertBadLine ip id t).cities = t.cities := by
  unfold sqlInsertBadLine; split <;> rfl

@[simp] theorem sqlInsertBadLine_bad_ips (ip : String) (id : Int) (t : Tables) :
    (sqlInsertBadLine ip id t).bad_ips = t.bad_ips := by
  unfold sqlInsertBadLine; split <;> rfl

theorem sqlInsertBadLine_bad_line (ip : String) (id : Int) (t : Tables) :
    (sqlInsertBadLine ip id t).bad_line =
      if ip ∈ t.bad_line.map Prod.fst then t.bad_line else t.bad_line ++ [(ip, id)] := by
  unfold sqlInsertBadLine; split <;> rfl

@[simp] theorem sqlInsertBadIPs_good_line (ip : String) (id : Int) (t : Tables) :
    (sqlInsertBadIPs ip id t).good_line = t.good_line := by
  unfold sqlInsertBadIPs; split <;> rfl

@[simp] theorem sqlInsertBadIPs_bad_line (ip : String) (id : Int) (t : Tables) :
    (sqlInsertBadIPs ip id t).bad_line = t.bad_line := by
  unfold sqlInsertBadIPs; split <;> rfl

@[simp] theorem sqlInsertBadIPs_cities (ip : String) (id : Int) (t : Tables) :
    (sqlInsertBadIPs ip id t).cities = t.cities := by
  unfold sqlInsertBadIPs; split <;> rfl

theorem exists_filter_fst (l : List (String × Int)) (ip : String) :
    decide ((l.filter (fun r => r.1 = ip)).length > 0) = decide (ip ∈ l.map Prod.fst) := by
  induction l with
  | nil => simp
  | cons r rs ih =>
    by_cases h : r.1 = ip
    · simp [List.filter_cons, h]
    · have h2 : ¬ ip = r.1 := fun e => h e.symm
      have h3 : (List.filter (fun r => decide (r.1 = ip)) (r :: rs)) =
          List.filter (fun r => decide (r.1 = ip)) rs := by simp [List.filter_cons, h]
      rw [h3, ih]
      simp [h2]

theorem exists_filter_snd (l : List (String × Int)) (id : Int) :
    decide ((l.filter (fun r => r.2 = id)).length > 0) = decide (id ∈ l.map Prod.snd) := by
  induction l with
  | nil => simp
  | cons r rs ih =>
    by_cases h : r.2 = id
    · simp [List.filter_cons, h]
    · have h2 : ¬ id = r.2 := fun e => h e.symm
      have h3 : (List.filter (fun r => decide (r.2 = id)) (r :: rs)) =
          List.filter (fun r => decide (r.2 = id)) rs := by simp [List.filter_cons, h]
      rw [h3, ih]
      simp [h2]

end projections


/-! ## The worker classifiers: promotion, demotion, quarantine -/

section worker

open database cmd

theorem ProcessGoodLine_good_tables (db : DB) (id lat : Int) (sp : ℚ) (g : Int)
    (hs : lat > 500 ∨ sp > 10) (hg : sqlGoodCount id db.tables = some g) :
    (ProcessGoodLine noFaults db id lat sp).tables =
      if g + 1 ≥ 3 then sqlInsertGoodLine id (sqlUpdateGoodCount id true db.tables)
      else sqlUpdateGoodCount id true db.tables := by
  have h1 := sqlGoodCount_update id true db.tables
  rw [hg] at h1
  simp only [Option.map_some', if_true] at h1
  simp only [ProcessGoodLine, hs, if_true, UpdateGoodCount, GetGoodCount, InsertIntoGoodLine,
    DB.Exec, DB.QueryRow, noFaults, Bool.false_eq_true, if_false, h1]
  split <;> rfl

theorem feedGood_counts (id : Int) (samples : List (Int × ℚ))
    (hgood : ∀ s ∈ samples, s.1 > 500 ∨ s.2 > 10) :
    ∀ (db : DB) (g : Int), sqlGoodCount id db.tables = some g → 0 ≤ g →
      (id ∈ db.tables.good_line ↔ 3 ≤ g) →
      sqlGoodCount id (feedGood noFaults db id samples).tables = some (g + samples.length) ∧
      (id ∈ (feedGood noFaults db id samples).tables.good_line ↔ 3 ≤ g + samples.length) := by
  induction samples with
  | nil => intro db g hg _ hm; simpa [feedGood] using ⟨hg, hm⟩
  | cons s rest ih =>
    intro db g hg h0 hm
    have hs := hgood s (List.mem_cons_self _ _)
    have ht := ProcessGoodLine_good_tables db id s.1 s.2 g hs hg
    have hstep : sqlGoodCount id (ProcessGoodLine noFaults db id s.1 s.2).tables = some (g + 1) := by
      rw [ht]
      have h1 := sqlGoodCount_update id true db.tables
      rw [hg] at h1
      split
      · simpa [sqlGoodCount, sqlInsertGoodLine, apply_ite] using h1
      · simpa using h1
    have hmem : id ∈ (ProcessGoodLine noFaults db id s.1 s.2).tables.good_line ↔ 3 ≤ g + 1 := by
      rw [ht]
      by_cases h3 : g + 1 ≥ 3
      · rw [if_pos h3]
        refine ⟨fun _ => h3, fun _ => ?_⟩
        unfold sqlInsertGoodLine
        split
        · assumption
        · simp
      · rw [if_neg h3]
        have h4 : ¬ 3 ≤ g := by omega
        exact ⟨fun hh => absurd (hm.mp hh) h4, fun hh => absurd hh h3⟩
    have := ih (fun x hx => hgood x (List.mem_cons_of_mem _ hx)) _ (g + 1) hstep (by omega) hmem
    simp only [feedGood, List.foldl_cons, List.length_cons] at this ⊢
    have e : g + 1 + (rest.length : Int) = g + ((rest.length + 1 : Nat) : Int) := by push_cast; ring
    rw [e] at this
    exact this

/-- C2 (promotion exactly at 3).  A line whose `good_count` is `0` and that is
not in `good_line` is fed any number `k` of consecutive good samples
(latency above 500 or speed above 10) through `ProcessGoodLine`, every store
statement succeeding: its `good_count` is then `k`, and it is in `good_line`
exactly when `k ≥ 3`.  The statement holds for every sample list, hence for
every prefix: not inserted after one or two calls, inserted by the third. -/
theorem promotion_exactly_at_three (db : DB) (id : Int) (samples : List (Int × ℚ))
    (hcount : sqlGoodCount id db.tables = some 0)
    (hnot : id ∉ db.tables.good_line)
    (hgood : ∀ s ∈ samples, s.1 > 500 ∨ s.2 > 10) :
    sqlGoodCount id (feedGood noFaults db id samples).tables = some (samples.length : Int) ∧
    (id ∈ (feedGood noFaults db id samples).tables.good_line ↔ 3 ≤ samples.length) := by
  have := feedGood_counts id samples hgood db 0 hcount le_rfl (by simp [hnot])
  simpa using this

/-- C2 at a concrete input: three good samples on the fresh line `1`. -/
theorem promotion_exactly_at_three_witness :
    sqlGoodCount 1 freshStore.tables = some 0 ∧ (1 : Int) ∉ freshStore.tables.good_line ∧
    sqlGoodCount 1 (feedGood noFaults freshStore 1 threeGoodSamples).tables =
      some (threeGoodSamples.length : Int) ∧
    ((1 : Int) ∈ (feedGood noFaults freshStore 1 threeGoodSamples).tables.good_line ↔
      3 ≤ threeGoodSamples.length) :=
  ⟨by decide, by decide,
    promotion_exactly_at_three freshStore 1 threeGoodSamples (by decide) (by decide)
      (by decide)⟩

end worker



section worker2

open database cmd

theorem ProcessBadLine_cases (f : Faults) (db : DB) (id lat : Int) (sp : ℚ) (ip : String) :
    (ProcessBadLine f db id lat sp ip).tables.bad_line = db.tables.bad_line ∨
    (¬ (lat > 20000 ∨ sp < 3) ∧
      (ProcessBadLine f db id lat sp ip).tables.bad_line =
        db.tables.bad_line.filter (fun r => r.1 ≠ ip)) ∨
    ((lat > 20000 ∨ sp < 3) ∧ ip ∉ db.tables.bad_line.map Prod.fst ∧
      (ProcessBadLine f db id lat sp ip).tables.bad_line = db.tables.bad_line ++ [(ip, id)]) := by
  unfold ProcessBadLine CheckNodeIDExistsInBadLine UpdateBadCount GetBadCount InsertIntoBadLine
    DeleteFromBadLine DB.Exec DB.QueryRow
  simp only [exists_filter_fst]
  rcases Bool.eq_false_or_eq_true (f db.stmts) with h0 | h0 <;>
  rcases Bool.eq_false_or_eq_true (f (db.stmts + 1)) with h1 | h1 <;>
  rcases Bool.eq_false_or_eq_true (f (db.stmts + 1 + 1)) with h2 | h2 <;>
  rcases Bool.eq_false_or_eq_true (f (db.stmts + 1 + 1 + 1)) with h3 | h3 <;>
  by_cases hb : lat > 20000 ∨ sp < 3 <;>
  by_cases hin : ip ∈ db.tables.bad_line.map Prod.fst <;>
  cases hbc : sqlBadCount id (sqlUpdateBadCount id true db.tables) <;>
  simp [h0, h1, h2, h3, hb, hin, hbc, sqlInsertBadLine_bad_line]
  all_goals (split <;> simp [sqlInsertBadLine_bad_line, hin])




theorem ProcessBadLine_good_line (f : Faults) (db : DB) (id lat : Int) (sp : ℚ) (ip : String) :
    (ProcessBadLine f db id lat sp ip).tables.good_line = db.tables.good_line := by
  unfold ProcessBadLine CheckNodeIDExistsInBadLine UpdateBadCount GetBadCount InsertIntoBadLine
    DeleteFromBadLine DB.Exec DB.QueryRow
  rcases Bool.eq_false_or_eq_true (f db.stmts) with h0 | h0 <;>
  rcases Bool.eq_false_or_eq_true (f (db.stmts + 1)) with h1 | h1 <;>
  rcases Bool.eq_false_or_eq_true (f (db.stmts + 1 + 1)) with h2 | h2 <;>
  rcases Bool.eq_false_or_eq_true (f (db.stmts + 1 + 1 + 1)) with h3 | h3 <;>
  by_cases hb : lat > 20000 ∨ sp < 3 <;>
  cases hbc : sqlBadCount id (sqlUpdateBadCount id true db.tables) <;>
  simp [h0, h1, h2, h3, hb, hbc]
  all_goals (repeat' split) <;> simp

theorem ProcessBadLine_bad_tables (db : DB) (id lat : Int) (sp : ℚ) (ip : String) (b : Int)
    (hb : lat > 20000 ∨ sp < 3) (hbc : sqlBadCount id db.tables = some b) :
    (ProcessBadLine noFaults db id lat sp ip).tables =
      if b + 1 ≥ 3 ∧ ip ∉ db.tables.bad_line.map Prod.fst then
        sqlInsertBadLine ip id (sqlUpdateBadCount id true db.tables)
      else sqlUpdateBadCount id true db.tables := by
  have h1 := sqlBadCount_update id true db.tables
  rw [hbc] at h1
  simp only [Option.map_some', if_true] at h1
  simp only [ProcessBadLine, CheckNodeIDExistsInBadLine, UpdateBadCount, GetBadCount,
    InsertIntoBadLine, DB.Exec, DB.QueryRow, noFaults, Bool.false_eq_true, if_false, h1, hb,
    decide_True, if_true, exists_filter_fst]
  by_cases hin : ip ∈ db.tables.bad_line.map Prod.fst
  · simp [hin]
  · by_cases h3 : 3 ≤ b + 1
    · simp [hin, h3]
    · simp [hin, h3]

/-- C5 (demotion on the third bad cycle).  A line whose `bad_count` is `0` and
whose outbound IP is not a key of `bad_line` receives three consecutive
`ProcessBadLine` calls with bad samples (latency above 20000 or speed below
3), every store statement succeeding: `bad_count` goes 1, 2, 3 and the row
`(outboundIP, lineID)` is absent after the first and the second call and
present after the third. -/
theorem demotion_on_third_bad_cycle (db : DB) (id : Int) (ip : String) (s1 s2 s3 : Int × ℚ)
    (hcount : sqlBadCount id db.tables = some 0)
    (hip : ip ∉ db.tables.bad_line.map Prod.fst)
    (h1 : s1.1 > 20000 ∨ s1.2 < 3) (h2 : s2.1 > 20000 ∨ s2.2 < 3)
    (h3 : s3.1 > 20000 ∨ s3.2 < 3) :
    sqlBadCount id (feedBad noFaults db id ip [s1]).tables = some 1 ∧
    sqlBadCount id (feedBad noFaults db id ip [s1, s2]).tables = some 2 ∧
    sqlBadCount id (feedBad noFaults db id ip [s1, s2, s3]).tables = some 3 ∧
    (ip, id) ∉ (feedBad noFaults db id ip [s1]).tables.bad_line ∧
    (ip, id) ∉ (feedBad noFaults db id ip [s1, s2]).tables.bad_line ∧
    (ip, id) ∈ (feedBad noFaults db id ip [s1, s2, s3]).tables.bad_line := by
  have hnot : ∀ l : List (String × Int), ip ∉ l.map Prod.fst → (ip, id) ∉ l := by
    intro l hl hm
    exact hl (List.mem_map.mpr ⟨(ip, id), hm, rfl⟩)
  have e1 := ProcessBadLine_bad_tables db id s1.1 s1.2 ip 0 h1 hcount
  simp only [zero_add, ge_iff_le, show ¬ (3 : Int) ≤ 1 by decide, false_and, if_false] at e1
  have c1 : sqlBadCount id (ProcessBadLine noFaults db id s1.1 s1.2 ip).tables = some 1 := by
    rw [e1, sqlBadCount_update, hcount]; rfl
  have e2 := ProcessBadLine_bad_tables _ id s2.1 s2.2 ip 1 h2 c1
  simp only [ge_iff_le, show ¬ (3 : Int) ≤ 1 + 1 by decide, false_and, if_false] at e2
  have c2 : sqlBadCount id (ProcessBadLine noFaults (ProcessBadLine noFaults db id s1.1 s1.2 ip)
      id s2.1 s2.2 ip).tables = some 2 := by
    rw [e2, sqlBadCount_update, c1]; rfl
  have k2 : ip ∉ (ProcessBadLine noFaults (ProcessBadLine noFaults db id s1.1 s1.2 ip)
      id s2.1 s2.2 ip).tables.bad_line.map Prod.fst := by
    rw [e2, sqlUpdateBadCount_bad_line, e1, sqlUpdateBadCount_bad_line]; exact hip
  have e3 := ProcessBadLine_bad_tables _ id s3.1 s3.2 ip 2 h3 c2
  simp only [ge_iff_le, show (3 : Int) ≤ 2 + 1 by decide, true_and, k2, not_false_eq_true,
    if_true] at e3
  simp only [feedBad, List.foldl_cons, List.foldl_nil]
  refine ⟨c1, c2, ?_, ?_, ?_, ?_⟩
  · rw [e3]
    have : sqlBadCount id (sqlInsertBadLine ip id (sqlUpdateBadCount id true
        (ProcessBadLine noFaults (ProcessBadLine noFaults db id s1.1 s1.2 ip)
          id s2.1 s2.2 ip).tables)) = sqlBadCount id (sqlUpdateBadCount id true
        (ProcessBadLine noFaults (ProcessBadLine noFaults db id s1.1 s1.2 ip)
          id s2.1 s2.2 ip).tables) := by
      simp [sqlBadCount]
    rw [this, sqlBadCount_update, c2]; rfl
  · rw [e1, sqlUpdateBadCount_bad_line]; exact hnot _ hip
  · exact hnot _ k2
  · rw [e3, sqlInsertBadLine_bad_line]
    simp [k2]

/-- C5 at a concrete input: three slow samples on the fresh line `1`. -/
theorem demotion_on_third_bad_cycle_witness :
    sqlBadCount 1 freshStore.tables = some 0 ∧
    "1.2.3.4" ∉ freshStore.tables.bad_line.map Prod.fst ∧
    (sqlBadCount 1 (feedBad noFaults freshStore 1 "1.2.3.4" [slowSample]).tables = some 1 ∧
    sqlBadCount 1 (feedBad noFaults freshStore 1 "1.2.3.4" [slowSample, slowSample]).tables =
      some 2 ∧
    sqlBadCount 1
      (feedBad noFaults freshStore 1 "1.2.3.4" [slowSample, slowSample, slowSample]).tables =
      some 3 ∧
    ("1.2.3.4", (1 : Int)) ∉ (feedBad noFaults freshStore 1 "1.2.3.4" [slowSample]).tables.bad_line ∧
    ("1.2.3.4", (1 : Int)) ∉
      (feedBad noFaults freshStore 1 "1.2.3.4" [slowSample, slowSample]).tables.bad_line ∧
    ("1.2.3.4", (1 : Int)) ∈
      (feedBad noFaults freshStore 1 "1.2.3.4"
        [slowSample, slowSample, slowSample]).tables.bad_line) :=
  ⟨by decide, by decide,
    demotion_on_third_bad_cycle freshStore 1 "1.2.3.4" slowSample slowSample slowSample
      (by decide) (by decide) (by decide) (by decide) (by decide)⟩

end worker2

section quarantine

open database cmd

theorem ProcessBadLine_present (f : Faults) (db : DB) (id lat : Int) (sp : ℚ) (ip : String)
    (hb : lat > 20000 ∨ sp < 3) (hin : ip ∈ db.tables.bad_line.map Prod.fst) :
    (ProcessBadLine f db id lat sp ip).tables.bad_line = db.tables.bad_line := by
  rcases ProcessBadLine_cases f db id lat sp ip with h | h | h
  · exact h
  · exact absurd hb h.1
  · exact absurd hin h.2.1

theorem feedBad_present (f : Faults) (id : Int) (ip : String) (samples : List (Int × ℚ))
    (hbad : ∀ s ∈ samples, s.1 > 20000 ∨ s.2 < 3) :
    ∀ db : DB, ip ∈ db.tables.bad_line.map Prod.fst →
      (feedBad f db id ip samples).tables.bad_line = db.tables.bad_line := by
  induction samples with
  | nil => intro db _; rfl
  | cons s rest ih =>
    intro db hin
    have h1 := ProcessBadLine_present f db id s.1 s.2 ip (hbad s (List.mem_cons_self _ _)) hin
    have h2 := ih (fun x hx => hbad x (List.mem_cons_of_mem _ hx))
      (ProcessBadLine f db id s.1 s.2 ip) (by rw [h1]; exact hin)
    simp only [feedBad, List.foldl_cons] at h2 ⊢
    rw [h2, h1]

theorem sqlInsertBadLine_of_mem (ip : String) (id : Int) (t : Tables)
    (h : ip ∈ t.bad_line.map Prod.fst) : sqlInsertBadLine ip id t = t := by
  unfold sqlInsertBadLine
  rw [if_pos h]

theorem sqlInsertBadLine_idem (ip : String) (id : Int) (t : Tables) :
    sqlInsertBadLine ip id (sqlInsertBadLine ip id t) = sqlInsertBadLine ip id t := by
  apply sqlInsertBadLine_of_mem
  rw [sqlInsertBadLine_bad_line]
  by_cases h : ip ∈ t.bad_line.map Prod.fst
  · rw [if_pos h]; exact h
  · rw [if_neg h]; simp

/-- C4 (idempotent quarantine insertion).  Once a `ProcessBadLine` call has
inserted `(outboundIP, lineID)` into `bad_line` (the row was absent before the
call and is present after it), any number of further `ProcessBadLine` calls
with bad samples for the same outbound IP and line id leaves `bad_line`
unchanged, whatever the store statements do, so that `bad_line` holds exactly
one row for the pair; and `InsertIntoBadLine` applied twice with the same
arguments yields the same tables as applied once. -/
theorem quarantine_insertion_idempotent (f : Faults) (db0 : DB) (id lat0 : Int) (sp0 : ℚ)
    (ip : String) (samples : List (Int × ℚ))
    (hbefore : (ip, id) ∉ db0.tables.bad_line)
    (hafter : (ip, id) ∈ (ProcessBadLine f db0 id lat0 sp0 ip).tables.bad_line)
    (hbad : ∀ s ∈ samples, s.1 > 20000 ∨ s.2 < 3) :
    (feedBad f (ProcessBadLine f db0 id lat0 sp0 ip) id ip samples).tables.bad_line =
      (ProcessBadLine f db0 id lat0 sp0 ip).tables.bad_line ∧
    (feedBad f (ProcessBadLine f db0 id lat0 sp0 ip) id ip samples).tables.bad_line.count
      (ip, id) = 1 ∧
    (∀ db : DB, (InsertIntoBadLine noFaults (InsertIntoBadLine noFaults db ip id).2 ip id).2.tables =
      (InsertIntoBadLine noFaults db ip id).2.tables) := by
  have hkey : ip ∈ (ProcessBadLine f db0 id lat0 sp0 ip).tables.bad_line.map Prod.fst :=
    List.mem_map.mpr ⟨(ip, id), hafter, rfl⟩
  have hsame := feedBad_present f id ip samples hbad _ hkey
  refine ⟨hsame, ?_, ?_⟩
  · rw [hsame]
    rcases ProcessBadLine_cases f db0 id lat0 sp0 ip with h | h | h
    · rw [h] at hafter; exact absurd hafter hbefore
    · rw [h.2] at hafter; exact absurd (List.mem_filter.mp hafter).1 hbefore
    · rw [h.2.2, List.count_append, List.count_eq_zero_of_not_mem hbefore]
      simp
  · intro db
    simp [InsertIntoBadLine, DB.Exec, noFaults, sqlInsertBadLine_idem]

/-- C4 at a concrete input: the third slow sample inserts the row, two more
slow samples follow. -/
theorem quarantine_insertion_idempotent_witness :
    ("1.2.3.4", (1 : Int)) ∉ (feedBad noFaults freshStore 1 "1.2.3.4"
      [slowSample, slowSample]).tables.bad_line ∧
    ("1.2.3.4", (1 : Int)) ∈ (ProcessBadLine noFaults (feedBad noFaults freshStore 1 "1.2.3.4"
      [slowSample, slowSample]) 1 slowSample.1 slowSample.2 "1.2.3.4").tables.bad_line ∧
    (feedBad noFaults (ProcessBadLine noFaults (feedBad noFaults freshStore 1 "1.2.3.4"
      [slowSample, slowSample]) 1 slowSample.1 slowSample.2 "1.2.3.4") 1 "1.2.3.4"
      [slowSample, slowSample]).tables.bad_line.count ("1.2.3.4", 1) = 1 :=
  ⟨by decide, by decide,
    (quarantine_insertion_idempotent noFaults
      (feedBad noFaults freshStore 1 "1.2.3.4" [slowSample, slowSample]) 1 slowSample.1
      slowSample.2 "1.2.3.4" [slowSample, slowSample] (by decide) (by decide) (by decide)).2.1⟩

end quarantine

/-! ## Dedupe cache, throughput conversion, hard exit codes -/

section probes

theorem GoMap.get_set_self {ν : Type} (m : GoMap Int ν) (k : Int) (v : ν) :
    (m.set k v).get k = some v := by
  unfold GoMap.set
  split
  · rename_i h
    unfold GoMap.get at h ⊢
    induction m with
    | nil => simp at h
    | cons e es ih =>
      by_cases he : e.1 = k
      · simp [List.find?_cons, he]
      · have : (List.find? (fun e => decide (e.1 = k)) es).map Prod.snd |>.isSome := by
          simpa [List.find?_cons, he] using h
        simpa [List.find?_cons, he] using ih this
  · rename_i h
    unfold GoMap.get at h ⊢
    have hn : List.find? (fun e => decide (e.1 = k)) m = none := by
      cases hf : List.find? (fun e => decide (e.1 = k)) m with
      | none => rfl
      | some a => simp [hf] at h
    simp [List.find?_append, hn]

theorem GoMap.find_map_other {ν : Type} (k y : Int) (v : ν) (hy : y ≠ k) (m : GoMap Int ν) :
    (List.find? (fun e => decide (e.1 = y))
      (m.map (fun e => if e.1 = k then (k, v) else e))).map Prod.snd =
    (List.find? (fun e => decide (e.1 = y)) m).map Prod.snd := by
  have hky : ¬ k = y := fun h => hy h.symm
  induction m with
  | nil => rfl
  | cons e es ih =>
    by_cases he : e.1 = k
    · have hey : ¬ e.1 = y := fun h => hky (he ▸ h)
      simp only [List.map_cons, he, if_true, List.find?_cons, hky, decide_False, hey]
      exact ih
    · by_cases hey : e.1 = y
      · have hyk : ¬ y = k := hy
        simp [List.find?_cons, he, hey, hyk]
      · simp only [List.map_cons, he, if_false, List.find?_cons, hey, decide_False]
        exact ih

theorem GoMap.get_set_other {ν : Type} (m : GoMap Int ν) (k y : Int) (v : ν) (hy : y ≠ k) :
    (m.set k v).get y = m.get y := by
  unfold GoMap.set
  split
  · exact GoMap.find_map_other k y v hy m
  · unfold GoMap.get
    have hky : ¬ k = y := fun h => hy h.symm
    cases hf : List.find? (fun e => decide (e.1 = y)) m with
    | none => simp [List.find?_append, hf, hky]
    | some a => simp [List.find?_append, hf]

/-- The dedupe step reports an id as cooling down for sixty minutes after its
insertion: the stored value is already `now + 30 min`, and the lookup adds
thirty more. -/
theorem dedupe_cooling_iff (cache : GoMap Int Int) (id t0 t : Int)
    (hfirst : (checker.dedupe cache id t0).1 = false) :
    (checker.dedupe (checker.dedupe cache id t0).2 id t).1 = true ↔ t < t0 + 60 * Minute := by
  have hset : (checker.dedupe cache id t0).2 = cache.set id (t0 + 30 * Minute) := by
    unfold checker.dedupe at hfirst ⊢
    cases hg : cache.get id with
    | none => rfl
    | some expiration =>
      rw [hg] at hfirst
      by_cases hlt : t0 - expiration < 30 * Minute
      · simp [hlt] at hfirst
      · simp [hlt]
  rw [hset]
  unfold checker.dedupe
  rw [GoMap.get_set_self]
  simp only [Minute, Second]
  split
  · simp; omega
  · simp; omega

/-- C7 (dedupe cooldown), evaluated on the code: line id `7` is first inserted
at time `0`; a lookup after 30 minutes, and one after 59 minutes, still reports
it as cooling down, and only a lookup after 60 minutes finds it eligible. -/
theorem dedupe_cooldown_lasts_sixty_minutes :
    (checker.dedupe [] 7 0).1 = false ∧
    (checker.dedupe (checker.dedupe [] 7 0).2 7 (30 * Minute)).1 = true ∧
    (checker.dedupe (checker.dedupe [] 7 0).2 7 (59 * Minute)).1 = true ∧
    (checker.dedupe (checker.dedupe [] 7 0).2 7 (60 * Minute)).1 = false := by
  decide

/-- C8 (throughput conversion).  On a zero exit with the parsed transfer rate
`r` (bytes per second) both copies of `executeCurlCommand` return
`r * 8 / (1024 * 1024)` without error; a rate of `1310720` yields exactly
`10`. -/
theorem throughput_conversion (env : Env) (w : World) (wdm : cmd.DownloadManager)
    (cdm : checker.DownloadManager) (url proxy : String) (id : Int) (ip : String) (r : ℚ)
    (hw : env.workerCurl w.workerCurls = cmd.CurlOutcome.exited 0 true (Readback.rate r))
    (hc : env.checkerCurl w.checkerCurls = checker.CurlOutcome.exited 0 (Readback.rate r)) :
    (wdm.executeCurlCommand env w url proxy id ip).1 = (r * 8 / (1024 * 1024), none) ∧
    (cdm.executeCurlCommand env w url proxy id ip).1 = (r * 8 / (1024 * 1024), none) ∧
    (r = 1310720 →
      (wdm.executeCurlCommand env w url proxy id ip).1 = (10, none) ∧
      (cdm.executeCurlCommand env w url proxy id ip).1 = (10, none)) := by
  have e1 : (wdm.executeCurlCommand env w url proxy id ip).1 = (r * 8 / (1024 * 1024), none) := by
    simp [cmd.DownloadManager.executeCurlCommand, hw]
  have e2 : (cdm.executeCurlCommand env w url proxy id ip).1 = (r * 8 / (1024 * 1024), none) := by
    simp [checker.DownloadManager.executeCurlCommand, hc]
  refine ⟨e1, e2, ?_⟩
  intro hr
  rw [e1, e2, hr]
  norm_num

/-- C8 at a concrete input: a reported rate of `1310720` bytes per second. -/
theorem throughput_conversion_witness :
    (workerManager.executeCurlCommand tenMbpsEnv {} "u" "p" 7 "1.2.3.4").1 = (10, none) ∧
    (checkerManager.executeCurlCommand tenMbpsEnv {} "u" "p" 7 "1.2.3.4").1 = (10, none) :=
  (throughput_conversion tenMbpsEnv {} workerManager checkerManager "u" "p" 7 "1.2.3.4" 1310720
    rfl rfl).2.2 rfl

/-- C9 (hard exit codes are recorded, others are not).  When the subprocess
of the worker `executeCurlCommand` exits with a non-zero code `c`, the call
returns speed `0` with an error; if `c` is 18, 28 or 97 the set at key `x` of
`ExitErrorMap` afterwards is the old set with `p` added and every other key is
as before; for every other non-zero `c` the map is unchanged. -/
theorem hard_exit_codes_recorded (env : Env) (w : World) (dm : cmd.DownloadManager)
    (url proxy : String) (x : Int) (p : String) (c : Int) (drained : Bool) (rb : Readback)
    (hc : c ≠ 0)
    (ho : env.workerCurl w.workerCurls = cmd.CurlOutcome.exited c drained rb) :
    (dm.executeCurlCommand env w url proxy x p).1.1 = 0 ∧
    (dm.executeCurlCommand env w url proxy x p).1.2 ≠ none ∧
    ((c = 18 ∨ c = 28 ∨ c = 97) →
      (∃ ips, (dm.executeCurlCommand env w url proxy x p).2.ExitErrorMap.get x = some ips ∧
        ∀ q, q ∈ ips ↔ q = p ∨ q ∈ (w.ExitErrorMap.get x).getD []) ∧
      ∀ y, y ≠ x →
        (dm.executeCurlCommand env w url proxy x p).2.ExitErrorMap.get y = w.ExitErrorMap.get y) ∧
    (¬ (c = 18 ∨ c = 28 ∨ c = 97) →
      (dm.executeCurlCommand env w url proxy x p).2.ExitErrorMap = w.ExitErrorMap) := by
  by_cases hh : c = 18 ∨ c = 28 ∨ c = 97
  · have hhard : cmd.hardExit c = true := by
      rcases hh with h | h | h <;> subst h <;> decide
    simp only [cmd.DownloadManager.executeCurlCommand, ho, hc, ne_eq, not_false_eq_true, if_true,
      hhard, hh, true_implies, not_true_eq_false, false_implies, and_true]
    refine ⟨trivial, by simp, ?_, ?_⟩
    · refine ⟨_, GoMap.get_set_self _ _ _, ?_⟩
      intro q
      cases hg : GoMap.get w.ExitErrorMap x with
      | none =>
        simp [hg, GoMap.get_set_self]
      | some ips =>
        by_cases hp : p ∈ ips
        · simp only [hg, Option.isSome_some, if_true, Option.getD_some, hp]
          constructor
          · intro h; exact Or.inr h
          · rintro (h | h)
            · rw [h]; exact hp
            · exact h
        · simp only [hg, Option.isSome_some, if_true, Option.getD_some, hp, if_false,
            List.mem_append, List.mem_singleton]
          tauto
    · intro y hy
      rw [GoMap.get_set_other _ _ _ _ hy]
      split
      · rfl
      · exact GoMap.get_set_other _ _ _ _ hy
  · have hhard : cmd.hardExit c = false := by
      simp only [cmd.hardExit, Bool.or_eq_false_iff, beq_eq_false_iff_ne, ne_eq]
      exact ⟨⟨fun h => hh (Or.inl h), fun h => hh (Or.inr (Or.inl h))⟩,
        fun h => hh (Or.inr (Or.inr h))⟩
    simp [cmd.DownloadManager.executeCurlCommand, ho, hc, hhard, hh]

/-- C9 at a concrete input: exit code `28` on line `7` with outbound IP
`1.2.3.4` and an empty map. -/
theorem hard_exit_codes_recorded_witness :
    (28 : Int) ≠ 0 ∧
    (workerManager.executeCurlCommand timeoutEnv {} "u" "p" 7 "1.2.3.4").1.1 = 0 ∧
    (workerManager.executeCurlCommand timeoutEnv {} "u" "p" 7 "1.2.3.4").2.ExitErrorMap =
      [(7, ["1.2.3.4"])] :=
  ⟨by decide,
    (hard_exit_codes_recorded timeoutEnv {} workerManager "u" "p" 7 "1.2.3.4" 28 true
      Readback.scanFailed (by decide) rfl).1,
    by decide⟩

end probes

/-! ## Throughput cycles and rotation requests -/

section rotation

open http_requests

theorem cmd_executeCurlCommand_rotations (env : Env) (dm : cmd.DownloadManager) (w : World)
    (url proxy : String) (id : Int) (ip : String) :
    (dm.executeCurlCommand env w url proxy id ip).2.rotations = w.rotations := by
  unfold cmd.DownloadManager.executeCurlCommand
  cases env.workerCurl w.workerCurls with
  | exited code drained rb =>
    by_cases h0 : code = 0 <;> by_cases hh : cmd.hardExit code = true <;>
      cases drained <;> cases rb <;> simp [h0, hh]
  | _ => rfl

theorem cmd_loop_rotations (env : Env) (dm : cmd.DownloadManager) (line : Line) (id : Int)
    (url proxy : String) (n : Nat) :
    ∀ st : World × ℚ,
      (cmd.DownloadManager.PerformDownloadTests.loop env dm line id url proxy n st).1.rotations =
        st.1.rotations := by
  induction n with
  | zero => intro st; rfl
  | succ n ih =>
    intro st
    obtain ⟨w, total⟩ := st
    have h := cmd_executeCurlCommand_rotations env dm w url proxy id line.OutboundIP
    unfold cmd.DownloadManager.PerformDownloadTests.loop
    split
    · rename_i heq
      rw [ih]
      rw [heq] at h
      exact h
    · rename_i heq
      rw [ih]
      rw [heq] at h
      exact h

theorem cmd_PerformDownloadTests_rotations (env : Env) (dm : cmd.DownloadManager) (w : World)
    (line : Line) (id : Int) :
    (dm.PerformDownloadTests env w line id).2.rotations = w.rotations := by
  have hurl : (dm.GetDownloadURL env w).2.rotations = w.rotations := by
    unfold cmd.DownloadManager.GetDownloadURL
    split
    · rfl
    · split <;> rfl
  unfold cmd.DownloadManager.PerformDownloadTests
  split
  · rename_i heq
    rw [heq] at hurl
    exact hurl
  · rename_i heq
    rw [heq] at hurl
    simp only
    split
    · split
      · rw [cmd_loop_rotations]; exact hurl
      · rw [cmd_loop_rotations]; exact hurl
    · rw [cmd_loop_rotations]; exact hurl

theorem checker_loop_add (env : Env) (dm : checker.DownloadManager) (line : Line) (id : Int)
    (url proxy : String) (a b : Nat) :
    ∀ st : World × ℚ,
      checker.DownloadManager.PerformDownloadTests.loop env dm line id url proxy (a + b) st =
        checker.DownloadManager.PerformDownloadTests.loop env dm line id url proxy b
          (checker.DownloadManager.PerformDownloadTests.loop env dm line id url proxy a st) := by
  induction a with
  | zero => intro st; simp [checker.DownloadManager.PerformDownloadTests.loop]
  | succ a ih =>
    intro st
    obtain ⟨w, total⟩ := st
    rw [Nat.succ_add]
    simp only [checker.DownloadManager.PerformDownloadTests.loop]
    split <;> exact ih _

theorem checker_executeCurlCommand_curls (env : Env) (dm : checker.DownloadManager) (w : World)
    (url proxy : String) (id : Int) (ip : String) :
    (dm.executeCurlCommand env w url proxy id ip).2.checkerCurls = w.checkerCurls + 1 := by
  unfold checker.DownloadManager.executeCurlCommand
  cases env.checkerCurl w.checkerCurls with
  | exited code rb =>
    by_cases h0 : code = 0 <;> cases rb <;> simp [h0]
  | _ => rfl

theorem checker_executeCurlCommand_trace (env : Env) (dm : checker.DownloadManager) (w : World)
    (url proxy : String) (id : Int) (ip : String) :
    ∃ post, (dm.executeCurlCommand env w url proxy id ip).2.trace = w.trace ++ post := by
  unfold checker.DownloadManager.executeCurlCommand
  cases env.checkerCurl w.checkerCurls with
  | createFailed => exact ⟨[], by simp⟩
  | exited code rb =>
    by_cases h0 : code = 0 <;> cases rb <;> exact ⟨[Event.curl id ip], by simp [h0]⟩
  | _ => exact ⟨[Event.curl id ip], rfl⟩

theorem checker_loop_curls (env : Env) (dm : checker.DownloadManager) (line : Line) (id : Int)
    (url proxy : String) (n : Nat) :
    ∀ st : World × ℚ,
      (checker.DownloadManager.PerformDownloadTests.loop env dm line id url proxy n
        st).1.checkerCurls = st.1.checkerCurls + n := by
  induction n with
  | zero => intro st; rfl
  | succ n ih =>
    intro st
    obtain ⟨w, total⟩ := st
    have h := checker_executeCurlCommand_curls env dm w url proxy id line.OutboundIP
    unfold checker.DownloadManager.PerformDownloadTests.loop
    split
    · rename_i heq
      rw [ih]
      rw [heq] at h
      dsimp only at h
      simp only [Sleep, ChangeLineIP, h]
      omega
    · rename_i heq
      rw [ih]
      rw [heq] at h
      dsimp only at h
      simp only [h]
      omega

theorem checker_loop_trace (env : Env) (dm : checker.DownloadManager) (line : Line) (id : Int)
    (url proxy : String) (n : Nat) :
    ∀ st : World × ℚ, ∃ post,
      (checker.DownloadManager.PerformDownloadTests.loop env dm line id url proxy n
        st).1.trace = st.1.trace ++ post := by
  induction n with
  | zero => intro st; exact ⟨[], by simp [checker.DownloadManager.PerformDownloadTests.loop]⟩
  | succ n ih =>
    intro st
    obtain ⟨w, total⟩ := st
    obtain ⟨p1, hp1⟩ := checker_executeCurlCommand_trace env dm w url proxy id line.OutboundIP
    unfold checker.DownloadManager.PerformDownloadTests.loop
    split
    · rename_i heq
      rw [heq] at hp1
      obtain ⟨p2, hp2⟩ := ih (Sleep (5 * Second) (ChangeLineIP env _ dm.TradeID).2, total)
      refine ⟨p1 ++ [Event.ChangeLineIP dm.TradeID, Event.Sleep (5 * Second)] ++ p2, ?_⟩
      rw [hp2]
      dsimp only [Sleep, ChangeLineIP] at hp1 ⊢
      simp [hp1]
    · rename_i heq
      rw [heq] at hp1
      obtain ⟨p2, hp2⟩ := ih (_, total + _)
      refine ⟨p1 ++ p2, ?_⟩
      rw [hp2]
      dsimp only at hp1 ⊢
      simp [hp1]

theorem checker_PerformDownloadTests_world (env : Env) (dm dm1 : checker.DownloadManager)
    (w w1 : World) (url : String) (line : Line) (id : Int)
    (hurl : dm.GetDownloadURL env w = ((url, none), dm1, w1)) :
    (dm.PerformDownloadTests env w line id).2.2 =
      (checker.DownloadManager.PerformDownloadTests.loop env dm1 line id url (proxyURL line)
        dm1.Config.Errtestnum.toNat (w1, 0)).1 := by
  unfold checker.DownloadManager.PerformDownloadTests
  rw [hurl]
  simp only
  split
  · split <;> rfl
  · rfl

/-- C10 as stated fails on the cycle that records into `ExitErrorMap`: the
worker `PerformDownloadTests` runs two attempts that both exit with code 28,
records the outbound IP, starts the second subprocess right after the first
and issues no rotation request at all. -/
theorem worker_cycle_never_rotates :
    (workerManager.PerformDownloadTests timeoutEnv {} probeLine 7).2.trace =
      [Event.curl 7 "1.2.3.4", Event.curl 7 "1.2.3.4"] ∧
    (workerManager.PerformDownloadTests timeoutEnv {} probeLine 7).2.ExitErrorMap =
      [(7, ["1.2.3.4"])] ∧
    (workerManager.PerformDownloadTests timeoutEnv {} probeLine 7).2.rotations = 0 := by
  decide

theorem checker_executeCurlCommand_map (env : Env) (dm : checker.DownloadManager) (w : World)
    (url proxy : String) (id : Int) (ip : String) :
    (dm.executeCurlCommand env w url proxy id ip).2.ExitErrorMap = w.ExitErrorMap := by
  unfold checker.DownloadManager.executeCurlCommand
  cases env.checkerCurl w.checkerCurls with
  | exited code rb =>
    by_cases h0 : code = 0 <;> cases rb <;> simp [h0]
  | _ => rfl

theorem checker_loop_map (env : Env) (dm : checker.DownloadManager) (line : Line) (id : Int)
    (url proxy : String) (n : Nat) :
    ∀ st : World × ℚ,
      (checker.DownloadManager.PerformDownloadTests.loop env dm line id url proxy n
        st).1.ExitErrorMap = st.1.ExitErrorMap := by
  induction n with
  | zero => intro st; rfl
  | succ n ih =>
    intro st
    obtain ⟨w, total⟩ := st
    have h := checker_executeCurlCommand_map env dm w url proxy id line.OutboundIP
    unfold checker.DownloadManager.PerformDownloadTests.loop
    split <;> rename_i heq <;> rw [heq] at h <;> rw [ih] <;> exact h

theorem checker_GetDownloadURL_map (env : Env) (dm : checker.DownloadManager) (w : World) :
    (dm.GetDownloadURL env w).2.2.ExitErrorMap = w.ExitErrorMap := by
  unfold checker.DownloadManager.GetDownloadURL
  split
  · rfl
  · split <;> rfl

/-- C10, amended.  The worker `PerformDownloadTests`, which is the cycle
that records into `ExitErrorMap`, issues no rotation request.  The checker
`PerformDownloadTests` (`Errtestnum` attempts, download URL obtained) leaves
`ExitErrorMap` as it is, and for every attempt `i` whose subprocess exits
with code 28 its trace of outside calls reads: everything up to the end of
attempt `i - 1`, the subprocess of attempt `i`, the `ChangeLineIP` request,
the five second pause, and only then whatever the later attempts do. -/
theorem rotation_follows_failed_attempt (env : Env) (wdm : cmd.DownloadManager)
    (cdm dm1 : checker.DownloadManager) (w w1 : World) (url : String) (line : Line) (id : Int)
    (i : Nat) (rb : Readback)
    (hurl : cdm.GetDownloadURL env w = ((url, none), dm1, w1))
    (hi : i < dm1.Config.Errtestnum.toNat)
    (hexit : env.checkerCurl (w1.checkerCurls + i) = checker.CurlOutcome.exited 28 rb) :
    (wdm.PerformDownloadTests env w line id).2.rotations = w.rotations ∧
    (cdm.PerformDownloadTests env w line id).2.2.ExitErrorMap = w.ExitErrorMap ∧
    ∃ post, (cdm.PerformDownloadTests env w line id).2.2.trace =
      (checker.DownloadManager.PerformDownloadTests.loop env dm1 line id url (proxyURL line) i
        (w1, 0)).1.trace ++
      [Event.curl id line.OutboundIP, Event.ChangeLineIP dm1.TradeID, Event.Sleep (5 * Second)] ++
      post := by
  refine ⟨cmd_PerformDownloadTests_rotations env wdm w line id, ?_, ?_⟩
  · have hm := checker_GetDownloadURL_map env cdm w
    rw [hurl] at hm
    rw [checker_PerformDownloadTests_world env cdm dm1 w w1 url line id hurl, checker_loop_map]
    exact hm
  rw [checker_PerformDownloadTests_world env cdm dm1 w w1 url line id hurl]
  obtain ⟨k, hk⟩ : ∃ k, dm1.Config.Errtestnum.toNat = i + (1 + k) :=
    ⟨dm1.Config.Errtestnum.toNat - i - 1, by omega⟩
  rw [hk, checker_loop_add, checker_loop_add]
  have hc := checker_loop_curls env dm1 line id url (proxyURL line) i (w1, 0)
  generalize checker.DownloadManager.PerformDownloadTests.loop env dm1 line id url
    (proxyURL line) i (w1, 0) = si at hc ⊢
  obtain ⟨wi, ti⟩ := si
  dsimp only at hc
  have hout : env.checkerCurl wi.checkerCurls = checker.CurlOutcome.exited 28 rb := by
    rw [hc]; exact hexit
  have hstep : (checker.DownloadManager.PerformDownloadTests.loop env dm1 line id url
      (proxyURL line) 1 (wi, ti)).1.trace =
      wi.trace ++ [Event.curl id line.OutboundIP, Event.ChangeLineIP dm1.TradeID,
        Event.Sleep (5 * Second)] := by
    simp [checker.DownloadManager.PerformDownloadTests.loop,
      checker.DownloadManager.executeCurlCommand, hout, Sleep, ChangeLineIP]
  obtain ⟨post, hpost⟩ := checker_loop_trace env dm1 line id url (proxyURL line) k
    (checker.DownloadManager.PerformDownloadTests.loop env dm1 line id url (proxyURL line) 1
      (wi, ti))
  exact ⟨post, by rw [hpost, hstep]⟩

/-- C10 (amended) at a concrete input: two checker attempts that both exit
with code 28; the first one is followed by the rotation request, and the map
stays empty. -/
theorem rotation_follows_failed_attempt_witness :
    (checkerManager.PerformDownloadTests timeoutEnv {} probeLine 7).2.2.ExitErrorMap = [] ∧
    ∃ post, (checkerManager.PerformDownloadTests timeoutEnv {} probeLine 7).2.2.trace =
      [] ++ [Event.curl 7 "1.2.3.4", Event.ChangeLineIP 592, Event.Sleep (5 * Second)] ++ post :=
  (rotation_follows_failed_attempt timeoutEnv workerManager checkerManager
    { checkerManager with downloadURL := "http://example/file" } {} { db := { stmts := 1 } }
    "http://example/file" probeLine 7 0 Readback.scanFailed (by decide) (by decide) rfl).2

end rotation

/-! ## The remediation pipeline leaves the tables alone outside its
classification block -/

section remediation

open http_requests checker

theorem QueryRow_tables {α : Type} (f : Faults) (db : DB) (q : Tables → Option α) :
    (db.QueryRow f q).2.tables = db.tables := by
  unfold DB.QueryRow
  split
  · rfl
  · split <;> rfl

theorem Exec_tables_cases (f : Faults) (db : DB) (run : Tables → Tables) :
    (db.Exec f run).2.tables = db.tables ∨ (db.Exec f run).2.tables = run db.tables := by
  unfold DB.Exec
  split
  · exact Or.inl rfl
  · exact Or.inr rfl

theorem Exec_noFaults (db : DB) (run : Tables → Tables) :
    (db.Exec noFaults run).2.tables = run db.tables := rfl

theorem Exec_preserves (P : Tables → Prop) (f : Faults) (db : DB) (run : Tables → Tables)
    (hrun : ∀ t, P t → P (run t)) (h : P db.tables) : P (db.Exec f run).2.tables := by
  rcases Exec_tables_cases f db run with e | e <;> rw [e]
  · exact h
  · exact hrun _ h

theorem TestSOCKS5_loop_db (env : Env) (a b : String) (n : Nat) :
    ∀ st : World × Int × Int, (TestSOCKS5.loop env a b n st).1.db = st.1.db := by
  induction n with
  | zero => intro st; rfl
  | succ n ih =>
    intro st
    obtain ⟨w, t, s⟩ := st
    unfold TestSOCKS5.loop
    simp only
    split <;> rw [ih]

theorem TestSOCKS5_db (env : Env) (w : World) (u p a b nn ip : String) (n : Int) :
    (TestSOCKS5 env w u p a b nn ip n).2.db = w.db := by
  have h := TestSOCKS5_loop_db env a b n.toNat (w, 0, 0)
  unfold TestSOCKS5
  generalize TestSOCKS5.loop env a b n.toNat (w, 0, 0) = r at h
  obtain ⟨w1, t, s⟩ := r
  simp only
  split <;> exact h

theorem database_GetDownloadURL_tables (f : Faults) (db : DB) :
    (database.GetDownloadURL f db).2.tables = db.tables := by
  have h := QueryRow_tables f db (fun t => t.download_url.head?)
  unfold database.GetDownloadURL
  split <;> rename_i heq <;> rw [heq] at h <;> exact h

theorem checker_GetDownloadURL_tables (env : Env) (dm : DownloadManager) (w : World) :
    (dm.GetDownloadURL env w).2.2.db.tables = w.db.tables := by
  have h := database_GetDownloadURL_tables env.dbFaults w.db
  unfold DownloadManager.GetDownloadURL
  split
  · rfl
  · split <;> rename_i heq <;> rw [heq] at h <;> exact h

theorem checker_executeCurlCommand_db (env : Env) (dm : DownloadManager) (w : World)
    (url proxy : String) (id : Int) (ip : String) :
    (dm.executeCurlCommand env w url proxy id ip).2.db = w.db := by
  unfold DownloadManager.executeCurlCommand
  cases env.checkerCurl w.checkerCurls with
  | exited code rb =>
    by_cases h0 : code = 0 <;> cases rb <;> simp [h0]
  | _ => rfl

theorem checker_loop_db (env : Env) (dm : DownloadManager) (line : Line) (id : Int)
    (url proxy : String) (n : Nat) :
    ∀ st : World × ℚ,
      (DownloadManager.PerformDownloadTests.loop env dm line id url proxy n st).1.db =
        st.1.db := by
  induction n with
  | zero => intro st; rfl
  | succ n ih =>
    intro st
    obtain ⟨w, total⟩ := st
    have h := checker_executeCurlCommand_db env dm w url proxy id line.OutboundIP
    unfold DownloadManager.PerformDownloadTests.loop
    split <;> rename_i heq <;> rw [heq] at h <;> rw [ih] <;> exact h

theorem checker_PerformDownloadTests_tables (env : Env) (dm : DownloadManager) (w : World)
    (line : Line) (id : Int) :
    (dm.PerformDownloadTests env w line id).2.2.db.tables = w.db.tables := by
  have h := checker_GetDownloadURL_tables env dm w
  unfold DownloadManager.PerformDownloadTests
  split
  · rename_i heq; rw [heq] at h; exact h
  · rename_i url dm1 w1 heq
    rw [heq] at h
    have hl := checker_loop_db env dm1 line id url (proxyURL line) dm1.Config.Errtestnum.toNat
      (w1, 0)
    simp only
    generalize DownloadManager.PerformDownloadTests.loop env dm1 line id url (proxyURL line)
      dm1.Config.Errtestnum.toNat (w1, 0) = r at hl
    obtain ⟨w2, total⟩ := r
    dsimp only at hl h ⊢
    split
    · split <;> (dsimp only; rw [hl]; exact h)
    · dsimp only; rw [hl]; exact h

theorem probe_tables (env : Env) (c : Checker) (id tid : Int) (target : String) (line : Line)
    (w : World) :
    (Checker.processRandomCityID.probe env c id tid target line w).2.db.tables = w.db.tables := by
  unfold Checker.processRandomCityID.probe
  dsimp only
  rw [checker_PerformDownloadTests_tables, TestSOCKS5_db]

theorem rotate_db (env : Env) (w : World) (tid : Int) : (rotate env w tid).db = w.db := rfl

theorem round_tables (env : Env) (c : Checker) (id tid : Int) (g : Bool) (target : String)
    (line : Line) (st : World × CycleVars × LineVars) :
    (Checker.processRandomCityID.round env c id tid g target line st).1.db.tables =
      st.1.db.tables := by
  obtain ⟨w, cv, lv⟩ := st
  have h := probe_tables env c id tid target line w
  unfold Checker.processRandomCityID.round
  dsimp only
  split
  · rename_i heq
    rw [heq] at h
    split <;> (dsimp only [rotate_db]; simpa [rotate_db] using h)
  · rename_i heq
    rw [heq] at h
    dsimp only
    split
    · simpa [rotate_db] using h
    · split
      · simpa [rotate_db] using h
      · exact h

theorem rounds_tables (env : Env) (c : Checker) (id tid : Int) (g : Bool) (target : String)
    (line : Line) (n : Nat) :
    ∀ st : World × CycleVars × LineVars,
      (Checker.processRandomCityID.rounds env c id tid g target line n st).1.db.tables =
        st.1.db.tables := by
  induction n with
  | zero => intro st; rfl
  | succ n ih =>
    intro st
    unfold Checker.processRandomCityID.rounds
    rw [ih, round_tables]

theorem retryOperation_loop_db {σ : Type} (operation : σ × World → Option GoError × σ × World)
    (hop : ∀ st, (operation st).2.2.db = st.2.db) (maxRetries sleepDuration : Int) (fuel : Nat) :
    ∀ (retryCount : Int) (st : σ × World),
      (retryOperation.loop operation maxRetries sleepDuration fuel retryCount st).2.2.db =
        st.2.db := by
  induction fuel with
  | zero => intro _ st; rfl
  | succ fuel ih =>
    intro retryCount st
    have h := hop st
    unfold retryOperation.loop
    split
    · rename_i heq; rw [heq] at h; exact h
    · rename_i heq
      rw [heq] at h
      dsimp only at h ⊢
      split
      · exact h
      · rw [ih]; exact h

theorem bind_db (env : Env) (w : World) (id tid : Int) :
    (Checker.processRandomCityID.bind env w id tid).2.2.db = w.db := by
  unfold Checker.processRandomCityID.bind retryOperation
  rw [retryOperation_loop_db]
  intro st
  rfl

theorem listing_db (env : Env) (w : World) :
    (Checker.processRandomCityID.listing env w).2.2.db = w.db := by
  unfold Checker.processRandomCityID.listing retryOperation
  rw [retryOperation_loop_db]
  intro st
  unfold GetLines
  cases GetLines.decode (env.GetLines st.2.listings) <;> rfl

theorem membership_tables (env : Env) (w : World) (id : Int) :
    (Checker.processRandomCityID.membership env w id).2.db.tables = w.db.tables := by
  unfold Checker.processRandomCityID.membership
  exact QueryRow_tables _ _ _

theorem membership_noFaults (env : Env) (w : World) (id : Int) (hf : env.dbFaults = noFaults) :
    (Checker.processRandomCityID.membership env w id).1 = decide (id ∈ w.db.tables.good_line) := by
  unfold Checker.processRandomCityID.membership DB.QueryRow
  rw [hf]
  by_cases h : id ∈ w.db.tables.good_line <;> simp [noFaults, h]

end remediation

/-! ## The classification block of the remediation pipeline -/

section classification

open database checker

theorem classify_good (f : Faults) (db : DB) (id : Int) (line : Line) (cv : CycleVars)
    (lv : LineVars) :
    Checker.processRandomCityID.classify f db id true line cv lv =
      if cv.allBelow10Mbps = true then (db.Exec f (sqlDeleteGoodLine id)).2 else db := by
  unfold Checker.processRandomCityID.classify
  simp

theorem foldl_InsertIntoBadIPs_preserves (P : Tables → Prop) (f : Faults) (id : Int)
    (hP : ∀ ip t, P t → P (sqlInsertBadIPs ip id t)) (ips : List String) :
    ∀ db : DB, P db.tables →
      P (ips.foldl (fun d ip => (InsertIntoBadIPs f d ip id).2) db).tables := by
  induction ips with
  | nil => intro db h; exact h
  | cons ip rest ih =>
    intro db h
    exact ih _ (Exec_preserves P f db _ (hP ip) h)

theorem classify_bad_preserves (P : Tables → Prop) (f : Faults) (db : DB) (id : Int)
    (line : Line) (cv : CycleVars) (lv : LineVars)
    (h1 : ∀ t, P t → P (sqlDeleteBadLine_id id t))
    (h2 : ∀ t, P t → P (sqlUpdateGoodCount id false t))
    (h3 : ∀ ip t, P t → P (sqlInsertBadIPs ip id t))
    (h4 : ∀ t, P t → P (sqlInsertBadLine line.OutboundIP id t))
    (h : P db.tables) :
    P (Checker.processRandomCityID.classify f db id false line cv lv).tables := by
  unfold Checker.processRandomCityID.classify
  simp only [Bool.false_eq_true, false_and, if_false, if_true]
  have e2 : P (DeleteFromBadLine_id f db id).2.tables := Exec_preserves P f db _ h1 h
  have e3 : P (UpdateGoodCount f (DeleteFromBadLine_id f db id).2 id false).2.tables :=
    Exec_preserves P f _ _ h2 e2
  split
  · split
    · have q := QueryRow_tables f (UpdateGoodCount f (DeleteFromBadLine_id f db id).2 id false).2
        (fun t => some (decide ((t.bad_line.filter (fun r => r.2 = id)).length > 0)))
      unfold CheckNodeIDExistsInBadLine_id
      split
      · rename_i heq; rw [heq] at q; dsimp only at q; rw [q]; exact e3
      · rename_i heq
        rw [heq] at q
        dsimp only at q
        split
        · exact foldl_InsertIntoBadIPs_preserves P f id h3 _ _ (by rw [q]; exact e3)
        · rw [q]; exact e3
    · exact e3
  · have q := QueryRow_tables f db
      (fun t => some (decide ((t.bad_line.filter (fun r => r.2 = id)).length > 0)))
    unfold CheckNodeIDExistsInBadLine_id
    split
    · rename_i heq; rw [heq] at q; dsimp only at q; rw [q]; exact h
    · rename_i heq
      rw [heq] at q
      dsimp only at q
      split
      · exact Exec_preserves P f _ _ h4 (by rw [q]; exact h)
      · rw [q]; exact h

theorem classify_resolved_tables (db : DB) (id : Int) (line : Line) (cv : CycleVars)
    (lv : LineVars) (hres : lv.errorCount ≤ 2 ∨ cv.formattedSpeed < 3)
    (hflag : lv.badOutboundIPs = []) :
    (Checker.processRandomCityID.classify noFaults db id false line cv lv).tables =
      sqlUpdateGoodCount id false (sqlDeleteBadLine_id id db.tables) := by
  unfold Checker.processRandomCityID.classify
  simp [hres, hflag, DeleteFromBadLine_id, UpdateGoodCount, Exec_noFaults]

theorem find_map_bad_count (g : City → City) (x : Int) (hid : ∀ c, (g c).id = c.id)
    (hb : ∀ c, (g c).bad_count = c.bad_count) (cs : List City) :
    ((cs.map g).find? (fun c => decide (c.id = x))).map City.bad_count =
      (cs.find? (fun c => decide (c.id = x))).map City.bad_count := by
  induction cs with
  | nil => rfl
  | cons c cs ih =>
    rw [List.map_cons, List.find?_cons, List.find?_cons, hid]
    cases decide (c.id = x)
    · exact ih
    · simp [hb]

theorem sqlBadCount_updateGood (id x : Int) (inc : Bool) (t : Tables) :
    sqlBadCount x (sqlUpdateGoodCount id inc t) = sqlBadCount x t := by
  unfold sqlBadCount sqlUpdateGoodCount
  apply find_map_bad_count
  · intro c; split <;> rfl
  · intro c; split <;> rfl

/-- C6 as stated fails: line `7` behind `1.2.3.4`, not in `good_line`, goes
through a full `processRandomCityID` cycle of three rounds at 2 Mbps without
any error or flagged IP.  Its `bad_line` row is removed and nothing is written
to `bad_ips`, but the counter that is reset is `good_count`; `bad_count`
stays at `3`.  The classification block alone shows the same. -/
theorem resolved_cycle_keeps_bad_count :
    ((watcher.processRandomCityID slowEnv quarantined 7).toOption.map
      (fun w => (w.db.tables.bad_line, w.db.tables.bad_ips, sqlGoodCount 7 w.db.tables,
        sqlBadCount 7 w.db.tables))) = some ([], [], some 0, some 3) ∧
    sqlBadCount 7 (Checker.processRandomCityID.classify noFaults quarantined.db 7 false
      probeLine slowCycle {}).tables = some 3 := by
  constructor
  · with_unfolding_all decide
  · with_unfolding_all decide

/-- C6, amended.  For a line id that is not good-sourced, the classification
of a matched line whose error count is at most 2 or whose formatted average
speed is below 3 Mbps, with no outbound IP flagged and every store statement
succeeding, removes every `bad_line` row of that line id, sets the line's
`good_count` to `0`, leaves its `bad_count` as it was and adds nothing to
`bad_ips`. -/
theorem resolved_bad_tier_line (db : DB) (id : Int) (line : Line) (cv : CycleVars)
    (lv : LineVars) (hres : lv.errorCount ≤ 2 ∨ cv.formattedSpeed < 3)
    (hflag : lv.badOutboundIPs = []) :
    id ∉ (Checker.processRandomCityID.classify noFaults db id false line cv
      lv).tables.bad_line.map Prod.snd ∧
    sqlGoodCount id (Checker.processRandomCityID.classify noFaults db id false line cv
      lv).tables = (sqlGoodCount id db.tables).map (fun _ => 0) ∧
    sqlBadCount id (Checker.processRandomCityID.classify noFaults db id false line cv
      lv).tables = sqlBadCount id db.tables ∧
    (Checker.processRandomCityID.classify noFaults db id false line cv lv).tables.bad_ips =
      db.tables.bad_ips := by
  rw [classify_resolved_tables db id line cv lv hres hflag]
  refine ⟨?_, ?_, ?_, ?_⟩
  · simp [List.mem_filter]
  · rw [sqlGoodCount_update]
    have : sqlGoodCount id (sqlDeleteBadLine_id id db.tables) = sqlGoodCount id db.tables := rfl
    rw [this]
    cases sqlGoodCount id db.tables <;> simp
  · rw [sqlBadCount_updateGood]
    rfl
  · simp

/-- C6 (amended) at the input of the scenario: line `7` behind `1.2.3.4`,
average speed 2 Mbps, no error. -/
theorem resolved_bad_tier_line_witness :
    ((({} : LineVars).errorCount ≤ 2 ∨ slowCycle.formattedSpeed < 3) ∧
      ({} : LineVars).badOutboundIPs = []) ∧
    (7 : Int) ∉ (Checker.processRandomCityID.classify noFaults quarantined.db 7 false probeLine
      slowCycle {}).tables.bad_line.map Prod.snd :=
  ⟨⟨Or.inl (by decide), rfl⟩,
    (resolved_bad_tier_line quarantined.db 7 probeLine slowCycle {} (Or.inl (by decide)) rfl).1⟩

end classification

/-! ## Statement counting through a remediation cycle -/

section counting

open http_requests checker

end counting

/-! ## Whole remediation cycles -/

section cycles

open database checker

theorem classify_preserves (P : Tables → Prop) (f : Faults) (db : DB) (id : Int) (g : Bool)
    (line : Line) (cv : CycleVars) (lv : LineVars)
    (h0 : ∀ t, P t → P (sqlDeleteGoodLine id t))
    (h1 : ∀ t, P t → P (sqlDeleteBadLine_id id t))
    (h2 : ∀ t, P t → P (sqlUpdateGoodCount id false t))
    (h3 : ∀ ip t, P t → P (sqlInsertBadIPs ip id t))
    (h4 : g = false → ∀ ip t, P t → P (sqlInsertBadLine ip id t))
    (h : P db.tables) :
    P (Checker.processRandomCityID.classify f db id g line cv lv).tables := by
  cases g with
  | true =>
    rw [classify_good]
    split
    · exact Exec_preserves P f db _ h0 h
    · exact h
  | false => exact classify_bad_preserves P f db id line cv lv h1 h2 h3 (h4 rfl _) h

theorem lines_preserves (P : Tables → Prop) (env : Env) (c : Checker) (id tid : Int) (g : Bool)
    (target : String)
    (h0 : ∀ t, P t → P (sqlDeleteGoodLine id t))
    (h1 : ∀ t, P t → P (sqlDeleteBadLine_id id t))
    (h2 : ∀ t, P t → P (sqlUpdateGoodCount id false t))
    (h3 : ∀ ip t, P t → P (sqlInsertBadIPs ip id t))
    (h4 : g = false → ∀ ip t, P t → P (sqlInsertBadLine ip id t))
    (ls : List Line) :
    ∀ st : World × CycleVars, P st.1.db.tables →
      P (Checker.processRandomCityID.lines env c id tid g target ls st).1.db.tables := by
  induction ls with
  | nil => intro st h; exact h
  | cons line rest ih =>
    intro st h
    obtain ⟨w, cv⟩ := st
    have hr := rounds_tables env c id tid g target line c.Config.Errtestnum.toNat (w, cv, {})
    unfold Checker.processRandomCityID.lines
    generalize Checker.processRandomCityID.rounds env c id tid g target line
      c.Config.Errtestnum.toNat (w, cv, {}) = r at hr
    obtain ⟨w1, cv1, lv1⟩ := r
    dsimp only at hr h ⊢
    apply ih
    dsimp only
    apply classify_preserves P _ _ _ _ _ _ _ h0 h1 h2 h3 h4
    rw [hr]
    exact h

end cycles

/-! ## Mutual exclusion of the tiers -/

section exclusion

open database checker

theorem ProcessGoodLine_preserves (P : Tables → Prop) (f : Faults) (db : DB) (id lat : Int)
    (sp : ℚ)
    (h1 : ∀ inc t, P t → P (sqlUpdateGoodCount id inc t))
    (h2 : ∀ t, P t → P (sqlInsertGoodLine id t))
    (h3 : ∀ t, P t → P (sqlDeleteGoodLine id t))
    (h : P db.tables) : P (cmd.ProcessGoodLine f db id lat sp).tables := by
  unfold cmd.ProcessGoodLine
  split
  · have e1 : P (UpdateGoodCount f db id true).2.tables := Exec_preserves P f db _ (h1 true) h
    split
    · rename_i heq; rw [heq] at e1; exact e1
    · rename_i db1 heq
      rw [heq] at e1
      dsimp only at e1
      have q := QueryRow_tables f db1 (sqlGoodCount id)
      unfold GetGoodCount
      split
      · rename_i heq2; rw [heq2] at q; dsimp only at q; rw [q]; exact e1
      · rename_i heq2
        rw [heq2] at q
        dsimp only at q
        split
        · exact Exec_preserves P f _ _ h2 (by rw [q]; exact e1)
        · rw [q]; exact e1
  · have e1 : P (UpdateGoodCount f db id false).2.tables := Exec_preserves P f db _ (h1 false) h
    split
    · rename_i heq; rw [heq] at e1; exact e1
    · rename_i db1 heq
      rw [heq] at e1
      exact Exec_preserves P f _ _ h3 e1

theorem ProcessGoodLine_lines (f : Faults) (db : DB) (id lat : Int) (sp : ℚ) :
    (∀ x ∈ (cmd.ProcessGoodLine f db id lat sp).tables.good_line,
      x ∈ db.tables.good_line ∨ x = id) ∧
    (cmd.ProcessGoodLine f db id lat sp).tables.bad_line = db.tables.bad_line := by
  apply ProcessGoodLine_preserves
    (fun t => (∀ x ∈ t.good_line, x ∈ db.tables.good_line ∨ x = id) ∧
      t.bad_line = db.tables.bad_line)
  · intro inc t ht; exact ht
  · intro t ht
    refine ⟨?_, by simpa using ht.2⟩
    intro x hx
    rw [sqlInsertGoodLine_good_line] at hx
    split at hx
    · exact ht.1 x hx
    · rcases List.mem_append.mp hx with hx | hx
      · exact ht.1 x hx
      · exact Or.inr (List.mem_singleton.mp hx)
  · intro t ht
    refine ⟨?_, by simpa using ht.2⟩
    intro x hx
    exact ht.1 x (List.mem_filter.mp hx).1
  · exact ⟨fun x hx => Or.inl hx, rfl⟩

theorem ProcessGoodLine_not_good (db : DB) (id lat : Int) (sp : ℚ)
    (h : ¬ (lat > 500 ∨ sp > 10)) :
    (cmd.ProcessGoodLine noFaults db id lat sp).tables =
      sqlDeleteGoodLine id (sqlUpdateGoodCount id false db.tables) := by
  simp [cmd.ProcessGoodLine, h, UpdateGoodCount, DeleteFromGoodLine, DB.Exec, noFaults]

theorem ProcessBadLine_not_bad (db : DB) (id lat : Int) (sp : ℚ) (ip : String)
    (h : ¬ (lat > 20000 ∨ sp < 3)) :
    (cmd.ProcessBadLine noFaults db id lat sp ip).tables.bad_line =
      db.tables.bad_line.filter (fun r => r.1 ≠ ip) := by
  by_cases hin : ip ∈ db.tables.bad_line.map Prod.fst
  · simp [cmd.ProcessBadLine, h, CheckNodeIDExistsInBadLine, UpdateBadCount, DeleteFromBadLine,
      DB.Exec, DB.QueryRow, noFaults, exists_filter_fst, hin]
  · have hfil : db.tables.bad_line.filter (fun r => r.1 ≠ ip) = db.tables.bad_line := by
      apply List.filter_eq_self.mpr
      intro r hr
      have : r.1 ≠ ip := fun e => hin (List.mem_map.mpr ⟨r, hr, e⟩)
      simpa using this
    rw [hfil]
    simp [cmd.ProcessBadLine, h, CheckNodeIDExistsInBadLine, UpdateBadCount, DeleteFromBadLine,
      DB.Exec, DB.QueryRow, noFaults, exists_filter_fst, hin]

theorem Exclusive_of_subsets (t u : Tables) (hg : ∀ x ∈ u.good_line, x ∈ t.good_line)
    (hb : ∀ x ∈ u.bad_line.map Prod.snd, x ∈ t.bad_line.map Prod.snd) (h : Exclusive t) :
    Exclusive u :=
  fun x hx hxb => h x (hg x hx) (hb x hxb)

theorem performChecks_classify_not_good (db : DB) (id : Int) (s : Sample)
    (hs : ¬ s.isGood) (h : Exclusive db.tables) :
    Exclusive (performChecks_classify noFaults db id s).tables := by
  unfold performChecks_classify
  have e1 := ProcessGoodLine_not_good db id s.avgResponseTime s.avgDownloadSpeed hs
  have e2 := ProcessBadLine_good_line noFaults
    (cmd.ProcessGoodLine noFaults db id s.avgResponseTime s.avgDownloadSpeed) id
    s.avgResponseTime s.avgDownloadSpeed s.outboundIP
  have e3 := ProcessBadLine_cases noFaults
    (cmd.ProcessGoodLine noFaults db id s.avgResponseTime s.avgDownloadSpeed) id
    s.avgResponseTime s.avgDownloadSpeed s.outboundIP
  rw [e1] at e2 e3
  simp only [sqlDeleteGoodLine_good_line, sqlDeleteGoodLine_bad_line,
    sqlUpdateGoodCount_good_line, sqlUpdateGoodCount_bad_line] at e2 e3
  intro x hx hxb
  rw [e2] at hx
  have hx1 : x ∈ db.tables.good_line := (List.mem_filter.mp hx).1
  have hx2 : x ≠ id := by simpa using (List.mem_filter.mp hx).2
  rcases e3 with e | e | e
  · rw [e] at hxb; exact h x hx1 hxb
  · rw [e.2] at hxb
    obtain ⟨r, hr, rfl⟩ := List.mem_map.mp hxb
    exact h _ hx1 (List.mem_map.mpr ⟨r, (List.mem_filter.mp hr).1, rfl⟩)
  · rw [e.2.2] at hxb
    obtain ⟨r, hr, rfl⟩ := List.mem_map.mp hxb
    rcases List.mem_append.mp hr with hr | hr
    · exact h _ hx1 (List.mem_map.mpr ⟨r, hr, rfl⟩)
    · rw [List.mem_singleton] at hr
      subst hr
      exact hx2 rfl

theorem performChecks_classify_not_bad (db : DB) (id : Int) (s : Sample)
    (hs : ¬ s.isBad) (hrows : ∀ r ∈ db.tables.bad_line, r.2 = id → r.1 = s.outboundIP)
    (h : Exclusive db.tables) :
    Exclusive (performChecks_classify noFaults db id s).tables := by
  unfold performChecks_classify
  have e1 := ProcessGoodLine_lines noFaults db id s.avgResponseTime s.avgDownloadSpeed
  have e2 := ProcessBadLine_good_line noFaults
    (cmd.ProcessGoodLine noFaults db id s.avgResponseTime s.avgDownloadSpeed) id
    s.avgResponseTime s.avgDownloadSpeed s.outboundIP
  have e3 := ProcessBadLine_not_bad
    (cmd.ProcessGoodLine noFaults db id s.avgResponseTime s.avgDownloadSpeed) id
    s.avgResponseTime s.avgDownloadSpeed s.outboundIP hs
  rw [e1.2] at e3
  intro x hx hxb
  rw [e2] at hx
  rw [e3] at hxb
  obtain ⟨r, hr, rfl⟩ := List.mem_map.mp hxb
  have hr1 := (List.mem_filter.mp hr).1
  have hr2 : r.1 ≠ s.outboundIP := by simpa using (List.mem_filter.mp hr).2
  rcases e1.1 _ hx with hx1 | hx1
  · exact h _ hx1 (List.mem_map.mpr ⟨r, hr1, rfl⟩)
  · exact hr2 (hrows r hr1 hx1)

theorem processRandomCityID_exclusive (env : Env) (c : Checker) (w w1 : World) (id : Int)
    (hf : env.dbFaults = noFaults) (h : Exclusive w.db.tables)
    (hrun : c.processRandomCityID env w id = Except.ok w1) : Exclusive w1.db.tables := by
  have hg := membership_noFaults env w id hf
  have ht := membership_tables env w id
  unfold Checker.processRandomCityID at hrun
  cases hm : Checker.processRandomCityID.membership env w id with
  | mk g w0 =>
    rw [hm] at hg ht hrun
    dsimp only at hg ht hrun
    have h0 : Exclusive w0.db.tables := by rw [ht]; exact h
    by_cases hid : id = 0
    · simp only [hid, if_true, Except.ok.injEq] at hrun
      rw [← hrun]
      exact h0
    · simp only [hid, if_false] at hrun
      cases hw : c.Config.WatchTradeID with
      | nil => rw [hw] at hrun; simp at hrun
      | cons tid more =>
        rw [hw] at hrun
        dsimp only at hrun
        have hb := bind_db env w0 id tid
        cases hbd : Checker.processRandomCityID.bind env w0 id tid with
        | mk e r1 =>
          obtain ⟨u, wb⟩ := r1
          rw [hbd] at hb hrun
          dsimp only at hb
          cases e with
          | some err =>
            simp only [Except.ok.injEq] at hrun
            rw [← hrun, hb]; exact h0
          | none =>
            dsimp only at hrun
            have hl := listing_db env wb
            cases hld : Checker.processRandomCityID.listing env wb with
            | mk e2 r2 =>
              obtain ⟨lines, wl⟩ := r2
              rw [hld] at hl hrun
              dsimp only at hl
              cases e2 with
              | some err =>
                simp only [Except.ok.injEq] at hrun
                rw [← hrun, hl, hb]; exact h0
              | none =>
                simp only [Except.ok.injEq] at hrun
                rw [← hrun]
                have hP := lines_preserves
                  (fun t => Exclusive t ∧ (g = false → id ∉ t.good_line)) env c id tid g
                  (dropScheme c.Config.ConnectBaseURL) ?_ ?_ ?_ ?_ ?_
                  (lines.filter (fun line => line.SSUser = toString tid)) (wl, {}) ?_
                · exact hP.1
                · intro t ht
                  refine ⟨Exclusive_of_subsets t _ ?_ ?_ ht.1, ?_⟩
                  · intro x hx; exact (List.mem_filter.mp hx).1
                  · intro x hx; exact hx
                  · intro _; simp
                · intro t ht
                  refine ⟨Exclusive_of_subsets t _ ?_ ?_ ht.1, ht.2⟩
                  · intro x hx; exact hx
                  · intro x hx
                    obtain ⟨r, hr, rfl⟩ := List.mem_map.mp hx
                    exact List.mem_map.mpr ⟨r, (List.mem_filter.mp hr).1, rfl⟩
                · intro t ht
                  exact ⟨Exclusive_of_subsets t _ (fun x hx => hx) (fun x hx => hx) ht.1, ht.2⟩
                · intro ip t ht
                  refine ⟨Exclusive_of_subsets t _ ?_ ?_ ht.1, ?_⟩
                  · intro x hx; simpa using hx
                  · intro x hx; simpa using hx
                  · simpa using ht.2
                · intro hgf ip t ht
                  refine ⟨?_, by simpa using ht.2⟩
                  intro x hx hxb
                  rw [sqlInsertBadLine_good_line] at hx
                  rw [sqlInsertBadLine_bad_line] at hxb
                  split at hxb
                  · exact ht.1 x hx hxb
                  · obtain ⟨r, hr, rfl⟩ := List.mem_map.mp hxb
                    rcases List.mem_append.mp hr with hr | hr
                    · exact ht.1 _ hx (List.mem_map.mpr ⟨r, hr, rfl⟩)
                    · rw [List.mem_singleton] at hr
                      subst hr
                      exact ht.2 hgf hx
                · dsimp only
                  rw [hl, hb]
                  refine ⟨h0, ?_⟩
                  intro hgf
                  rw [hgf] at hg
                  rw [ht]
                  simpa using hg.symm

/-- C1 as stated fails.  Three worker classifications of one sample with
latency 600 ms and speed 2 Mbps (good because the latency is above 500, bad
because the speed is below 3) take the fresh line `1` to a reachable state in
which it is in `good_line` and is the `randomCityID` of a `bad_line` row.
So do three slow samples behind `1.2.3.4` followed by three fast samples
behind `5.6.7.8`: the promotion leaves the row of the old outbound IP in
place. -/
theorem tiers_not_exclusive :
    (Reachable {} watcher (fun _ _ _ => True) bothTiers ∧
      (1 : Int) ∈ bothTiers.db.tables.good_line ∧
      ("1.2.3.4", (1 : Int)) ∈ bothTiers.db.tables.bad_line ∧
      ¬ Exclusive bothTiers.db.tables) ∧
    (Reachable {} watcher (fun _ _ _ => True) staleRow ∧
      (1 : Int) ∈ staleRow.db.tables.good_line ∧
      ("1.2.3.4", (1 : Int)) ∈ staleRow.db.tables.bad_line ∧
      ¬ Exclusive staleRow.db.tables) := by
  refine ⟨⟨?_, by decide, by decide, by decide⟩, ⟨?_, by decide, by decide, by decide⟩⟩
  · exact Reachable.worker _ 1 lateSample
      (Reachable.worker _ 1 lateSample
        (Reachable.worker _ 1 lateSample (Reachable.init _ (by decide)) trivial) trivial) trivial
  · exact Reachable.worker _ 1 fastAt8
      (Reachable.worker _ 1 fastAt8
        (Reachable.worker _ 1 fastAt8
          (Reachable.worker _ 1 slowAt4
            (Reachable.worker _ 1 slowAt4
              (Reachable.worker _ 1 slowAt4 (Reachable.init _ (by decide)) trivial) trivial)
            trivial) trivial) trivial) trivial

/-- C1, amended.  With every store statement succeeding, every state reached
from empty tiers by remediation cycles (`processRandomCityID`) and by the
worker pair `ProcessGoodLine` then `ProcessBadLine` keeps the tiers apart (no
line id is in `good_line` and also the `randomCityID` of a `bad_line` row),
provided each worker sample either misses the good condition (latency at most
500 and speed at most 10), or misses the bad condition (latency at most 20000
and speed at least 3) while every `bad_line` row of its line id carries the
outbound IP of the sample. -/
theorem tiers_exclusive_for_separating_samples (env : Env) (c : Checker) (w : World)
    (hf : env.dbFaults = noFaults)
    (hr : Reachable env c keepsApart w) : Exclusive w.db.tables := by
  induction hr with
  | init w hinit =>
    intro x hx
    rw [hinit.1] at hx
    simp at hx
  | worker w id s _ hs ih =>
    dsimp only
    rw [hf]
    rcases hs with hs | hs
    · exact performChecks_classify_not_good w.db id s hs ih
    · exact performChecks_classify_not_bad w.db id s hs.1 hs.2 ih
  | remediate w w1 id _ hrun ih => exact processRandomCityID_exclusive env c w w1 id hf ih hrun

/-- C1 (amended) at a concrete input: line `1` is promoted by three fast
samples, line `2` is quarantined by three slow samples. -/
theorem tiers_exclusive_for_separating_samples_witness :
    sortedTiers.db.tables.good_line = [1] ∧
    sortedTiers.db.tables.bad_line = [("1.2.3.4", 2)] ∧
    Exclusive sortedTiers.db.tables :=
  ⟨by decide, by decide,
    tiers_exclusive_for_separating_samples {} watcher sortedTiers rfl
      (Reachable.worker _ 2 slowAt4
        (Reachable.worker _ 2 slowAt4
          (Reachable.worker _ 2 slowAt4
            (Reachable.worker _ 1 fastAt8
              (Reachable.worker _ 1 fastAt8
                (Reachable.worker _ 1 fastAt8 (Reachable.init _ (by decide)) (by decide))
                (by decide)) (by decide)) (by decide)) (by decide)) (by decide))⟩

end exclusion

/-! ## The control-plane calls -/

section controlplane

open http_requests

/-- C18 (empty listing is an error).  When the body of the listing response
parses into `response`, `GetLines` returns an error exactly when
`response.Data` is empty, and otherwise it returns `response.Data` itself,
every line in its place. -/
theorem GetLines_empty_listing_is_error (env : Env) (w : World) (response : LineResponse)
    (hparsed : env.GetLines w.listings = HttpOutcome.parsed response) :
    ((∃ err, (GetLines env w).1 = Except.error err) ↔ response.Data = []) ∧
    (response.Data ≠ [] → (GetLines env w).1 = Except.ok response.Data) := by
  unfold GetLines
  rw [hparsed]
  cases hd : response.Data with
  | nil => simp [GetLines.decode, hd]
  | cons l ls => simp [GetLines.decode, hd]

theorem GetLines_empty_listing_is_error_witness :
    (((∃ err, (GetLines slowEnv {}).1 = Except.error err) ↔ [probeLine] = []) ∧
      ([probeLine] ≠ [] → (GetLines slowEnv {}).1 = Except.ok [probeLine])) ∧
    (((∃ err, (GetLines emptyListingEnv {}).1 = Except.error err) ↔ ([] : List Line) = []) ∧
      (([] : List Line) ≠ [] → (GetLines emptyListingEnv {}).1 = Except.ok [])) :=
  ⟨GetLines_empty_listing_is_error slowEnv {} { Code := 1000, Data := [probeLine] } rfl,
    GetLines_empty_listing_is_error emptyListingEnv {} { Code := 1000, Msg := "ok", Data := [] }
      rfl⟩

/-- C19 as stated fails for `GetLines`: a listing response with code `500`
and the message `denied` that carries one line is a success, and the error for
an empty listing with the success code carries neither code nor message. -/
theorem GetLines_ignores_code_and_message :
    (GetLines deniedListingEnv {}).1 = Except.ok [probeLine] ∧
    (GetLines emptyListingEnv {}).1 = Except.error GoError.other := by
  constructor <;> rfl

/-- C19, amended.  For `ChangeNode` and `ChangeLineIP` and every parsed
response, the call succeeds exactly when the code is `1000` or the message is
the success message of that call, and every other response is returned as an
error that carries the code and the message of the response.  `GetLines` reads
neither: on a parsed response it succeeds exactly when the data array is not
empty. -/
theorem control_plane_success_contract (env : Env) (w : World) (nodeID tradeID lineID : Int)
    (bound rotated : ChangeNodeResponse) (listed : LineResponse)
    (hbind : env.ChangeNode w.binds = HttpOutcome.parsed bound)
    (hrotate : env.ChangeLineIP w.rotations = HttpOutcome.parsed rotated)
    (hlist : env.GetLines w.listings = HttpOutcome.parsed listed) :
    (((ChangeNode env w nodeID tradeID).1 = none ↔
        (bound.Code = 1000 ∨ bound.Msg = "节点变更成功.")) ∧
      (¬ (bound.Code = 1000 ∨ bound.Msg = "节点变更成功.") →
        (ChangeNode env w nodeID tradeID).1 = some (GoError.rejected bound.Code bound.Msg))) ∧
    (((ChangeLineIP env w lineID).1 = none ↔
        (rotated.Code = 1000 ∨ rotated.Msg = "变更成功.")) ∧
      (¬ (rotated.Code = 1000 ∨ rotated.Msg = "变更成功.") →
        (ChangeLineIP env w lineID).1 = some (GoError.rejected rotated.Code rotated.Msg))) ∧
    ((∃ lines, (GetLines env w).1 = Except.ok lines) ↔ listed.Data ≠ []) := by
  unfold ChangeNode ChangeLineIP GetLines
  rw [hbind, hrotate, hlist]
  refine ⟨⟨?_, ?_⟩, ⟨?_, ?_⟩, ?_⟩
  · by_cases h : bound.Code = 1000 ∨ bound.Msg = "节点变更成功." <;> simp [ChangeNode.decode, h]
  · intro h; simp [ChangeNode.decode, h]
  · by_cases h : rotated.Code = 1000 ∨ rotated.Msg = "变更成功." <;>
      simp [ChangeLineIP.decode, h]
  · intro h; simp [ChangeLineIP.decode, h]
  · cases hd : listed.Data with
    | nil => simp [GetLines.decode, hd]
    | cons l ls => simp [GetLines.decode, hd]

theorem control_plane_success_contract_witness :
    (ChangeNode busyEnv {} 7 592).1 = some (GoError.rejected 4001 "busy") ∧
    (ChangeLineIP busyEnv {} 592).1 = some (GoError.rejected 4001 "busy") ∧
    ¬ (∃ lines, (GetLines busyEnv {}).1 = Except.ok lines) :=
  have h := control_plane_success_contract busyEnv {} 7 592 592 { Code := 4001, Msg := "busy" }
    { Code := 4001, Msg := "busy" } { Code := 4001, Msg := "busy" } rfl rfl rfl
  ⟨h.1.2 (by decide), h.2.1.2 (by decide), fun hex => (h.2.2.1 hex) rfl⟩

end controlplane

/-! ## The retry wrapper -/

section retry

open checker

theorem timedOperation_loop (outcomes : Nat → Option GoError) (maxRetries d : Int) :
    ∀ (fuel : Nat) (log : List Int) (w : World),
      (log.length : Int) < maxRetries → maxRetries.toNat + 1 ≤ fuel + log.length →
      ∃ m : Nat, 1 ≤ m ∧ ((log.length + m : Nat) : Int) ≤ maxRetries ∧
        (retryOperation.loop (timedOperation outcomes) maxRetries d fuel log.length
          (log, w)).2.1 = log ++ (List.range m).map (fun k : Nat => w.now + (k : Int) * d) ∧
        (retryOperation.loop (timedOperation outcomes) maxRetries d fuel log.length
          (log, w)).2.2.trace = w.trace ++ List.replicate (m - 1) (Event.Sleep d) ∧
        (∀ k, k < m - 1 → outcomes (log.length + k) ≠ none) ∧
        ((retryOperation.loop (timedOperation outcomes) maxRetries d fuel log.length
          (log, w)).1 = none ↔ outcomes (log.length + (m - 1)) = none) ∧
        ((retryOperation.loop (timedOperation outcomes) maxRetries d fuel log.length
          (log, w)).1 ≠ none → ((log.length + m : Nat) : Int) = maxRetries) := by
  intro fuel
  induction fuel with
  | zero =>
    intro log w h1 h2
    omega
  | succ fuel ih =>
    intro log w h1 h2
    unfold retryOperation.loop
    cases ho : outcomes log.length with
    | none =>
      refine ⟨1, le_refl 1, by push_cast; omega, ?_⟩
      simp [timedOperation, ho, List.range_succ]
    | some e =>
      by_cases hlast : (log.length : Int) + 1 ≥ maxRetries
      · refine ⟨1, le_refl 1, by push_cast; omega, ?_⟩
        simp only [timedOperation, ho, hlast, if_true]
        simp [ho, List.range_succ]
        omega
      · have hlen : (log ++ [w.now]).length = log.length + 1 := by simp
        obtain ⟨m, hm1, hm2, hlog, htrace, hfail, hres, herr⟩ :=
          ih (log ++ [w.now]) (Sleep d w) (by rw [hlen]; push_cast; omega) (by rw [hlen]; omega)
        rw [hlen] at hm2 hlog htrace hfail hres herr
        refine ⟨m + 1, by omega, by push_cast at hm2 ⊢; omega, ?_⟩
        simp only [timedOperation, ho, hlast, if_false]
        push_cast at hlog htrace hres herr ⊢
        refine ⟨?_, ?_, ?_, ?_, ?_⟩
        · rw [hlog, List.range_succ_eq_map, List.map_cons, List.map_map, List.append_assoc]
          simp only [Sleep, List.singleton_append, Nat.cast_zero, zero_mul, add_zero]
          congr 2
          apply List.map_congr_left
          intro k _
          simp only [Function.comp, Nat.succ_eq_add_one]
          push_cast
          ring
        · rw [htrace]
          simp only [Sleep, Nat.add_sub_cancel]
          obtain ⟨j, rfl⟩ : ∃ j, m = j + 1 := ⟨m - 1, by omega⟩
          simp [List.replicate_succ]
        · intro k hk
          rcases Nat.eq_zero_or_pos k with rfl | hpos
          · simp [ho]
          · have := hfail (k - 1) (by omega)
            have e1 : log.length + 1 + (k - 1) = log.length + k := by omega
            rwa [e1] at this
        · have e1 : log.length + 1 + (m - 1) = log.length + m := by omega
          rw [e1] at hres; exact hres
        · intro hne
          have := herr hne
          omega

/-- C13 (bounded retry).  For `maxRetries ≥ 1` and every sequence of
outcomes, `retryOperation` run on the operation whose k-th invocation returns
`outcomes k` and notes the clock: it makes `n` invocations with
`1 ≤ n ≤ maxRetries`; it returns nil exactly when one of the first
`maxRetries` outcomes is a success, and then the `n`-th invocation is the
first success; otherwise it returns an error after exactly `maxRetries`
invocations; the `k`-th invocation happens `k` sleeps after the start, and
the sleeps are `n - 1` in number. -/
theorem bounded_retry (outcomes : Nat → Option GoError) (maxRetries sleepDuration : Int)
    (w : World) (hmax : 1 ≤ maxRetries) :
    1 ≤ (timedRetry outcomes maxRetries sleepDuration w).2.1.length ∧
    ((timedRetry outcomes maxRetries sleepDuration w).2.1.length : Int) ≤ maxRetries ∧
    ((timedRetry outcomes maxRetries sleepDuration w).1 = none ↔
      ∃ k : Nat, (k : Int) < maxRetries ∧ outcomes k = none) ∧
    ((timedRetry outcomes maxRetries sleepDuration w).1 = none →
      outcomes ((timedRetry outcomes maxRetries sleepDuration w).2.1.length - 1) = none ∧
      ∀ k, k < (timedRetry outcomes maxRetries sleepDuration w).2.1.length - 1 →
        outcomes k ≠ none) ∧
    ((timedRetry outcomes maxRetries sleepDuration w).1 ≠ none →
      ((timedRetry outcomes maxRetries sleepDuration w).2.1.length : Int) = maxRetries) ∧
    (timedRetry outcomes maxRetries sleepDuration w).2.1 =
      (List.range (timedRetry outcomes maxRetries sleepDuration w).2.1.length).map
        (fun k : Nat => w.now + (k : Int) * sleepDuration) ∧
    (timedRetry outcomes maxRetries sleepDuration w).2.2.trace =
      w.trace ++ List.replicate ((timedRetry outcomes maxRetries sleepDuration w).2.1.length - 1)
        (Event.Sleep sleepDuration) := by
  obtain ⟨m, hm1, hm2, hlog, htrace, hfail, hres, herr⟩ :=
    timedOperation_loop outcomes maxRetries sleepDuration (maxRetries.toNat + 1) [] w
      (by simp; omega) (by simp)
  simp only [List.length_nil, Nat.cast_zero, List.nil_append, Nat.zero_add] at hm2 hlog htrace
  simp only [List.length_nil, Nat.cast_zero, List.nil_append, Nat.zero_add] at hfail hres herr
  have hrun : timedRetry outcomes maxRetries sleepDuration w =
      retryOperation.loop (timedOperation outcomes) maxRetries sleepDuration
        (maxRetries.toNat + 1) 0 ([], w) := rfl
  have hn : (timedRetry outcomes maxRetries sleepDuration w).2.1.length = m := by
    rw [hrun, hlog]; simp
  rw [hn]
  rw [hrun]
  refine ⟨hm1, hm2, ?_, ?_, herr, hlog, htrace⟩
  · constructor
    · intro h
      exact ⟨m - 1, by omega, hres.1 h⟩
    · intro ⟨k, hk, hok⟩
      by_contra hne
      have hm := herr hne
      rcases Nat.lt_or_ge k (m - 1) with hlt | hge
      · exact hfail k hlt hok
      · have : k = m - 1 := by omega
        rw [this] at hok
        exact hne (hres.2 hok)
  · intro h
    exact ⟨hres.1 h, hfail⟩

theorem bounded_retry_witness :
    (timedRetry thirdTimeLucky 5 Second {}).1 = none ∧
    (timedRetry thirdTimeLucky 5 Second {}).2.1 = [0, Second, 2 * Second] ∧
    (timedRetry thirdTimeLucky 5 Second {}).2.2.trace =
      [Event.Sleep Second, Event.Sleep Second] ∧
    (1 ≤ (timedRetry thirdTimeLucky 5 Second {}).2.1.length ∧
      ((timedRetry thirdTimeLucky 5 Second {}).2.1.length : Int) ≤ 5) :=
  ⟨by decide, by decide, by decide,
    (bounded_retry thirdTimeLucky 5 Second {} (by decide)).1,
    (bounded_retry thirdTimeLucky 5 Second {} (by decide)).2.1⟩

end retry

/-! ## The reachability probe -/

section reachability

theorem socks5_loop_eq_checker (env : Env) (a b : String) (n : Nat) :
    ∀ st : World × Int × Int,
      socks5.TestSOCKS5.loop env a b n st = checker.TestSOCKS5.loop env a b n st := by
  induction n with
  | zero => intro st; rfl
  | succ n ih =>
    intro ⟨w, tt, sc⟩
    unfold socks5.TestSOCKS5.loop checker.TestSOCKS5.loop
    cases env.dial w.dials <;> simp only [ih]

theorem socks5_TestSOCKS5_eq_checker (env : Env) (w : World) (u p a b nn ip : String) (n : Int) :
    socks5.TestSOCKS5 env w u p a b nn ip n = checker.TestSOCKS5 env w u p a b nn ip n := by
  unfold socks5.TestSOCKS5 checker.TestSOCKS5
  rw [socks5_loop_eq_checker]

theorem connectedTimes_succ (env : Env) (start n : Nat) :
    connectedTimes env start (n + 1) =
      (env.dial start).elapsed?.toList ++ connectedTimes env (start + 1) n := by
  unfold connectedTimes
  rw [List.range_succ_eq_map, List.filterMap_cons, List.filterMap_map]
  have hfun : ((fun i => (env.dial (start + i)).elapsed?) ∘ Nat.succ) =
      (fun i => (env.dial (start + 1 + i)).elapsed?) := by
    funext i
    simp only [Function.comp, Nat.succ_eq_add_one]
    rw [show start + (i + 1) = start + 1 + i by omega]
  rw [hfun]
  simp only [Nat.add_zero]
  cases (env.dial start).elapsed? <;> rfl

theorem TestSOCKS5_loop_counts (env : Env) (a b : String) (n : Nat) :
    ∀ (w : World) (totalTime successCount : Int),
      (checker.TestSOCKS5.loop env a b n (w, totalTime, successCount)).2 =
        (totalTime + (connectedTimes env w.dials n).sum,
          successCount + ((connectedTimes env w.dials n).length : Int)) := by
  induction n with
  | zero => intro w tt sc; simp [checker.TestSOCKS5.loop, connectedTimes]
  | succ n ih =>
    intro w tt sc
    unfold checker.TestSOCKS5.loop
    rw [connectedTimes_succ]
    cases hd : env.dial w.dials with
    | dialerFailed => simp only [ih]; simp [DialOutcome.elapsed?]
    | dialFailed => simp only [ih]; simp [DialOutcome.elapsed?]
    | connected elapsed =>
      simp only [ih]
      simp only [DialOutcome.elapsed?, Option.toList, List.singleton_append, List.sum_cons,
        List.length_cons, Nat.cast_add, Nat.cast_one, Prod.mk.injEq]
      constructor <;> ring

theorem connectedTimes_eq_nil (env : Env) (start n : Nat) :
    connectedTimes env start n = [] ↔
      ∀ i, i < n → ∀ elapsed, env.dial (start + i) ≠ DialOutcome.connected elapsed := by
  unfold connectedTimes
  rw [List.filterMap_eq_nil_iff]
  constructor
  · intro h i hi elapsed heq
    have := h i (List.mem_range.mpr hi)
    rw [heq] at this
    simp [DialOutcome.elapsed?] at this
  · intro h i hi
    have := h i (List.mem_range.mp hi)
    cases hd : env.dial (start + i) with
    | dialerFailed => rfl
    | dialFailed => rfl
    | connected elapsed => exact absurd hd (this elapsed)

theorem connectedTimes_length_le (env : Env) (start n : Nat) :
    (connectedTimes env start n).length ≤ n := by
  unfold connectedTimes
  calc _ ≤ (List.range n).length := List.length_filterMap_le _ _
    _ = n := List.length_range n

theorem checker_TestSOCKS5_result (env : Env) (w : World) (u p a b nn ip : String) (n : Int) :
    (checker.TestSOCKS5 env w u p a b nn ip n).1 =
      if connectedTimes env w.dials n.toNat = [] then (0, 0, some GoError.other)
      else (((connectedTimes env w.dials n.toNat).length : ℚ) / (n : ℚ) * 100,
        Int.tdiv (connectedTimes env w.dials n.toNat).sum
          ((connectedTimes env w.dials n.toNat).length : Int), none) := by
  unfold checker.TestSOCKS5
  have h := TestSOCKS5_loop_counts env a b n.toNat w 0 0
  rcases hl : checker.TestSOCKS5.loop env a b n.toNat (w, 0, 0) with ⟨w1, tt, sc⟩
  rw [hl] at h
  simp only [Prod.mk.injEq, zero_add] at h
  obtain ⟨h1, h2⟩ := h
  subst h1 h2
  by_cases hnil : connectedTimes env w.dials n.toNat = []
  · simp [hnil]
  · have hlen : ((connectedTimes env w.dials n.toNat).length : Int) ≠ 0 := by
      simpa using hnil
    simp [hnil, hlen]

/-- C15 (reachability fails only on zero successes).  For every attempt count
and every sequence of dial outcomes, each of the two copies of `TestSOCKS5`
returns an error exactly when none of the dials it makes connects; as soon as
one dial connects the error is nil. -/
theorem TestSOCKS5_error_iff_no_success (env : Env) (w : World) (u p a b nn ip : String)
    (n : Int) :
    ((socks5.TestSOCKS5 env w u p a b nn ip n).1.2.2 ≠ none ↔
      ∀ i, i < n.toNat → ∀ elapsed, env.dial (w.dials + i) ≠ DialOutcome.connected elapsed) ∧
    ((checker.TestSOCKS5 env w u p a b nn ip n).1.2.2 ≠ none ↔
      ∀ i, i < n.toNat → ∀ elapsed, env.dial (w.dials + i) ≠ DialOutcome.connected elapsed) := by
  rw [socks5_TestSOCKS5_eq_checker, checker_TestSOCKS5_result, ← connectedTimes_eq_nil]
  by_cases hnil : connectedTimes env w.dials n.toNat = [] <;> simp [hnil]

/-- C16 (reachability result values).  For `n ≥ 1` attempts of which `s ≥ 1`
connect with non-negative elapsed times `t1..ts`, `socks5.TestSOCKS5` returns
no error, the success rate `s / n * 100`, which lies in `(0, 100]`, and the
average latency `(t1 + ... + ts) / s` as an integer quotient: the divisor is
the number of connected dials, not `n`. -/
theorem TestSOCKS5_result_values (env : Env) (w : World) (u p a b nn ip : String) (n : Int)
    (hn : 1 ≤ n) (hs : 1 ≤ (connectedTimes env w.dials n.toNat).length)
    (hnonneg : ∀ t ∈ connectedTimes env w.dials n.toNat, 0 ≤ t) :
    (socks5.TestSOCKS5 env w u p a b nn ip n).1.2.2 = none ∧
    (socks5.TestSOCKS5 env w u p a b nn ip n).1.1 =
      ((connectedTimes env w.dials n.toNat).length : ℚ) / (n : ℚ) * 100 ∧
    0 < (socks5.TestSOCKS5 env w u p a b nn ip n).1.1 ∧
    (socks5.TestSOCKS5 env w u p a b nn ip n).1.1 ≤ 100 ∧
    (socks5.TestSOCKS5 env w u p a b nn ip n).1.2.1 =
      (connectedTimes env w.dials n.toNat).sum /
        ((connectedTimes env w.dials n.toNat).length : Int) := by
  have hnil : connectedTimes env w.dials n.toNat ≠ [] := by
    intro h; rw [h] at hs; simp at hs
  rw [socks5_TestSOCKS5_eq_checker, checker_TestSOCKS5_result, if_neg hnil]
  have hle := connectedTimes_length_le env w.dials n.toNat
  have hnq : (0 : ℚ) < (n : ℚ) := by exact_mod_cast (by omega : (0 : Int) < n)
  have hsq : (0 : ℚ) < ((connectedTimes env w.dials n.toNat).length : ℚ) := by
    exact_mod_cast (by omega : 0 < (connectedTimes env w.dials n.toNat).length)
  have hsn : ((connectedTimes env w.dials n.toNat).length : ℚ) ≤ (n : ℚ) := by
    have : ((connectedTimes env w.dials n.toNat).length : Int) ≤ n := by omega
    exact_mod_cast this
  have hsum : 0 ≤ (connectedTimes env w.dials n.toNat).sum := List.sum_nonneg hnonneg
  refine ⟨rfl, rfl, ?_, ?_, ?_⟩
  · positivity
  · show _ / _ * 100 ≤ (100 : ℚ)
    rw [div_mul_eq_mul_div, div_le_iff₀ hnq]
    nlinarith
  · exact Int.tdiv_eq_ediv hsum (by omega)

theorem TestSOCKS5_result_values_witness :
    (1 ≤ (connectedTimes flakyDialEnv 0 10).length ∧
      connectedTimes flakyDialEnv 0 10 = [30, 41, 30, 41, 30, 41]) ∧
    (socks5.TestSOCKS5 flakyDialEnv {} "u" "p" "a" "b" "n" "ip" 10).1.1 = (6 : ℚ) / 10 * 100 ∧
    (socks5.TestSOCKS5 flakyDialEnv {} "u" "p" "a" "b" "n" "ip" 10).1.2.1 = 213 / 6 :=
  have h := TestSOCKS5_result_values flakyDialEnv {} "u" "p" "a" "b" "n" "ip" 10 (by decide)
    (by decide) (by decide)
  ⟨⟨by decide, by decide⟩, h.2.1, h.2.2.2.2⟩

end reachability

/-! ## The two counters under one worker sample -/

section counters

open database

theorem find_map_good_count (g : City → City) (x : Int) (hid : ∀ c, (g c).id = c.id)
    (hb : ∀ c, (g c).good_count = c.good_count) (cs : List City) :
    ((cs.map g).find? (fun c => decide (c.id = x))).map City.good_count =
      (cs.find? (fun c => decide (c.id = x))).map City.good_count := by
  induction cs with
  | nil => rfl
  | cons c cs ih =>
    rw [List.map_cons, List.find?_cons, List.find?_cons, hid]
    cases decide (c.id = x)
    · exact ih
    · simp [hb]

theorem sqlGoodCount_updateBad (id x : Int) (inc : Bool) (t : Tables) :
    sqlGoodCount x (sqlUpdateBadCount id inc t) = sqlGoodCount x t := by
  unfold sqlGoodCount sqlUpdateBadCount
  apply find_map_good_count
  · intro c; split <;> rfl
  · intro c; split <;> rfl

theorem sqlGoodCount_of_cities (x : Int) (t u : Tables) (h : u.cities = t.cities) :
    sqlGoodCount x u = sqlGoodCount x t := by
  unfold sqlGoodCount; rw [h]

theorem sqlBadCount_of_cities (x : Int) (t u : Tables) (h : u.cities = t.cities) :
    sqlBadCount x u = sqlBadCount x t := by
  unfold sqlBadCount; rw [h]

theorem ProcessGoodLine_counts (db : DB) (id lat : Int) (sp : ℚ) (g : Int)
    (hg : sqlGoodCount id db.tables = some g) :
    sqlGoodCount id (cmd.ProcessGoodLine noFaults db id lat sp).tables =
      some (if lat > 500 ∨ sp > 10 then g + 1 else 0) ∧
    sqlBadCount id (cmd.ProcessGoodLine noFaults db id lat sp).tables =
      sqlBadCount id db.tables := by
  by_cases hs : lat > 500 ∨ sp > 10
  · rw [ProcessGoodLine_good_tables db id lat sp g hs hg, if_pos hs]
    split
    · rw [sqlGoodCount_of_cities id _ _ (sqlInsertGoodLine_cities id _),
        sqlBadCount_of_cities id _ _ (sqlInsertGoodLine_cities id _), sqlGoodCount_update, hg,
        sqlBadCount_updateGood]
      simp
    · rw [sqlGoodCount_update, hg, sqlBadCount_updateGood]
      simp
  · rw [ProcessGoodLine_not_good db id lat sp hs, if_neg hs,
      sqlGoodCount_of_cities id _ _ (sqlDeleteGoodLine_cities id _),
      sqlBadCount_of_cities id _ _ (sqlDeleteGoodLine_cities id _), sqlGoodCount_update, hg,
      sqlBadCount_updateGood]
    simp

theorem ProcessBadLine_not_bad_tables (db : DB) (id lat : Int) (sp : ℚ) (ip : String)
    (h : ¬ (lat > 20000 ∨ sp < 3)) :
    (cmd.ProcessBadLine noFaults db id lat sp ip).tables =
      if ip ∈ db.tables.bad_line.map Prod.fst then
        sqlDeleteBadLine ip (sqlUpdateBadCount id false db.tables)
      else sqlUpdateBadCount id false db.tables := by
  by_cases hin : ip ∈ db.tables.bad_line.map Prod.fst
  · simp [cmd.ProcessBadLine, h, CheckNodeIDExistsInBadLine, UpdateBadCount, DeleteFromBadLine,
      DB.Exec, DB.QueryRow, noFaults, exists_filter_fst, hin]
  · simp [cmd.ProcessBadLine, h, CheckNodeIDExistsInBadLine, UpdateBadCount, DeleteFromBadLine,
      DB.Exec, DB.QueryRow, noFaults, exists_filter_fst, hin]

theorem ProcessBadLine_counts (db : DB) (id lat : Int) (sp : ℚ) (ip : String) (b : Int)
    (hb : sqlBadCount id db.tables = some b) :
    sqlBadCount id (cmd.ProcessBadLine noFaults db id lat sp ip).tables =
      some (if lat > 20000 ∨ sp < 3 then b + 1 else 0) ∧
    sqlGoodCount id (cmd.ProcessBadLine noFaults db id lat sp ip).tables =
      sqlGoodCount id db.tables := by
  by_cases hs : lat > 20000 ∨ sp < 3
  · rw [ProcessBadLine_bad_tables db id lat sp ip b hs hb, if_pos hs]
    split
    · rw [sqlGoodCount_of_cities id _ _ (sqlInsertBadLine_cities ip id _),
        sqlBadCount_of_cities id _ _ (sqlInsertBadLine_cities ip id _), sqlBadCount_update, hb,
        sqlGoodCount_updateBad]
      simp
    · rw [sqlBadCount_update, hb, sqlGoodCount_updateBad]
      simp
  · rw [ProcessBadLine_not_bad_tables db id lat sp ip hs, if_neg hs]
    split
    · rw [sqlGoodCount_of_cities id _ _ (sqlDeleteBadLine_cities ip _),
        sqlBadCount_of_cities id _ _ (sqlDeleteBadLine_cities ip _), sqlBadCount_update, hb,
        sqlGoodCount_updateBad]
      simp
    · rw [sqlBadCount_update, hb, sqlGoodCount_updateBad]
      simp

/-- C20 as stated fails: the sample with latency `600` and speed `2` meets
the good and the bad condition at once, and on a line whose counters are both
`0` the two classifier calls leave `good_count = 1` and `bad_count = 1`: both
counters are incremented by the one sample and neither is reset. -/
theorem both_counters_incremented :
    (lateSample.isGood ∧ lateSample.isBad) ∧
    (sqlGoodCount 1 freshStore.tables = some 0 ∧ sqlBadCount 1 freshStore.tables = some 0) ∧
    sqlGoodCount 1 (performChecks_classify noFaults freshStore 1 lateSample).tables = some 1 ∧
    sqlBadCount 1 (performChecks_classify noFaults freshStore 1 lateSample).tables = some 1 := by
  refine ⟨⟨?_, ?_⟩, ⟨?_, ?_⟩, ?_, ?_⟩ <;> with_unfolding_all decide

/-- C20, amended.  Every store statement succeeding, on a line whose row
holds the counters `g` and `b`, the pair `ProcessGoodLine`, `ProcessBadLine`
leaves `good_count = g + 1` when the sample meets the good condition and `0`
otherwise, and `bad_count = b + 1` when it meets the bad condition and `0`
otherwise.  So a sample that meets the bad condition only resets
`good_count`, a sample that meets the good condition only resets `bad_count`,
and a sample that meets both increments both. -/
theorem opposing_signal_resets (db : DB) (id : Int) (s : Sample) (g b : Int)
    (hg : sqlGoodCount id db.tables = some g) (hb : sqlBadCount id db.tables = some b) :
    sqlGoodCount id (performChecks_classify noFaults db id s).tables =
      some (if s.isGood then g + 1 else 0) ∧
    sqlBadCount id (performChecks_classify noFaults db id s).tables =
      some (if s.isBad then b + 1 else 0) ∧
    (s.isBad ∧ ¬ s.isGood →
      sqlBadCount id (performChecks_classify noFaults db id s).tables = some (b + 1) ∧
      sqlGoodCount id (performChecks_classify noFaults db id s).tables = some 0) ∧
    (s.isGood ∧ ¬ s.isBad →
      sqlGoodCount id (performChecks_classify noFaults db id s).tables = some (g + 1) ∧
      sqlBadCount id (performChecks_classify noFaults db id s).tables = some 0) := by
  have h1 := ProcessGoodLine_counts db id s.avgResponseTime s.avgDownloadSpeed g hg
  have h2 := ProcessBadLine_counts
    (cmd.ProcessGoodLine noFaults db id s.avgResponseTime s.avgDownloadSpeed) id
    s.avgResponseTime s.avgDownloadSpeed s.outboundIP b (by rw [h1.2]; exact hb)
  have hgood : sqlGoodCount id (performChecks_classify noFaults db id s).tables =
      some (if s.isGood then g + 1 else 0) := by
    unfold performChecks_classify Sample.isGood
    rw [h2.2, h1.1]
  have hbad : sqlBadCount id (performChecks_classify noFaults db id s).tables =
      some (if s.isBad then b + 1 else 0) := by
    unfold performChecks_classify Sample.isBad
    rw [h2.1]
  refine ⟨hgood, hbad, ?_, ?_⟩
  · intro ⟨hB, hG⟩
    rw [hgood, hbad, if_pos hB, if_neg hG]
    exact ⟨rfl, rfl⟩
  · intro ⟨hG, hB⟩
    rw [hgood, hbad, if_pos hG, if_neg hB]
    exact ⟨rfl, rfl⟩

theorem opposing_signal_resets_witness :
    (slowAt4.isBad ∧ ¬ slowAt4.isGood) ∧
    sqlBadCount 1 (performChecks_classify noFaults bothTiers.db 1 slowAt4).tables = some (3 + 1) ∧
    sqlGoodCount 1 (performChecks_classify noFaults bothTiers.db 1 slowAt4).tables = some 0 :=
  ⟨by with_unfolding_all decide,
    (opposing_signal_resets bothTiers.db 1 slowAt4 3 3 (by with_unfolding_all decide)
      (by with_unfolding_all decide)).2.2.1 (by with_unfolding_all decide)⟩

end counters

/-! ## The worker cycle -/

section workercycle

open database
open http_requests (Line Config)

theorem ProcessBadLine_preserves (P : Tables → Prop) (f : Faults) (db : DB) (id lat : Int)
    (sp : ℚ) (ip : String)
    (h1 : ∀ inc t, P t → P (sqlUpdateBadCount id inc t))
    (h2 : ∀ t, P t → P (sqlInsertBadLine ip id t))
    (h3 : ∀ t, P t → P (sqlDeleteBadLine ip t))
    (h : P db.tables) : P (cmd.ProcessBadLine f db id lat sp ip).tables := by
  unfold cmd.ProcessBadLine
  have q0 := QueryRow_tables f db
    (fun t => some (decide ((t.bad_line.filter (fun r => r.1 = ip)).length > 0)))
  unfold CheckNodeIDExistsInBadLine
  split
  · rename_i heq; rw [heq] at q0; dsimp only at q0 ⊢; rw [q0]; exact h
  · rename_i present db0 heq
    rw [heq] at q0
    dsimp only at q0 ⊢
    have h0 : P db0.tables := by rw [q0]; exact h
    split
    · have e1 : P (UpdateBadCount f db0 id true).2.tables :=
        Exec_preserves P f db0 _ (h1 true) h0
      split
      · rename_i heq1; rw [heq1] at e1; exact e1
      · rename_i db1 heq1
        rw [heq1] at e1
        dsimp only at e1
        have q := QueryRow_tables f db1 (sqlBadCount id)
        unfold GetBadCount
        split
        · rename_i heq2; rw [heq2] at q; dsimp only at q; rw [q]; exact e1
        · rename_i heq2
          rw [heq2] at q
          dsimp only at q
          split
          · exact Exec_preserves P f _ _ h2 (by rw [q]; exact e1)
          · rw [q]; exact e1
    · have e1 : P (UpdateBadCount f db0 id false).2.tables :=
        Exec_preserves P f db0 _ (h1 false) h0
      split
      · rename_i heq1; rw [heq1] at e1; exact e1
      · rename_i db1 heq1
        rw [heq1] at e1
        split
        · exact Exec_preserves P f _ _ h3 e1
        · exact e1

theorem performChecks_classify_results (f : Faults) (db : DB) (id : Int) (s : Sample) :
    (performChecks_classify f db id s).tables.node_test_results =
      db.tables.node_test_results := by
  unfold performChecks_classify
  apply ProcessBadLine_preserves (fun t => t.node_test_results = db.tables.node_test_results)
  · intro inc t ht; exact ht
  · intro t ht; rw [← ht]; unfold sqlInsertBadLine; split <;> rfl
  · intro t ht; exact ht
  · apply ProcessGoodLine_preserves
      (fun t => t.node_test_results = db.tables.node_test_results)
    · intro inc t ht; exact ht
    · intro t ht; rw [← ht]; unfold sqlInsertGoodLine; split <;> rfl
    · intro t ht; exact ht
    · rfl

theorem changeNode_binds (env : Env) (id tid : Int) (n : Nat) :
    ∀ w : World, (performChecks.changeNode env id tid n w).2.binds ≤ w.binds + n := by
  induction n with
  | zero => intro w; exact le_refl _
  | succ n ih =>
    intro w
    unfold performChecks.changeNode http_requests.ChangeNode
    cases http_requests.ChangeNode.decode (env.ChangeNode w.binds) with
    | none => dsimp only; omega
    | some e =>
      dsimp only
      split
      · dsimp only; omega
      · have := ih (Sleep (2 * Second)
          { w with binds := w.binds + 1, trace := w.trace ++ [Event.ChangeNode id tid] })
        simp only [Sleep] at this ⊢
        omega

/-- C14 (bind exhaustion aborts the cycle).  The bind loop of `performChecks`
makes at most three `ChangeNode` calls.  When the city ids are read and the
three calls fail, `performChecks` returns normally after exactly three binds
two seconds apart: no listing is fetched, no dial and no subprocess is
started, the tables (samples, counters, both tiers) and `ExitErrorMap` are as
before, and the semaphore slot taken at entry is given back. -/
theorem bind_exhaustion_aborts_cycle (env : Env) (w : World) (tradeID : Int) (config : Config)
    (targetAddr : String)
    (hread : env.dbFaults w.db.stmts = false)
    (hcities : w.db.tables.cities ≠ [])
    (hfail : ∀ i, i < 3 → http_requests.ChangeNode.decode (env.ChangeNode (w.binds + i)) ≠ none) :
    (∀ (id : Int) (v : World),
      (performChecks.changeNode env id tradeID 3 v).2.binds ≤ v.binds + 3) ∧
    ∃ (w1 : World) (id : Int),
      performChecks env w tradeID config targetAddr = Except.ok w1 ∧
      w1.trace = w.trace ++ [Event.ChangeNode id tradeID, Event.Sleep (2 * Second),
        Event.ChangeNode id tradeID, Event.Sleep (2 * Second), Event.ChangeNode id tradeID] ∧
      w1.binds = w.binds + 3 ∧ w1.listings = w.listings ∧ w1.dials = w.dials ∧
      w1.workerCurls = w.workerCurls ∧ w1.db.tables = w.db.tables ∧
      w1.ExitErrorMap = w.ExitErrorMap ∧ w1.sem = w.sem := by
  refine ⟨fun id v => changeNode_binds env id tradeID 3 v, ?_⟩
  have h0 := hfail 0 (by omega)
  have h1 := hfail 1 (by omega)
  have h2 := hfail 2 (by omega)
  have hlen : ¬ ((w.db.tables.cities.map City.id).length = 0) := by
    simpa using hcities
  rcases hd0 : http_requests.ChangeNode.decode (env.ChangeNode (w.binds + 0)) with _ | e0
  · exact absurd hd0 h0
  rcases hd1 : http_requests.ChangeNode.decode (env.ChangeNode (w.binds + 1)) with _ | e1
  · exact absurd hd1 h1
  rcases hd2 : http_requests.ChangeNode.decode (env.ChangeNode (w.binds + 2)) with _ | e2
  · exact absurd hd2 h2
  rw [Nat.add_zero] at hd0
  have key : performChecks env w tradeID config targetAddr = Except.ok
      { w with
        db := { w.db with stmts := w.db.stmts + 1 }
        randoms := w.randoms + 1
        binds := w.binds + 3
        now := w.now + 2 * Second + 2 * Second
        sem := w.sem + 1 - 1
        trace := w.trace ++ [Event.ChangeNode ((w.db.tables.cities.map City.id).getD
            (env.rand w.randoms % (w.db.tables.cities.map City.id).length) 0) tradeID,
          Event.Sleep (2 * Second),
          Event.ChangeNode ((w.db.tables.cities.map City.id).getD
            (env.rand w.randoms % (w.db.tables.cities.map City.id).length) 0) tradeID,
          Event.Sleep (2 * Second),
          Event.ChangeNode ((w.db.tables.cities.map City.id).getD
            (env.rand w.randoms % (w.db.tables.cities.map City.id).length) 0) tradeID] } := by
    unfold performChecks
    simp only [GetAllCityIDs, DB.Query, hread, Bool.false_eq_true, if_false, hlen]
    simp only [performChecks.changeNode, http_requests.ChangeNode, hd0, hd1, hd2, Sleep,
      Nat.add_assoc, Nat.reduceAdd, OfNat.ofNat_ne_zero, if_false, if_true,
      List.append_assoc, List.singleton_append, List.cons_append, List.nil_append]
    rfl
  exact ⟨_, _, key, rfl, rfl, rfl, rfl, rfl, rfl, rfl, Nat.add_sub_cancel w.sem 1⟩

theorem bind_exhaustion_aborts_cycle_witness :
    ∃ (w1 : World) (id : Int),
      performChecks busyEnv freshWorld 592 {} "example:80" = Except.ok w1 ∧
      w1.trace = freshWorld.trace ++ [Event.ChangeNode id 592, Event.Sleep (2 * Second),
        Event.ChangeNode id 592, Event.Sleep (2 * Second), Event.ChangeNode id 592] ∧
      w1.binds = freshWorld.binds + 3 ∧ w1.listings = freshWorld.listings ∧
      w1.dials = freshWorld.dials ∧ w1.workerCurls = freshWorld.workerCurls ∧
      w1.db.tables = freshWorld.db.tables ∧ w1.ExitErrorMap = freshWorld.ExitErrorMap ∧
      w1.sem = freshWorld.sem :=
  (bind_exhaustion_aborts_cycle busyEnv freshWorld 592 {} "example:80" rfl (by decide)
    (fun i _ => by simp [busyEnv, http_requests.ChangeNode.decode])).2

/-- C17 (reachability failure degrades).  In the body that `performChecks`
runs for a matched line, when the ten-attempt `TestSOCKS5` returns an error
the throughput cycle is run all the same, on the state the probe left; when
that cycle returns `speed` without error, `SaveNodeTestResult` is called with
success rate `0` and latency `-1` and the two classifiers receive latency
`-1` and `speed`; the row that a successful insert adds to
`node_test_results` carries these values. -/
theorem reachability_failure_degrades (env : Env) (dm : cmd.DownloadManager)
    (targetAddr : String) (id : Int) (w w1 w2 : World) (line : Line) (speed : ℚ)
    (r : ℚ × Int × Option GoError)
    (hprobe : cmd.Socks5Tester.TestSOCKS5 env w line.SSUser line.SSPass line.EndpointAddr
      targetAddr line.NodeName line.OutboundIP 10 = (r, w1))
    (herr : r.2.2 ≠ none)
    (hcycle : dm.PerformDownloadTests env w1 line id = ((speed, none), w2)) :
    (performChecks.line env dm targetAddr id w line).db =
      performChecks_classify env.dbFaults
        (SaveNodeTestResult env.dbFaults w2.db (removeLeadingChar line.NodeName) 0 (-1) speed
          id).2 id
        { avgResponseTime := -1, avgDownloadSpeed := speed, outboundIP := line.OutboundIP } ∧
    (env.dbFaults w2.db.stmts = false →
      (performChecks.line env dm targetAddr id w line).db.tables.node_test_results =
        w2.db.tables.node_test_results ++
          [{ node_name := removeLeadingChar line.NodeName
             success_rate := 0
             avg_response_time := -1
             outbound_ip := ""
             download_rate := speed
             node_id := id }]) := by
  obtain ⟨rate, latency, err⟩ := r
  have hsome : err.isSome = true := by
    cases err with
    | none => exact absurd rfl herr
    | some e => rfl
  have hdb : (performChecks.line env dm targetAddr id w line).db =
      performChecks_classify env.dbFaults
        (SaveNodeTestResult env.dbFaults w2.db (removeLeadingChar line.NodeName) 0 (-1) speed
          id).2 id
        { avgResponseTime := -1, avgDownloadSpeed := speed, outboundIP := line.OutboundIP } := by
    unfold performChecks.line
    rw [hprobe]
    simp only [hsome, if_true]
    rw [hcycle]
  refine ⟨hdb, ?_⟩
  intro hok
  rw [hdb, performChecks_classify_results]
  simp [SaveNodeTestResult, DB.Exec, hok, sqlInsertNodeTestResult]

theorem reachability_failure_degrades_witness :
    (performChecks.line unreachableEnv workerManager "example:80" 1 freshWorld
      probeLine).db.tables.node_test_results =
      [{ node_name := removeLeadingChar probeLine.NodeName
         success_rate := 0
         avg_response_time := -1
         outbound_ip := ""
         download_rate := 10
         node_id := 1 }] :=
  (reachability_failure_degrades unreachableEnv workerManager "example:80" 1 freshWorld
    (cmd.Socks5Tester.TestSOCKS5 unreachableEnv freshWorld probeLine.SSUser probeLine.SSPass
      probeLine.EndpointAddr "example:80" probeLine.NodeName probeLine.OutboundIP 10).2
    (workerManager.PerformDownloadTests unreachableEnv
      (cmd.Socks5Tester.TestSOCKS5 unreachableEnv freshWorld probeLine.SSUser probeLine.SSPass
        probeLine.EndpointAddr "example:80" probeLine.NodeName probeLine.OutboundIP 10).2
      probeLine 1).2
    probeLine 10 (0, 0, some GoError.other) (by decide) (by decide)
    (by with_unfolding_all decide)).2 (by decide)

end workercycle

/-! ## The scanner: one line per scan, fallback to the good tier -/

section scanner

open database checker http_requests
open http_requests (Line Config)

theorem GoMap.get_delete_self {ν : Type} (m : GoMap Int ν) (k : Int) :
    (m.delete k).get k = none := by
  unfold GoMap.get GoMap.delete
  induction m with
  | nil => rfl
  | cons e m ih =>
    by_cases h : e.1 = k
    · rw [List.filter_cons_of_neg (by simpa using h)]; exact ih
    · rw [List.filter_cons_of_pos (by simpa using h), List.find?_cons_of_neg]
      · exact ih
      · simpa using h

theorem GoMap.get_delete_other {ν : Type} (m : GoMap Int ν) (k j : Int) (hj : j ≠ k) :
    (m.delete k).get j = m.get j := by
  unfold GoMap.get GoMap.delete
  induction m with
  | nil => rfl
  | cons e m ih =>
    by_cases h : e.1 = k
    · have hne : ¬ e.1 = j := fun e1 => hj (e1.symm.trans h)
      rw [List.filter_cons_of_neg (by simpa using h), List.find?_cons_of_neg (l := m)]
      · exact ih
      · simpa using hne
    · rw [List.filter_cons_of_pos (by simpa using h)]
      by_cases h2 : e.1 = j
      · rw [List.find?_cons_of_pos, List.find?_cons_of_pos] <;> simpa using h2
      · rw [List.find?_cons_of_neg, List.find?_cons_of_neg (l := m)]
        · exact ih
        · simpa using h2
        · simpa using h2

theorem TestSOCKS5_loop_map (env : Env) (a b : String) (n : Nat) :
    ∀ st : World × Int × Int,
      (TestSOCKS5.loop env a b n st).1.ExitErrorMap = st.1.ExitErrorMap := by
  induction n with
  | zero => intro st; rfl
  | succ n ih =>
    intro st
    obtain ⟨w, t, s⟩ := st
    unfold TestSOCKS5.loop
    simp only
    split <;> rw [ih]

theorem TestSOCKS5_map (env : Env) (w : World) (u p a b nn ip : String) (n : Int) :
    (TestSOCKS5 env w u p a b nn ip n).2.ExitErrorMap = w.ExitErrorMap := by
  have h := TestSOCKS5_loop_map env a b n.toNat (w, 0, 0)
  unfold TestSOCKS5
  generalize TestSOCKS5.loop env a b n.toNat (w, 0, 0) = r at h
  obtain ⟨w1, t, s⟩ := r
  simp only
  split <;> exact h

theorem checker_PerformDownloadTests_map (env : Env) (dm : DownloadManager) (w : World)
    (line : Line) (id : Int) :
    (dm.PerformDownloadTests env w line id).2.2.ExitErrorMap = w.ExitErrorMap := by
  have h := checker_GetDownloadURL_map env dm w
  unfold DownloadManager.PerformDownloadTests
  split
  · rename_i heq; rw [heq] at h; exact h
  · rename_i url dm1 w1 heq
    rw [heq] at h
    have hl := checker_loop_map env dm1 line id url (proxyURL line) dm1.Config.Errtestnum.toNat
      (w1, 0)
    simp only
    generalize DownloadManager.PerformDownloadTests.loop env dm1 line id url (proxyURL line)
      dm1.Config.Errtestnum.toNat (w1, 0) = r at hl
    obtain ⟨w2, total⟩ := r
    dsimp only at hl h ⊢
    split
    · split <;> (dsimp only; rw [hl]; exact h)
    · dsimp only; rw [hl]; exact h

theorem probe_map (env : Env) (c : Checker) (id tid : Int) (target : String) (line : Line)
    (w : World) :
    (Checker.processRandomCityID.probe env c id tid target line w).2.ExitErrorMap =
      w.ExitErrorMap := by
  unfold Checker.processRandomCityID.probe
  dsimp only
  rw [checker_PerformDownloadTests_map, TestSOCKS5_map]

theorem rotate_map (env : Env) (w : World) (tid : Int) :
    (rotate env w tid).ExitErrorMap = w.ExitErrorMap := rfl

theorem round_map (env : Env) (c : Checker) (id tid : Int) (g : Bool) (target : String)
    (line : Line) (st : World × CycleVars × LineVars) :
    (Checker.processRandomCityID.round env c id tid g target line st).1.ExitErrorMap =
      st.1.ExitErrorMap := by
  obtain ⟨w, cv, lv⟩ := st
  have h := probe_map env c id tid target line w
  unfold Checker.processRandomCityID.round
  dsimp only
  split
  · rename_i heq
    rw [heq] at h
    split <;> (dsimp only [rotate_map]; simpa [rotate_map] using h)
  · rename_i heq
    rw [heq] at h
    dsimp only
    split
    · simpa [rotate_map] using h
    · split
      · simpa [rotate_map] using h
      · exact h

theorem rounds_map (env : Env) (c : Checker) (id tid : Int) (g : Bool) (target : String)
    (line : Line) (n : Nat) :
    ∀ st : World × CycleVars × LineVars,
      (Checker.processRandomCityID.rounds env c id tid g target line n st).1.ExitErrorMap =
        st.1.ExitErrorMap := by
  induction n with
  | zero => intro st; rfl
  | succ n ih =>
    intro st
    unfold Checker.processRandomCityID.rounds
    rw [ih, round_map]

theorem lines_map (env : Env) (c : Checker) (id tid : Int) (g : Bool) (target : String)
    (ls : List Line) :
    ∀ st : World × CycleVars,
      (Checker.processRandomCityID.lines env c id tid g target ls st).1.ExitErrorMap =
        st.1.ExitErrorMap := by
  induction ls with
  | nil => intro st; rfl
  | cons line rest ih =>
    intro st
    obtain ⟨w, cv⟩ := st
    have hr := rounds_map env c id tid g target line c.Config.Errtestnum.toNat (w, cv, {})
    unfold Checker.processRandomCityID.lines
    generalize Checker.processRandomCityID.rounds env c id tid g target line
      c.Config.Errtestnum.toNat (w, cv, {}) = r at hr
    obtain ⟨w1, cv1, lv1⟩ := r
    dsimp only at hr ⊢
    rw [ih]
    exact hr

theorem retryOperation_loop_map {σ : Type}
    (operation : σ × World → Option GoError × σ × World)
    (hop : ∀ st, (operation st).2.2.ExitErrorMap = st.2.ExitErrorMap)
    (maxRetries sleepDuration : Int) (fuel : Nat) :
    ∀ (retryCount : Int) (st : σ × World),
      (retryOperation.loop operation maxRetries sleepDuration fuel retryCount
        st).2.2.ExitErrorMap = st.2.ExitErrorMap := by
  induction fuel with
  | zero => intro _ st; rfl
  | succ fuel ih =>
    intro retryCount st
    have h := hop st
    unfold retryOperation.loop
    split
    · rename_i heq; rw [heq] at h; exact h
    · rename_i heq
      rw [heq] at h
      dsimp only at h ⊢
      split
      · exact h
      · rw [ih]; exact h

theorem bind_map (env : Env) (w : World) (id tid : Int) :
    (Checker.processRandomCityID.bind env w id tid).2.2.ExitErrorMap = w.ExitErrorMap := by
  unfold Checker.processRandomCityID.bind retryOperation
  rw [retryOperation_loop_map]
  intro st
  rfl

theorem listing_map (env : Env) (w : World) :
    (Checker.processRandomCityID.listing env w).2.2.ExitErrorMap = w.ExitErrorMap := by
  unfold Checker.processRandomCityID.listing retryOperation
  rw [retryOperation_loop_map]
  intro st
  unfold GetLines
  cases GetLines.decode (env.GetLines st.2.listings) <;> rfl

theorem processRandomCityID_map (env : Env) (c : Checker) (w w1 : World) (id : Int)
    (h : c.processRandomCityID env w id = Except.ok w1) :
    w1.ExitErrorMap = w.ExitErrorMap := by
  unfold Checker.processRandomCityID at h
  have hm : (Checker.processRandomCityID.membership env w id).2.ExitErrorMap =
      w.ExitErrorMap := rfl
  generalize Checker.processRandomCityID.membership env w id = mres at h hm
  obtain ⟨g, w0⟩ := mres
  dsimp only at h hm
  split at h
  · injection h with h; rw [← h]; exact hm
  · split at h
    · cases h
    · rename_i tid _ _
      have hb := bind_map env w0 id tid
      split at h
      · rename_i heq; rw [heq] at hb; injection h with h; rw [← h, hb, hm]
      · rename_i wb heq
        rw [heq] at hb
        have hl := listing_map env wb
        split at h
        · rename_i heq2; rw [heq2] at hl; injection h with h; rw [← h, hl, hb, hm]
        · rename_i ls wl heq2
          rw [heq2] at hl
          injection h with h
          rw [← h, lines_map]
          dsimp only at hl hb ⊢
          rw [hl, hb, hm]

theorem processRandomCityID_returns (env : Env) (c : Checker) (w : World) (id : Int)
    (hwatch : c.Config.WatchTradeID ≠ []) :
    ∃ w1, c.processRandomCityID env w id = Except.ok w1 := by
  unfold Checker.processRandomCityID
  generalize Checker.processRandomCityID.membership env w id = mres
  obtain ⟨g, w0⟩ := mres
  dsimp only
  split
  · exact ⟨_, rfl⟩
  · split
    · rename_i heq; exact absurd heq hwatch
    · split
      · exact ⟨_, rfl⟩
      · split
        · exact ⟨_, rfl⟩
        · exact ⟨_, rfl⟩

theorem range_spec (env : Env) (c : Checker) (keys : List Int) :
    ∀ w : World,
      ((∀ k ∈ keys, k = 0) →
        ∃ m, Checker.Check.range env c keys w = Except.ok { w with ExitErrorMap := m }) ∧
      ((∃ k ∈ keys, k ≠ 0) →
        ∃ id ∈ keys, id ≠ 0 ∧ ∃ m,
          Checker.Check.range env c keys w =
            c.processRandomCityID env { w with ExitErrorMap := m } id ∧
          m.get id = none ∧ ∀ j, j ≠ 0 → j ≠ id → m.get j = w.ExitErrorMap.get j) := by
  induction keys with
  | nil =>
    intro w
    exact ⟨fun _ => ⟨w.ExitErrorMap, rfl⟩, fun ⟨k, hk, _⟩ => absurd hk (List.not_mem_nil k)⟩
  | cons k rest ih =>
    intro w
    unfold Checker.Check.range
    by_cases hk : k = 0
    · simp only [hk, if_true]
      obtain ⟨ih1, ih2⟩ := ih { w with ExitErrorMap := w.ExitErrorMap.delete 0 }
      constructor
      · intro hall
        obtain ⟨m, hm⟩ := ih1 (fun x hx => hall x (List.mem_cons_of_mem _ hx))
        exact ⟨m, hm⟩
      · intro ⟨x, hx, hx0⟩
        have hx2 : x ∈ rest := by
          rcases List.mem_cons.mp hx with h | h
          · exact absurd h hx0
          · exact h
        obtain ⟨id, hid, hid0, m, hrun, hgone, hkeep⟩ := ih2 ⟨x, hx2, hx0⟩
        refine ⟨id, List.mem_cons_of_mem _ hid, hid0, m, hrun, hgone, ?_⟩
        intro j hj0 hjid
        rw [hkeep j hj0 hjid]
        exact GoMap.get_delete_other _ _ _ hj0
    · simp only [hk, if_false]
      constructor
      · intro hall
        exact absurd (hall k (List.mem_cons_self _ _)) hk
      · intro _
        refine ⟨k, List.mem_cons_self _ _, hk, w.ExitErrorMap.delete k, rfl,
          GoMap.get_delete_self _ _, ?_⟩
        intro j _ hjk
        exact GoMap.get_delete_other _ _ _ hjk

/-- C12 (one line per scan from the error map).  On a non-empty
`ExitErrorMap`, whatever the fuel, one call of `Check` either finds only the
zero id among the keys and returns without running the pipeline, or it is one
run of `processRandomCityID` on a single non-zero key `id` of the map, started
in a state that differs from the entry state in `ExitErrorMap` only.  In the
second case, which is the case of every map that holds a non-zero key, the
run returns when a watcher trade id is configured, and in the state that
`Check` returns `id` is no more a key while every other non-zero id has the
entry it had before. -/
theorem one_line_per_scan (env : Env) (c : Checker) (fuel : Nat) (w : World)
    (hne : w.ExitErrorMap ≠ []) :
    ((∀ k ∈ w.ExitErrorMap.map Prod.fst, k = 0) →
      ∃ m, c.Check env fuel w = some (Except.ok { w with ExitErrorMap := m })) ∧
    ((∃ k ∈ w.ExitErrorMap.map Prod.fst, k ≠ 0) →
      ∃ id ∈ w.ExitErrorMap.map Prod.fst, id ≠ 0 ∧
        (∃ m, c.Check env fuel w =
          some (c.processRandomCityID env { w with ExitErrorMap := m } id)) ∧
        (c.Config.WatchTradeID ≠ [] → ∃ w1, c.Check env fuel w = some (Except.ok w1)) ∧
        ∀ w1, c.Check env fuel w = some (Except.ok w1) →
          w1.ExitErrorMap.get id = none ∧
          ∀ j, j ≠ 0 → j ≠ id → w1.ExitErrorMap.get j = w.ExitErrorMap.get j) := by
  have hlen : ¬ (w.ExitErrorMap.length = 0) := by
    simpa [List.length_eq_zero] using hne
  have hcheck : c.Check env fuel w =
      some (Checker.Check.range env c (w.ExitErrorMap.map Prod.fst) w) := by
    unfold Checker.Check
    simp only [hlen, if_false]
  obtain ⟨h1, h2⟩ := range_spec env c (w.ExitErrorMap.map Prod.fst) w
  rw [hcheck]
  constructor
  · intro hall
    obtain ⟨m, hm⟩ := h1 hall
    exact ⟨m, by rw [hm]⟩
  · intro hex
    obtain ⟨id, hid, hid0, m, hrun, hgone, hkeep⟩ := h2 hex
    refine ⟨id, hid, hid0, ⟨m, by rw [hrun]⟩, ?_, ?_⟩
    · intro hwatch
      obtain ⟨w1, hw1⟩ := processRandomCityID_returns env c { w with ExitErrorMap := m } id hwatch
      exact ⟨w1, by rw [hrun, hw1]⟩
    · intro w1 hw1
      rw [hrun] at hw1
      have hmap := processRandomCityID_map env c _ w1 id (Option.some.inj hw1)
      rw [hmap]
      exact ⟨hgone, hkeep⟩

theorem one_line_per_scan_witness :
    ∃ id ∈ flaggedWorld.ExitErrorMap.map Prod.fst, id ≠ 0 ∧
      (∃ m, watcher.Check slowEnv 0 flaggedWorld =
        some (watcher.processRandomCityID slowEnv { flaggedWorld with ExitErrorMap := m } id)) ∧
      (watcher.Config.WatchTradeID ≠ [] →
        ∃ w1, watcher.Check slowEnv 0 flaggedWorld = some (Except.ok w1)) ∧
      ∀ w1, watcher.Check slowEnv 0 flaggedWorld = some (Except.ok w1) →
        w1.ExitErrorMap.get id = none ∧
        ∀ j, j ≠ 0 → j ≠ id → w1.ExitErrorMap.get j = flaggedWorld.ExitErrorMap.get j :=
  (one_line_per_scan slowEnv watcher 0 flaggedWorld (by decide)).2 ⟨7, by decide, by decide⟩

end scanner

section fallback

open database checker http_requests
open http_requests (Line Config)

theorem turn_empty_draw (env : Env) (c : Checker) (consecutiveFailures : Int) (w : World)
    (hbad : w.db.tables.bad_line = []) (hok : env.dbFaults w.db.stmts = false) :
    Checker.Check.turn env c consecutiveFailures w =
      if consecutiveFailures + 1 ≥ 3 then
        Checker.Check.goodDraw env c (consecutiveFailures + 1) (emptyDraw w)
      else Check.Turn.again (consecutiveFailures + 1) (emptyDraw w) := by
  unfold Checker.Check.turn
  simp only [DB.QueryRow, hok, Bool.false_eq_true, if_false, sqlRandomBadLine, hbad, List.map_nil,
    pickRandom, List.get?_nil, if_true]
  rfl

theorem pickRandom_mem {α : Type} (r : Nat) (rows : List α) (a : α)
    (h : pickRandom r rows = some a) : a ∈ rows := by
  unfold pickRandom at h
  exact List.get?_mem h

/-- C11 (fallback to the good tier after three empty draws).  `Check` is
entered with an empty `ExitErrorMap` and an empty `bad_line`, and the first
three statements of the scan loop do not fail.  The first and the second
turn of the loop make a draw from `bad_line` and nothing else, and go round
again; the third turn makes its draw from `bad_line` and then draws from
`good_line`.  A non-zero id that this draw returns and that neither dedupe
cache holds back is a row of `good_line`, and it is the id that the pipeline
is run on: the calls traced up to that run are three draws from `bad_line`
followed by one draw from `good_line`. -/
theorem fallback_after_three_empty_draws (env : Env) (c : Checker) (fuel : Nat) (w : World)
    (hmap : w.ExitErrorMap = []) (hbad : w.db.tables.bad_line = [])
    (hok : ∀ i, i < 3 → env.dbFaults (w.db.stmts + i) = false) :
    Checker.Check.turn env c 0 w = Check.Turn.again 1 (emptyDraw w) ∧
    Checker.Check.turn env c 1 (emptyDraw w) = Check.Turn.again 2 (emptyDraw (emptyDraw w)) ∧
    Checker.Check.turn env c 2 (emptyDraw (emptyDraw w)) =
      Checker.Check.goodDraw env c 3 (emptyDraw (emptyDraw (emptyDraw w))) ∧
    c.Check env (fuel + 3) w =
      (match Checker.Check.goodDraw env c 3 (emptyDraw (emptyDraw (emptyDraw w))) with
        | Check.Turn.again consecutiveFailures v => Checker.Check.loop env c fuel consecutiveFailures v
        | Check.Turn.stop r => some r) ∧
    (∀ id, env.dbFaults (w.db.stmts + 3) = false →
      sqlRandomGoodLine (env.rand (w.randoms + 3)) w.db.tables = some id → id ≠ 0 →
      (dedupe w.GoodLineCheckedIDs id w.now).1 = false →
      (dedupe w.ScannedIDs id w.now).1 = false →
      id ∈ w.db.tables.good_line ∧
      ∃ v, v.trace = w.trace ++ [Event.drawBadLine, Event.drawBadLine, Event.drawBadLine,
          Event.drawGoodLine] ∧
        v.db.tables = w.db.tables ∧
        c.Check env (fuel + 3) w = some (c.processRandomCityID env v id)) := by
  have h0 := hok 0 (by omega)
  have h1 := hok 1 (by omega)
  have h2 := hok 2 (by omega)
  rw [Nat.add_zero] at h0
  have t1 : Checker.Check.turn env c 0 w = Check.Turn.again 1 (emptyDraw w) := by
    rw [turn_empty_draw env c 0 w hbad h0]; rfl
  have t2 : Checker.Check.turn env c 1 (emptyDraw w) =
      Check.Turn.again 2 (emptyDraw (emptyDraw w)) := by
    rw [turn_empty_draw env c 1 (emptyDraw w) hbad h1]; rfl
  have t3 : Checker.Check.turn env c 2 (emptyDraw (emptyDraw w)) =
      Checker.Check.goodDraw env c 3 (emptyDraw (emptyDraw (emptyDraw w))) := by
    rw [turn_empty_draw env c 2 (emptyDraw (emptyDraw w)) hbad h2]; rfl
  have hloop : c.Check env (fuel + 3) w =
      (match Checker.Check.goodDraw env c 3 (emptyDraw (emptyDraw (emptyDraw w))) with
        | Check.Turn.again consecutiveFailures v =>
          Checker.Check.loop env c fuel consecutiveFailures v
        | Check.Turn.stop r => some r) := by
    unfold Checker.Check
    simp only [hmap, List.length_nil, if_true]
    rw [Checker.Check.loop, t1]
    simp only
    rw [Checker.Check.loop, t2]
    simp only
    rw [Checker.Check.loop, t3]
  refine ⟨t1, t2, t3, hloop, ?_⟩
  intro id h3 hdraw hid hgood hscan
  refine ⟨pickRandom_mem _ _ _ hdraw, ?_⟩
  rw [hloop]
  unfold Checker.Check.goodDraw
  have hstmts : (emptyDraw (emptyDraw (emptyDraw w))).db.stmts = w.db.stmts + 3 := rfl
  have hrand : (emptyDraw (emptyDraw (emptyDraw w))).randoms = w.randoms + 3 := rfl
  have htab : (emptyDraw (emptyDraw (emptyDraw w))).db.tables = w.db.tables := rfl
  simp only [DB.QueryRow, hstmts, hrand, htab, h3, Bool.false_eq_true, if_false, hdraw]
  have hg : dedupe (emptyDraw (emptyDraw (emptyDraw w))).GoodLineCheckedIDs id
      (emptyDraw (emptyDraw (emptyDraw w))).now =
      (false, (dedupe w.GoodLineCheckedIDs id w.now).2) := by
    show dedupe w.GoodLineCheckedIDs id w.now = _
    rw [← hgood]
  have hs : dedupe w.ScannedIDs id w.now = (false, (dedupe w.ScannedIDs id w.now).2) := by
    rw [← hscan]
  simp only [hg]
  unfold Checker.Check.scan
  simp only [hid, if_false]
  have hs2 : dedupe (emptyDraw (emptyDraw (emptyDraw w))).ScannedIDs id
      (emptyDraw (emptyDraw (emptyDraw w))).now =
      (false, (dedupe w.ScannedIDs id w.now).2) := by
    show dedupe w.ScannedIDs id w.now = _
    exact hs
  simp only [hs2]
  refine ⟨_, ?_, ?_, rfl⟩
  · simp [emptyDraw]
  · rfl

theorem fallback_after_three_empty_draws_witness :
    (7 : Int) ∈ promoted.db.tables.good_line ∧
    ∃ v, v.trace = promoted.trace ++ [Event.drawBadLine, Event.drawBadLine, Event.drawBadLine,
        Event.drawGoodLine] ∧
      v.db.tables = promoted.db.tables ∧
      watcher.Check slowEnv (0 + 3) promoted = some (watcher.processRandomCityID slowEnv v 7) :=
  (fallback_after_three_empty_draws slowEnv watcher 0 promoted rfl rfl (fun _ _ => rfl)).2.2.2.2
    7 rfl (by decide) (by decide) (by decide) (by decide)

end fallback

/-! ## A sample that is not good, and the good tier -/

section nongood

open database

/-- C25 as stated fails: line `7` is in `good_line` with `good_count = 5`; a
sample with latency `100` and speed `5` does not meet the good condition, and
after `ProcessGoodLine` on it the line is no more in `good_line` (its
`good_count` is `0`). -/
theorem non_good_sample_evicts :
    ¬ plainSample.isGood ∧ (7 : Int) ∈ promoted.db.tables.good_line ∧
    (7 : Int) ∉ (cmd.ProcessGoodLine noFaults promoted.db 7 plainSample.avgResponseTime
      plainSample.avgDownloadSpeed).tables.good_line ∧
    sqlGoodCount 7 (cmd.ProcessGoodLine noFaults promoted.db 7 plainSample.avgResponseTime
      plainSample.avgDownloadSpeed).tables = some 0 := by
  refine ⟨?_, ?_, ?_, ?_⟩ <;> with_unfolding_all decide

/-- C25, amended.  Every store statement succeeding, for a sample that does
not meet the good condition `ProcessGoodLine` sets the `good_count` of the
line to `0` and deletes the line id from `good_line`: the id is not a member
afterwards, every other id is a member exactly when it was one before, and
`bad_line` and the `bad_count` of the line are as before. -/
theorem non_good_sample_resets_and_evicts (db : DB) (id lat : Int) (sp : ℚ)
    (hs : ¬ (lat > 500 ∨ sp > 10)) :
    sqlGoodCount id (cmd.ProcessGoodLine noFaults db id lat sp).tables =
      (sqlGoodCount id db.tables).map (fun _ => 0) ∧
    id ∉ (cmd.ProcessGoodLine noFaults db id lat sp).tables.good_line ∧
    (∀ x, x ≠ id →
      (x ∈ (cmd.ProcessGoodLine noFaults db id lat sp).tables.good_line ↔
        x ∈ db.tables.good_line)) ∧
    (cmd.ProcessGoodLine noFaults db id lat sp).tables.bad_line = db.tables.bad_line ∧
    sqlBadCount id (cmd.ProcessGoodLine noFaults db id lat sp).tables =
      sqlBadCount id db.tables := by
  rw [ProcessGoodLine_not_good db id lat sp hs]
  refine ⟨?_, ?_, ?_, rfl, ?_⟩
  · rw [sqlGoodCount_of_cities id _ _ (sqlDeleteGoodLine_cities id _), sqlGoodCount_update]
    cases sqlGoodCount id db.tables <;> simp
  · simp
  · intro x hx
    simp [hx]
  · rw [sqlBadCount_of_cities id _ _ (sqlDeleteGoodLine_cities id _), sqlBadCount_updateGood]

theorem non_good_sample_resets_and_evicts_witness :
    sqlGoodCount 7 (cmd.ProcessGoodLine noFaults promoted.db 7 100 5).tables =
      (sqlGoodCount 7 promoted.db.tables).map (fun _ => 0) ∧
    (7 : Int) ∉ (cmd.ProcessGoodLine noFaults promoted.db 7 100 5).tables.good_line :=
  ⟨(non_good_sample_resets_and_evicts promoted.db 7 100 5 (by norm_num)).1,
    (non_good_sample_resets_and_evicts promoted.db 7 100 5 (by norm_num)).2.1⟩

end nongood

/-! ## Runtime panics of the two cycles -/

section panics

open database checker
open http_requests (Line Config)

theorem performChecks_panics_iff (env : Env) (w : World) (tradeID : Int) (config : Config)
    (targetAddr : String) :
    (∃ p, performChecks env w tradeID config targetAddr = Except.error p) ↔
      (env.dbFaults w.db.stmts = false ∧ w.db.tables.cities = []) := by
  unfold performChecks
  simp only [GetAllCityIDs, DB.Query]
  by_cases hf : env.dbFaults w.db.stmts = true
  · simp [hf]
  · have hf2 : env.dbFaults w.db.stmts = false := by simpa using hf
    simp only [hf2, Bool.false_eq_true, if_false, true_and]
    by_cases hc : w.db.tables.cities = []
    · simp [hc]
    · have hlen : ¬ ((w.db.tables.cities.map City.id).length = 0) := by simpa using hc
      simp only [hlen, if_false, hc, iff_false, not_exists]
      intro p
      split
      · simp
      · split <;> simp

theorem processRandomCityID_panics_iff (env : Env) (c : Checker) (w : World) (id : Int) :
    (∃ p, c.processRandomCityID env w id = Except.error p) ↔
      (id ≠ 0 ∧ c.Config.WatchTradeID = []) := by
  constructor
  · intro ⟨p, hp⟩
    by_cases hw : c.Config.WatchTradeID = []
    · refine ⟨?_, hw⟩
      intro hid
      unfold Checker.processRandomCityID at hp
      simp [hid] at hp
    · obtain ⟨w1, hw1⟩ := processRandomCityID_returns env c w id hw
      rw [hw1] at hp
      cases hp
  · intro ⟨hid, hw⟩
    unfold Checker.processRandomCityID
    simp [hid, hw]

/-- C23 as stated fails.  `performChecks` panics exactly when the city ids are
read without error from an empty `cities` table (`rand.Intn(0)`), and
`processRandomCityID` panics exactly when it is given a non-zero line id while
`WatchTradeID` is empty (`c.Config.WatchTradeID[0]`); in every other case the
two functions return normally.  On the empty store the worker cycle for trade
id `592` ends in the panic of the random draw, and the pipeline for line `7`
of a checker without watcher trade id ends in the index panic. -/
theorem core_cycles_panic :
    (∀ (env : Env) (w : World) (tradeID : Int) (config : Config) (targetAddr : String),
      (∃ p, performChecks env w tradeID config targetAddr = Except.error p) ↔
        (env.dbFaults w.db.stmts = false ∧ w.db.tables.cities = [])) ∧
    (∀ (env : Env) (c : Checker) (w : World) (id : Int),
      (∃ p, c.processRandomCityID env w id = Except.error p) ↔
        (id ≠ 0 ∧ c.Config.WatchTradeID = [])) ∧
    performChecks {} {} 592 {} "example:80" = Except.error Panic.invalidArgument ∧
    unconfigured.processRandomCityID {} {} 7 = Except.error Panic.indexOutOfRange :=
  ⟨performChecks_panics_iff, processRandomCityID_panics_iff, rfl, rfl⟩

end panics

/-! ## The semaphore of the worker goroutines -/

section semaphore

theorem count_set_running (l : List Phase) (i : Nat) (a b : Phase) (h : l.get? i = some a) :
    (l.set i b).count Phase.running + (if a = Phase.running then 1 else 0) =
      l.count Phase.running + (if b = Phase.running then 1 else 0) := by
  induction l generalizing i with
  | nil => simp at h
  | cons x xs ih =>
    cases i with
    | zero =>
      simp only [List.get?_cons_zero, Option.some.injEq] at h
      subst h
      simp only [List.set_cons_zero, List.count_cons]
      cases x <;> cases b <;> simp
    | succ j =>
      simp only [List.get?_cons_succ] at h
      have := ih j h
      simp only [List.set_cons_succ, List.count_cons]
      omega

theorem Pool.step_invariant (p : Pool) (i : Nat)
    (h : p.running = p.sem ∧ p.sem ≤ maxConcurrency) :
    (p.step i).running = (p.step i).sem ∧ (p.step i).sem ≤ maxConcurrency := by
  obtain ⟨h1, h2⟩ := h
  unfold Pool.step
  cases hg : p.workers.get? i with
  | none => exact ⟨h1, h2⟩
  | some ph =>
    cases ph with
    | waiting =>
      dsimp only
      split
      · rename_i hlt
        have := count_set_running p.workers i Phase.waiting Phase.running hg
        simp only [Pool.running] at h1 ⊢
        simp at this
        exact ⟨by omega, by omega⟩
      · exact ⟨h1, h2⟩
    | running =>
      dsimp only
      have := count_set_running p.workers i Phase.running Phase.waiting hg
      simp only [Pool.running] at h1 ⊢
      simp at this
      exact ⟨by omega, by omega⟩

theorem Pool.run_invariant (schedule : List Nat) :
    ∀ p : Pool, (p.running = p.sem ∧ p.sem ≤ maxConcurrency) →
      (p.run schedule).running = (p.run schedule).sem ∧
        (p.run schedule).sem ≤ maxConcurrency := by
  induction schedule with
  | nil => intro p h; exact h
  | cons i rest ih =>
    intro p h
    exact ih (p.step i) (Pool.step_invariant p i h)

theorem Pool.start_running (tradeIDs : List Int) : (Pool.start tradeIDs).running = 0 := by
  unfold Pool.start Pool.running
  induction tradeIDs with
  | nil => rfl
  | cons t ts ih => simpa [List.count_cons] using ih

/-- C24 (global concurrency cap).  Whatever the list of configured trade ids
and whatever the interleaving of the worker goroutines, the number of
executions of `performChecks` that are past the send on the semaphore and
before the deferred receive is at most `maxConcurrency`, which is `5`; it
equals the number of values that the channel holds.  The bound is reached:
of seven goroutines that try to enter one after the other, five are inside
and two are blocked. -/
theorem concurrency_cap (tradeIDs : List Int) (schedule : List Nat) :
    ((Pool.start tradeIDs).run schedule).running ≤ maxConcurrency ∧
    ((Pool.start tradeIDs).run schedule).running = ((Pool.start tradeIDs).run schedule).sem ∧
    maxConcurrency = 5 ∧
    ((Pool.start [1, 2, 3, 4, 5, 6, 7]).run [0, 1, 2, 3, 4, 5, 6]).running = 5 := by
  have h := Pool.run_invariant schedule (Pool.start tradeIDs)
    ⟨Pool.start_running tradeIDs, Nat.zero_le _⟩
  exact ⟨by rw [h.1]; exact h.2, h.1, rfl, by decide⟩

end semaphore

/-! ## The counters are never negative -/

section nonneg

open database checker
open http_requests (Line Config)

theorem processRandomCityID_preserves (P : Tables → Prop) (env : Env) (c : Checker)
    (w w1 : World) (id : Int)
    (h0 : ∀ t, P t → P (sqlDeleteGoodLine id t))
    (h1 : ∀ t, P t → P (sqlDeleteBadLine_id id t))
    (h2 : ∀ t, P t → P (sqlUpdateGoodCount id false t))
    (h3 : ∀ ip t, P t → P (sqlInsertBadIPs ip id t))
    (h4 : ∀ ip t, P t → P (sqlInsertBadLine ip id t))
    (h : P w.db.tables) (hrun : c.processRandomCityID env w id = Except.ok w1) :
    P w1.db.tables := by
  unfold Checker.processRandomCityID at hrun
  have hm := membership_tables env w id
  generalize Checker.processRandomCityID.membership env w id = mres at hrun hm
  obtain ⟨g, w0⟩ := mres
  dsimp only at hrun hm
  have hw0 : P w0.db.tables := by rw [hm]; exact h
  split at hrun
  · injection hrun with hrun; rw [← hrun]; exact hw0
  · split at hrun
    · cases hrun
    · rename_i tid _ _
      have hb := bind_db env w0 id tid
      split at hrun
      · rename_i heq; rw [heq] at hb; injection hrun with hrun; rw [← hrun]
        dsimp only at hb; rw [hb]; exact hw0
      · rename_i wb heq
        rw [heq] at hb
        dsimp only at hb
        have hl := listing_db env wb
        split at hrun
        · rename_i heq2; rw [heq2] at hl; injection hrun with hrun; rw [← hrun]
          dsimp only at hl; rw [hl, hb]; exact hw0
        · rename_i ls wl heq2
          rw [heq2] at hl
          dsimp only at hl
          injection hrun with hrun
          rw [← hrun]
          apply lines_preserves P env c id tid g _ h0 h1 h2 h3 (fun _ => h4)
          dsimp only
          rw [hl, hb]
          exact hw0

theorem CountersNonNeg_of_cities (t u : Tables) (h : u.cities = t.cities)
    (ht : CountersNonNeg t) : CountersNonNeg u := by
  unfold CountersNonNeg at ht ⊢
  rw [h]; exact ht

theorem CountersNonNeg_updateGood (id : Int) (inc : Bool) (t : Tables)
    (ht : CountersNonNeg t) : CountersNonNeg (sqlUpdateGoodCount id inc t) := by
  intro c hc
  unfold sqlUpdateGoodCount at hc
  obtain ⟨c0, hc0, rfl⟩ := List.mem_map.mp hc
  have := ht c0 hc0
  split
  · refine ⟨?_, this.2⟩
    show 0 ≤ (if inc = true then c0.good_count + 1 else 0)
    split <;> omega
  · exact this

theorem CountersNonNeg_updateBad (id : Int) (inc : Bool) (t : Tables)
    (ht : CountersNonNeg t) : CountersNonNeg (sqlUpdateBadCount id inc t) := by
  intro c hc
  unfold sqlUpdateBadCount at hc
  obtain ⟨c0, hc0, rfl⟩ := List.mem_map.mp hc
  have := ht c0 hc0
  split
  · refine ⟨this.1, ?_⟩
    show 0 ≤ (if inc = true then c0.bad_count + 1 else 0)
    split <;> omega
  · exact this

theorem CounterStep_nonneg (env : Env) (c : Checker) (w w1 : World)
    (hstep : CounterStep env c w w1) (h : CountersNonNeg w.db.tables) :
    CountersNonNeg w1.db.tables := by
  cases hstep with
  | updateGood id inc =>
    exact Exec_preserves CountersNonNeg _ _ _ (CountersNonNeg_updateGood id inc) h
  | updateBad id inc =>
    exact Exec_preserves CountersNonNeg _ _ _ (CountersNonNeg_updateBad id inc) h
  | good id lat sp =>
    apply ProcessGoodLine_preserves CountersNonNeg
    · intro inc t ht; exact CountersNonNeg_updateGood id inc t ht
    · intro t ht; exact CountersNonNeg_of_cities t _ (sqlInsertGoodLine_cities id t) ht
    · intro t ht; exact CountersNonNeg_of_cities t _ (sqlDeleteGoodLine_cities id t) ht
    · exact h
  | bad id lat sp ip =>
    apply ProcessBadLine_preserves CountersNonNeg
    · intro inc t ht; exact CountersNonNeg_updateBad id inc t ht
    · intro t ht; exact CountersNonNeg_of_cities t _ (sqlInsertBadLine_cities ip id t) ht
    · intro t ht; exact CountersNonNeg_of_cities t _ (sqlDeleteBadLine_cities ip t) ht
    · exact h
  | remediate _ id hrun =>
    apply processRandomCityID_preserves CountersNonNeg env c w w1 id ?_ ?_ ?_ ?_ ?_ h hrun
    · intro t ht; exact CountersNonNeg_of_cities t _ (sqlDeleteGoodLine_cities id t) ht
    · intro t ht; exact CountersNonNeg_of_cities t _ (sqlDeleteBadLine_id_cities id t) ht
    · intro t ht; exact CountersNonNeg_updateGood id false t ht
    · intro ip t ht; exact CountersNonNeg_of_cities t _ (sqlInsertBadIPs_cities ip id t) ht
    · intro ip t ht; exact CountersNonNeg_of_cities t _ (sqlInsertBadLine_cities ip id t) ht

/-- C21 (counters are never negative).  From a state whose `cities` table
holds `0` in every `good_count` and `bad_count`, after every finite sequence
of `UpdateGoodCount` and `UpdateBadCount` calls (increment or reset, any line
id), `ProcessGoodLine` and `ProcessBadLine` calls and `processRandomCityID`
cycles, whether or not store statements fail on the way, every `good_count`
and every `bad_count` is at least `0`. -/
theorem counters_never_negative (env : Env) (c : Checker) (w0 w : World)
    (hzero : CountersAtZero w0.db.tables)
    (hrun : Relation.ReflTransGen (CounterStep env c) w0 w) :
    CountersNonNeg w.db.tables := by
  induction hrun with
  | refl =>
    intro x hx
    have := hzero x hx
    omega
  | tail _ hstep ih => exact CounterStep_nonneg env c _ _ hstep ih

theorem counters_never_negative_witness :
    CountersAtZero freshWorld.db.tables ∧
    CountersNonNeg
      ({ ({ freshWorld with
            db := cmd.ProcessGoodLine ({} : Env).dbFaults freshWorld.db 1 600 2 } : World) with
          db := (UpdateBadCount ({} : Env).dbFaults
            (cmd.ProcessGoodLine ({} : Env).dbFaults freshWorld.db 1 600 2) 1 false).2 }
        : World).db.tables :=
  ⟨by decide,
    counters_never_negative {} watcher freshWorld _ (by decide)
      (Relation.ReflTransGen.tail
        (Relation.ReflTransGen.single (CounterStep.good freshWorld 1 600 2))
        (CounterStep.updateBad _ 1 false))⟩

end nonneg

/-! ## Rounds of the remediation pipeline -/

section rounds

open database checker
open http_requests (Line Config)

theorem checker_GetDownloadURL_error (env : Env) (dm : DownloadManager) (w : World)
    (e : GoError) (h : (dm.GetDownloadURL env w).1.2 = some e) : e = GoError.other := by
  unfold DownloadManager.GetDownloadURL at h
  split at h
  · simp at h
  · split at h
    · simp only [Option.some.injEq] at h; exact h.symm
    · split at h <;> simp at h

theorem checker_PerformDownloadTests_error (env : Env) (dm : DownloadManager) (w : World)
    (line : Line) (id : Int) (e : GoError)
    (h : (dm.PerformDownloadTests env w line id).1.2 = some e) : e = GoError.other := by
  have hurl := checker_GetDownloadURL_error env dm w
  unfold DownloadManager.PerformDownloadTests at h
  split at h
  · rename_i err dm1 w1 heq
    rw [heq] at hurl
    have := hurl err rfl
    simp only [Option.some.injEq] at h
    rw [← h]; exact this
  · dsimp only at h
    split at h
    · unfold FormatSpeed at h
      simp at h
    · simp at h

theorem probe_error (env : Env) (c : Checker) (id tid : Int) (target : String) (line : Line)
    (w : World) (e : GoError)
    (h : (Checker.processRandomCityID.probe env c id tid target line w).1.2 = some e) :
    e = GoError.other := by
  unfold Checker.processRandomCityID.probe at h
  exact checker_PerformDownloadTests_error env _ _ line id e h

theorem round_record (env : Env) (c : Checker) (id tid : Int) (g : Bool) (target : String)
    (line : Line) (st : World × CycleVars × LineVars) :
    (Checker.processRandomCityID.round env c id tid g target line st).2.1 =
      st.2.1.record g (Checker.processRandomCityID.probe env c id tid target line st.1).1.1 ∧
    (Checker.processRandomCityID.round env c id tid g target line st).2.2.badOutboundIPs =
      st.2.2.badOutboundIPs ∧
    (Checker.processRandomCityID.round env c id tid g target line st).2.2.errorCount =
      st.2.2.errorCount +
        (if (Checker.processRandomCityID.probe env c id tid target line st.1).1.2 = none then 0
          else 1) := by
  obtain ⟨w, cv, lv⟩ := st
  have herr := probe_error env c id tid target line w
  unfold Checker.processRandomCityID.round
  dsimp only
  split
  · rename_i speed err w2 heq
    rw [heq] at herr
    have he := herr err rfl
    subst he
    simp [heq]
  · rename_i speed w2 heq
    simp [heq]

theorem rounds_flags (env : Env) (c : Checker) (id tid : Int) (g : Bool) (target : String)
    (line : Line) (n : Nat) :
    ∀ st : World × CycleVars × LineVars,
      (Checker.processRandomCityID.rounds env c id tid g target line n st).2.2.badOutboundIPs =
        st.2.2.badOutboundIPs := by
  induction n with
  | zero => intro st; rfl
  | succ n ih =>
    intro st
    unfold Checker.processRandomCityID.rounds
    rw [ih, (round_record env c id tid g target line st).2.1]

theorem classify_unflagged_bad_ips (f : Faults) (db : DB) (id : Int) (g : Bool) (line : Line)
    (cv : CycleVars) (lv : LineVars) (hflag : lv.badOutboundIPs = []) :
    (Checker.processRandomCityID.classify f db id g line cv lv).tables.bad_ips =
      db.tables.bad_ips := by
  have hP : ∀ (d : DB) (run : Tables → Tables), (∀ t, (run t).bad_ips = t.bad_ips) →
      d.tables.bad_ips = db.tables.bad_ips → (d.Exec f run).2.tables.bad_ips =
        db.tables.bad_ips := by
    intro d run hrun hd
    exact Exec_preserves (fun t => t.bad_ips = db.tables.bad_ips) f d run
      (fun t ht => by show (run t).bad_ips = _; rw [hrun]; exact ht) hd
  unfold Checker.processRandomCityID.classify
  simp only [hflag, List.length_nil, gt_iff_lt, lt_self_iff_false, if_false]
  have h1 : (if g = true ∧ cv.allBelow10Mbps = true then
      (db.Exec f (sqlDeleteGoodLine id)).2 else db).tables.bad_ips = db.tables.bad_ips := by
    split
    · exact hP db _ (fun t => rfl) rfl
    · rfl
  generalize (if g = true ∧ cv.allBelow10Mbps = true then
      (db.Exec f (sqlDeleteGoodLine id)).2 else db) = db1 at h1
  split
  · split
    · unfold UpdateGoodCount DeleteFromBadLine_id
      exact hP _ (sqlUpdateGoodCount id false) (fun t => rfl)
        (hP _ (sqlDeleteBadLine_id id) (fun t => rfl) h1)
    · have q := QueryRow_tables f db1
        (fun t => some (decide ((t.bad_line.filter (fun r => r.2 = id)).length > 0)))
      unfold CheckNodeIDExistsInBadLine_id
      split
      · rename_i heq; rw [heq] at q; dsimp only at q ⊢; rw [q]; exact h1
      · rename_i heq
        rw [heq] at q
        dsimp only at q ⊢
        split
        · unfold InsertIntoBadLine
          exact hP _ (sqlInsertBadLine line.OutboundIP id)
            (fun t => sqlInsertBadLine_bad_ips _ _ t) (by rw [q]; exact h1)
        · rw [q]; exact h1
  · exact h1

theorem lines_bad_ips (env : Env) (c : Checker) (id tid : Int) (g : Bool) (target : String)
    (ls : List Line) :
    ∀ st : World × CycleVars,
      (Checker.processRandomCityID.lines env c id tid g target ls st).1.db.tables.bad_ips =
        st.1.db.tables.bad_ips := by
  induction ls with
  | nil => intro st; rfl
  | cons line rest ih =>
    intro st
    obtain ⟨w, cv⟩ := st
    have hr := rounds_tables env c id tid g target line c.Config.Errtestnum.toNat (w, cv, {})
    have hf := rounds_flags env c id tid g target line c.Config.Errtestnum.toNat (w, cv, {})
    unfold Checker.processRandomCityID.lines
    generalize Checker.processRandomCityID.rounds env c id tid g target line
      c.Config.Errtestnum.toNat (w, cv, {}) = r at hr hf
    obtain ⟨w1, cv1, lv1⟩ := r
    dsimp only at hr hf ⊢
    rw [ih]
    dsimp only
    rw [classify_unflagged_bad_ips env.dbFaults w1.db id g line cv1 lv1 hf, hr]

theorem processRandomCityID_bad_ips (env : Env) (c : Checker) (w w1 : World) (id : Int)
    (hrun : c.processRandomCityID env w id = Except.ok w1) :
    w1.db.tables.bad_ips = w.db.tables.bad_ips := by
  unfold Checker.processRandomCityID at hrun
  have hm := membership_tables env w id
  generalize Checker.processRandomCityID.membership env w id = mres at hrun hm
  obtain ⟨g, w0⟩ := mres
  dsimp only at hrun hm
  split at hrun
  · injection hrun with hrun; rw [← hrun]; dsimp only; rw [hm]
  · split at hrun
    · cases hrun
    · rename_i tid _ _
      have hb := bind_db env w0 id tid
      split at hrun
      · rename_i heq; rw [heq] at hb; injection hrun with hrun; rw [← hrun]
        dsimp only at hb; rw [hb, hm]
      · rename_i wb heq
        rw [heq] at hb
        dsimp only at hb
        have hl := listing_db env wb
        split at hrun
        · rename_i heq2; rw [heq2] at hl; injection hrun with hrun; rw [← hrun]
          dsimp only at hl; rw [hl, hb, hm]
        · rename_i ls wl heq2
          rw [heq2] at hl
          dsimp only at hl
          injection hrun with hrun
          rw [← hrun, lines_bad_ips]
          dsimp only
          rw [hl, hb, hm]

/-- C29 (the remediation pipeline never writes the bad-IP audit).  An error
that the checker `PerformDownloadTests` returns is never a subprocess exit
error, whatever the subprocesses do; so the rounds run on a matched line leave
the flagged set `badOutboundIPs` empty, the classification block finds it
empty and skips the `InsertIntoBadIPs` loop, and a `processRandomCityID` cycle
that returns leaves the `bad_ips` table as it was. -/
theorem remediation_never_flags (env : Env) (c : Checker) (w w1 : World) (id : Int)
    (hrun : c.processRandomCityID env w id = Except.ok w1) :
    w1.db.tables.bad_ips = w.db.tables.bad_ips ∧
    (∀ (dm : DownloadManager) (v : World) (line : Line) (e : GoError),
      (dm.PerformDownloadTests env v line id).1.2 = some e → ∀ code, e ≠ GoError.ExitError code) ∧
    (∀ (tid : Int) (g : Bool) (target : String) (line : Line) (n : Nat) (v : World)
      (cv : CycleVars),
      (Checker.processRandomCityID.rounds env c id tid g target line n
        (v, cv, {})).2.2.badOutboundIPs = []) := by
  refine ⟨processRandomCityID_bad_ips env c w w1 id hrun, ?_, ?_⟩
  · intro dm v line e he code hcode
    have := checker_PerformDownloadTests_error env dm v line id e he
    rw [this] at hcode
    cases hcode
  · intro tid g target line n v cv
    rw [rounds_flags]

theorem remediation_never_flags_witness :
    ((watcher.processRandomCityID exhaustedEnv quarantined 7).toOption.getD {}).db.tables.bad_ips =
      quarantined.db.tables.bad_ips ∧
    exhaustedEnv.checkerCurl 0 = checker.CurlOutcome.exited 28 Readback.scanFailed :=
  ⟨(remediation_never_flags exhaustedEnv watcher quarantined
      ((watcher.processRandomCityID exhaustedEnv quarantined 7).toOption.getD {}) 7 rfl).1, rfl⟩

end rounds

/-! ## Hard failures and rotation floors in a round -/

section floors

open database checker
open http_requests (Line Config)

/-- C27 as stated fails.  Every round of `processRandomCityID` adds its speed
to the sum and one to the divisor, whatever its subprocesses did: the checker
`PerformDownloadTests` swallows the exit error, counts the failed attempt as
`0` among its `Errtestnum` attempts and returns without error, so the branch
of the round that would skip the sample is never taken.  With every subprocess
exiting with code `28` a round yields speed `0`, divisor `1`, error count `0`;
the whole cycle on the quarantined line `7` issues twelve rotation requests
and then clears the line from `bad_line`.  With one exit `28` followed by one
attempt at 8 Mbps the cycle reports 4 Mbps. -/
theorem hard_failure_counts_as_sample :
    (∀ (env : Env) (c : Checker) (id tid : Int) (g : Bool) (target : String) (line : Line)
      (st : World × CycleVars × LineVars),
      (Checker.processRandomCityID.round env c id tid g target line st).2.1.testCount =
        st.2.1.testCount + 1) ∧
    (Checker.processRandomCityID.probe exhaustedEnv watcher 7 592 "example:80" probeLine
      quarantined).1 = (0, none) ∧
    (Checker.processRandomCityID.round exhaustedEnv watcher 7 592 false "example:80" probeLine
      (quarantined, {}, {})).2 =
      ({ totalDownloadSpeed := 0, testCount := 1, allBelow10Mbps := true },
        { errorCount := 0, badOutboundIPs := [] }) ∧
    (Checker.processRandomCityID.round exhaustedEnv watcher 7 592 false "example:80" probeLine
      (quarantined, {}, {})).1.rotations = 4 ∧
    ((watcher.processRandomCityID exhaustedEnv quarantined 7).toOption.map
      (fun w => (w.db.tables.bad_line, w.rotations))) = some ([], 12) ∧
    (Checker.processRandomCityID.probe recoveringEnv pairWatcher 7 592 "example:80" probeLine
      quarantined).1 = (4, none) := by
  refine ⟨?_, ?_, ?_, ?_, ?_, ?_⟩
  · intro env c id tid g target line st
    rw [(round_record env c id tid g target line st).1]
    rfl
  all_goals with_unfolding_all decide

/-- C28 as stated fails: for line `7`, which is not good-sourced, the
throughput cycle of a round returns 4 Mbps without error, which is not below
the floor of 3 Mbps, and yet a rotation request is issued in that round (the
count of `ChangeLineIP` calls goes from `0` to `1`): the cycle itself asks for
one after its first subprocess exits with code `28`. -/
theorem rotation_above_floor :
    (Checker.processRandomCityID.probe recoveringEnv pairWatcher 7 592 "example:80" probeLine
      quarantined).1 = (4, none) ∧
    quarantined.rotations = 0 ∧
    (Checker.processRandomCityID.round recoveringEnv pairWatcher 7 592 false "example:80"
      probeLine (quarantined, {}, {})).1.rotations = 1 := by
  refine ⟨?_, ?_, ?_⟩
  · with_unfolding_all decide
  · rfl
  · with_unfolding_all decide

/-- C28, amended.  In a round whose throughput cycle returns speed `v` without
error and leaves the state `w2`, the round itself adds, after the cycle, one
rotation request followed by the five second pause exactly when the line id is
good-sourced and `v < 10` or it is not good-sourced and `v < 3`, and adds
nothing otherwise.  Rotation requests that the cycle makes for its own failed
attempts are in `w2` already and do not depend on the floors. -/
theorem floor_rotation_after_cycle (env : Env) (c : Checker) (id tid : Int) (g : Bool)
    (target : String) (line : Line) (w w2 : World) (cv : CycleVars) (lv : LineVars) (v : ℚ)
    (hcycle : Checker.processRandomCityID.probe env c id tid target line w = ((v, none), w2)) :
    (Checker.processRandomCityID.round env c id tid g target line (w, cv, lv)).1.trace =
      w2.trace ++
        (if (g = true ∧ v < 10) ∨ (g = false ∧ v < 3) then
          [Event.ChangeLineIP tid, Event.Sleep (5 * Second)]
        else []) ∧
    (Checker.processRandomCityID.round env c id tid g target line (w, cv, lv)).1.rotations =
      w2.rotations + (if (g = true ∧ v < 10) ∨ (g = false ∧ v < 3) then 1 else 0) := by
  unfold Checker.processRandomCityID.round
  simp only [hcycle]
  cases g with
  | true =>
    by_cases h : v < 10
    · simp [h, rotate, Sleep, http_requests.ChangeLineIP]
    · simp [h]
  | false =>
    by_cases h : v < 3
    · simp [h, rotate, Sleep, http_requests.ChangeLineIP]
    · simp [h]

theorem floor_rotation_after_cycle_witness :
    (Checker.processRandomCityID.round slowEnv watcher 7 592 false "example:80" probeLine
      (quarantined, {}, {})).1.rotations =
      (Checker.processRandomCityID.probe slowEnv watcher 7 592 "example:80" probeLine
        quarantined).2.rotations +
        (if ((false : Bool) = true ∧ (2 : ℚ) < 10) ∨ ((false : Bool) = false ∧ (2 : ℚ) < 3)
          then 1 else 0) :=
  (floor_rotation_after_cycle slowEnv watcher 7 592 false "example:80" probeLine quarantined
    (Checker.processRandomCityID.probe slowEnv watcher 7 592 "example:80" probeLine
      quarantined).2 {} {} 2 (by with_unfolding_all decide)).2

end floors

/-! ## The accumulators of a remediation cycle -/

section accumulators

open database checker
open http_requests (Line Config)

theorem rounds_accumulate (env : Env) (c : Checker) (id tid : Int) (g : Bool) (target : String)
    (line : Line) (n : Nat) :
    ∀ st : World × CycleVars × LineVars,
      (Checker.processRandomCityID.rounds env c id tid g target line n st).2.1.totalDownloadSpeed =
        st.2.1.totalDownloadSpeed +
          (Checker.processRandomCityID.roundSpeeds env c id tid g target line n st).sum ∧
      (Checker.processRandomCityID.rounds env c id tid g target line n st).2.1.testCount =
        st.2.1.testCount +
          ((Checker.processRandomCityID.roundSpeeds env c id tid g target line n st).length : Int) ∧
      ((Checker.processRandomCityID.rounds env c id tid g target line n st).2.1.allBelow10Mbps =
          false ↔
        st.2.1.allBelow10Mbps = false ∨
          (g = true ∧
            ∃ s ∈ Checker.processRandomCityID.roundSpeeds env c id tid g target line n st,
              s ≥ 10)) := by
  induction n with
  | zero =>
    intro st
    simp [Checker.processRandomCityID.rounds, Checker.processRandomCityID.roundSpeeds]
  | succ n ih =>
    intro st
    obtain ⟨h1, h2, h3⟩ := ih (Checker.processRandomCityID.round env c id tid g target line st)
    have hr := (round_record env c id tid g target line st).1
    unfold Checker.processRandomCityID.rounds Checker.processRandomCityID.roundSpeeds
    rw [h1, h2, h3, hr]
    simp only [CycleVars.record, List.sum_cons, List.length_cons, Nat.cast_add, Nat.cast_one,
      List.mem_cons, exists_eq_or_imp]
    refine ⟨by ring, by ring, ?_⟩
    by_cases hg : g = true
    · by_cases hs : (Checker.processRandomCityID.probe env c id tid target line st.1).1.1 ≥ 10
      · simp [hg, hs]
      · simp [hg, hs]
    · simp [hg]

theorem lines_append (env : Env) (c : Checker) (id tid : Int) (g : Bool) (target : String)
    (pre post : List Line) :
    ∀ st : World × CycleVars,
      Checker.processRandomCityID.lines env c id tid g target (pre ++ post) st =
        Checker.processRandomCityID.lines env c id tid g target post
          (Checker.processRandomCityID.lines env c id tid g target pre st) := by
  induction pre with
  | nil => intro st; rfl
  | cons line rest ih =>
    intro st
    obtain ⟨w, cv⟩ := st
    simp only [List.cons_append, Checker.processRandomCityID.lines]
    exact ih _

theorem lines_single (env : Env) (c : Checker) (id tid : Int) (g : Bool) (target : String)
    (line : Line) (st : World × CycleVars) :
    Checker.processRandomCityID.lines env c id tid g target [line] st =
      ({ (Checker.processRandomCityID.rounds env c id tid g target line
            c.Config.Errtestnum.toNat (st.1, st.2, {})).1 with
          db := Checker.processRandomCityID.classify env.dbFaults
            (Checker.processRandomCityID.rounds env c id tid g target line
              c.Config.Errtestnum.toNat (st.1, st.2, {})).1.db id g line
            (Checker.processRandomCityID.rounds env c id tid g target line
              c.Config.Errtestnum.toNat (st.1, st.2, {})).2.1
            (Checker.processRandomCityID.rounds env c id tid g target line
              c.Config.Errtestnum.toNat (st.1, st.2, {})).2.2 },
        (Checker.processRandomCityID.rounds env c id tid g target line
          c.Config.Errtestnum.toNat (st.1, st.2, {})).2.1) := by
  obtain ⟨w, cv⟩ := st
  simp only [Checker.processRandomCityID.lines]

theorem lineSpeeds_append (env : Env) (c : Checker) (id tid : Int) (g : Bool)
    (target : String) (pre post : List Line) :
    ∀ st : World × CycleVars,
      Checker.processRandomCityID.lineSpeeds env c id tid g target (pre ++ post) st =
        Checker.processRandomCityID.lineSpeeds env c id tid g target pre st ++
          Checker.processRandomCityID.lineSpeeds env c id tid g target post
            (Checker.processRandomCityID.lines env c id tid g target pre st) := by
  induction pre with
  | nil => intro st; rfl
  | cons line rest ih =>
    intro st
    have h1 := ih (Checker.processRandomCityID.lines env c id tid g target [line] st)
    have h2 := lines_append env c id tid g target [line] rest st
    rw [List.singleton_append] at h2
    show Checker.processRandomCityID.roundSpeeds env c id tid g target line
        c.Config.Errtestnum.toNat (st.1, st.2, {}) ++
      Checker.processRandomCityID.lineSpeeds env c id tid g target (rest ++ post)
        (Checker.processRandomCityID.lines env c id tid g target [line] st) =
      (Checker.processRandomCityID.roundSpeeds env c id tid g target line
        c.Config.Errtestnum.toNat (st.1, st.2, {}) ++
      Checker.processRandomCityID.lineSpeeds env c id tid g target rest
        (Checker.processRandomCityID.lines env c id tid g target [line] st)) ++
      Checker.processRandomCityID.lineSpeeds env c id tid g target post
        (Checker.processRandomCityID.lines env c id tid g target (line :: rest) st)
    rw [h1, h2, List.append_assoc]

theorem lines_accumulate (env : Env) (c : Checker) (id tid : Int) (g : Bool) (target : String)
    (ls : List Line) :
    ∀ st : World × CycleVars,
      (Checker.processRandomCityID.lines env c id tid g target ls st).2.totalDownloadSpeed =
        st.2.totalDownloadSpeed +
          (Checker.processRandomCityID.lineSpeeds env c id tid g target ls st).sum ∧
      (Checker.processRandomCityID.lines env c id tid g target ls st).2.testCount =
        st.2.testCount +
          ((Checker.processRandomCityID.lineSpeeds env c id tid g target ls st).length : Int) ∧
      ((Checker.processRandomCityID.lines env c id tid g target ls st).2.allBelow10Mbps = false ↔
        st.2.allBelow10Mbps = false ∨
          (g = true ∧
            ∃ s ∈ Checker.processRandomCityID.lineSpeeds env c id tid g target ls st, s ≥ 10)) := by
  induction ls with
  | nil =>
    intro st
    simp [Checker.processRandomCityID.lines, Checker.processRandomCityID.lineSpeeds]
  | cons line rest ih =>
    intro st
    have hsplit := lines_append env c id tid g target [line] rest st
    rw [List.singleton_append] at hsplit
    obtain ⟨r1, r2, r3⟩ := rounds_accumulate env c id tid g target line
      c.Config.Errtestnum.toNat (st.1, st.2, {})
    obtain ⟨h1, h2, h3⟩ := ih (Checker.processRandomCityID.lines env c id tid g target [line] st)
    have hs := lines_single env c id tid g target line st
    rw [hsplit, h1, h2, h3]
    simp only [Checker.processRandomCityID.lineSpeeds, List.sum_append, List.length_append,
      Nat.cast_add, List.mem_append]
    rw [hs]
    dsimp only
    rw [r1, r2, r3]
    dsimp only
    refine ⟨by ring, by ring, ?_⟩
    constructor
    · rintro ((h | ⟨hg, s, hs1, hs2⟩) | ⟨hg, s, hs1, hs2⟩)
      · exact Or.inl h
      · exact Or.inr ⟨hg, s, Or.inl hs1, hs2⟩
      · exact Or.inr ⟨hg, s, Or.inr hs1, hs2⟩
    · rintro (h | ⟨hg, s, hs1 | hs1, hs2⟩)
      · exact Or.inl (Or.inl h)
      · exact Or.inl (Or.inr ⟨hg, s, hs1, hs2⟩)
      · exact Or.inr ⟨hg, s, hs1, hs2⟩

theorem formattedSpeed_eq (cv : CycleVars) :
    cv.formattedSpeed =
      (FormatSpeed (if cv.testCount > 0 then cv.totalDownloadSpeed / (cv.testCount : ℚ)
        else 0)).1 := by
  unfold CycleVars.formattedSpeed FormatSpeed
  rfl

/-- C30 (remediation accumulators span all matched lines).  When the matched
lines `pre` are processed before `line` in one `processRandomCityID` cycle,
the classification block of `line` is entered with accumulators that cover
every round of `pre` and of `line`: the summed speed is the sum of the speeds
of all those rounds, the divisor is their number, the formatted average is the
formatted quotient of the two, and the all-below-10 flag is `false` exactly
when the line id is good-sourced and one of those rounds returned a speed of
at least 10.  With two rounds at 2 Mbps on a first line and two rounds at
8 Mbps on a second one, the second line is classified on 5 Mbps, not 8. -/
theorem accumulators_span_matched_lines (env : Env) (c : Checker) (id tid : Int) (g : Bool)
    (target : String) (pre : List Line) (line : Line) (post : List Line) (w : World) :
    Checker.processRandomCityID.lines env c id tid g target (pre ++ line :: post) (w, {}) =
      Checker.processRandomCityID.lines env c id tid g target post
        ({ (Checker.processRandomCityID.classified env c id tid g target pre line w).1 with
            db := Checker.processRandomCityID.classify env.dbFaults
              (Checker.processRandomCityID.classified env c id tid g target pre line w).1.db
              id g line
              (Checker.processRandomCityID.classified env c id tid g target pre line w).2.1
              (Checker.processRandomCityID.classified env c id tid g target pre line w).2.2 },
          (Checker.processRandomCityID.classified env c id tid g target pre line w).2.1) ∧
    (Checker.processRandomCityID.classified env c id tid g target pre line
        w).2.1.totalDownloadSpeed =
      (Checker.processRandomCityID.lineSpeeds env c id tid g target (pre ++ [line])
        (w, {})).sum ∧
    (Checker.processRandomCityID.classified env c id tid g target pre line w).2.1.testCount =
      ((Checker.processRandomCityID.lineSpeeds env c id tid g target (pre ++ [line])
        (w, {})).length : Int) ∧
    (Checker.processRandomCityID.classified env c id tid g target pre line
        w).2.1.formattedSpeed =
      (FormatSpeed
        (if (Checker.processRandomCityID.lineSpeeds env c id tid g target (pre ++ [line])
            (w, {})).length > 0 then
          (Checker.processRandomCityID.lineSpeeds env c id tid g target (pre ++ [line])
            (w, {})).sum /
            ((Checker.processRandomCityID.lineSpeeds env c id tid g target (pre ++ [line])
              (w, {})).length : ℚ)
        else 0)).1 ∧
    ((Checker.processRandomCityID.classified env c id tid g target pre line
        w).2.1.allBelow10Mbps = false ↔
      g = true ∧
        ∃ s ∈ Checker.processRandomCityID.lineSpeeds env c id tid g target (pre ++ [line])
          (w, {}), s ≥ 10) ∧
    (Checker.processRandomCityID.lineSpeeds twoRateEnv pairWatcher 7 592 false "example:80"
        [probeLine, secondLine] (quarantined, {}) = [2, 2, 8, 8] ∧
      (Checker.processRandomCityID.classified twoRateEnv pairWatcher 7 592 false "example:80"
        [probeLine] secondLine quarantined).2.1.formattedSpeed = 5) := by
  have hacc := lines_accumulate env c id tid g target (pre ++ [line]) (w, {})
  have hsplit := lines_append env c id tid g target pre [line] (w, {})
  have hsingle := lines_single env c id tid g target line
    (Checker.processRandomCityID.lines env c id tid g target pre (w, {}))
  have hcv : (Checker.processRandomCityID.lines env c id tid g target (pre ++ [line])
      (w, {})).2 =
      (Checker.processRandomCityID.classified env c id tid g target pre line w).2.1 := by
    rw [hsplit, hsingle]
    rfl
  rw [hcv] at hacc
  obtain ⟨h1, h2, h3⟩ := hacc
  have h1b : (Checker.processRandomCityID.classified env c id tid g target pre line
      w).2.1.totalDownloadSpeed =
      (Checker.processRandomCityID.lineSpeeds env c id tid g target (pre ++ [line])
        (w, {})).sum := by
    rw [h1]; show (0 : ℚ) + _ = _; ring
  have h2b : (Checker.processRandomCityID.classified env c id tid g target pre line
      w).2.1.testCount =
      ((Checker.processRandomCityID.lineSpeeds env c id tid g target (pre ++ [line])
        (w, {})).length : Int) := by
    rw [h2]; show (0 : Int) + _ = _; ring
  refine ⟨?_, h1b, h2b, ?_, ?_, ?_⟩
  · have := lines_append env c id tid g target pre (line :: post) (w, {})
    rw [this]
    have h4 := lines_append env c id tid g target [line] post
      (Checker.processRandomCityID.lines env c id tid g target pre (w, {}))
    rw [List.singleton_append] at h4
    rw [h4, hsingle]
    rfl
  · rw [formattedSpeed_eq, h1b, h2b]
    congr 2
    simp
  · rw [h3]
    constructor
    · rintro (h | h)
      · exact absurd h (by simp)
      · exact h
    · intro h; exact Or.inr h
  · constructor
    · with_unfolding_all decide
    · with_unfolding_all decide

end accumulators

/-! ## The unresolved branch of the classification block -/

section unresolved

open database checker
open http_requests (Line Config)

/-- C26 as stated fails: line `7` is in neither tier and its `bad_count` is
`0`.  A `processRandomCityID` cycle of four rounds, of which three fail on the
download-URL lookup and one runs at 12 Mbps, enters the classification of its
matched line with error count `3` and formatted average `3`, so it is not
resolved: the row `(1.2.3.4, 7)` is inserted into `bad_line` at once, and
`bad_count` is still `0`. -/
theorem unresolved_cycle_skips_counter :
    (sqlBadCount 7 idleLine.db.tables = some 0 ∧ idleLine.db.tables.bad_line = []) ∧
    Checker.processRandomCityID.lineSpeeds faultyUrlEnv quadWatcher 7 592 false
      (dropScheme quadWatcher.Config.ConnectBaseURL) [probeLine] (idleListed, {}) =
      [0, 0, 0, 12] ∧
    ((Checker.processRandomCityID.classified faultyUrlEnv quadWatcher 7 592 false
        (dropScheme quadWatcher.Config.ConnectBaseURL) [] probeLine idleListed).2 =
        (unresolvedCycle, threeErrors) ∧
      ¬ (threeErrors.errorCount ≤ 2 ∨ unresolvedCycle.formattedSpeed < 3)) ∧
    ((quadWatcher.processRandomCityID faultyUrlEnv idleLine 7).toOption.map
      (fun w => (w.db.tables.bad_line, sqlBadCount 7 w.db.tables))) =
      some ([("1.2.3.4", 7)], some 0) := by
  refine ⟨⟨?_, ?_⟩, ?_, ⟨?_, ?_⟩, ?_⟩ <;> with_unfolding_all decide

theorem classify_unresolved_tables (f : Faults) (db : DB) (id : Int) (line : Line)
    (cv : CycleVars) (lv : LineVars) (hun : ¬ (lv.errorCount ≤ 2 ∨ cv.formattedSpeed < 3))
    (hcheck : f db.stmts = false) (hinsert : f (db.stmts + 1) = false) :
    (Checker.processRandomCityID.classify f db id false line cv lv).tables =
      if id ∈ db.tables.bad_line.map Prod.snd then db.tables
      else sqlInsertBadLine line.OutboundIP id db.tables := by
  unfold Checker.processRandomCityID.classify
  by_cases hin : id ∈ db.tables.bad_line.map Prod.snd
  · simp [hun, CheckNodeIDExistsInBadLine_id, InsertIntoBadLine, DB.QueryRow, DB.Exec, hcheck,
      exists_filter_snd, hin]
  · simp [hun, CheckNodeIDExistsInBadLine_id, InsertIntoBadLine, DB.QueryRow, DB.Exec, hcheck,
      hinsert, exists_filter_snd, hin]

theorem processRandomCityID_bad_count (env : Env) (c : Checker) (w w1 : World) (id x : Int)
    (hrun : c.processRandomCityID env w id = Except.ok w1) :
    sqlBadCount x w1.db.tables = sqlBadCount x w.db.tables := by
  apply processRandomCityID_preserves (fun t => sqlBadCount x t = sqlBadCount x w.db.tables)
    env c w w1 id ?_ ?_ ?_ ?_ ?_ rfl hrun
  · intro t ht; rw [← ht]; exact sqlBadCount_of_cities x _ _ (sqlDeleteGoodLine_cities id t)
  · intro t ht; rw [← ht]; exact sqlBadCount_of_cities x _ _ (sqlDeleteBadLine_id_cities id t)
  · intro t ht; rw [← ht]; exact sqlBadCount_updateGood id x false t
  · intro ip t ht; rw [← ht]; exact sqlBadCount_of_cities x _ _ (sqlInsertBadIPs_cities ip id t)
  · intro ip t ht; rw [← ht]; exact sqlBadCount_of_cities x _ _ (sqlInsertBadLine_cities ip id t)

/-- C26, amended.  No `processRandomCityID` cycle that returns changes the
`bad_count` of any line, whatever store statements fail on the way.  In the
classification of a matched line for a line id that is not good-sourced, when
the cycle is not resolved (error count above 2 and formatted average speed at
least 3 Mbps) and the two statements of the branch, the existence check and
the insert, succeed, whatever happened to the statements before them:
`bad_count` and `good_count` of the line are as they were, and
`(outboundIP, lineID)` is inserted into `bad_line` exactly when no row of
`bad_line` carries the line id and none carries the outbound IP; the value of
`bad_count` plays no part. -/
theorem unresolved_inserts_without_counter (f : Faults) (db : DB) (id : Int) (line : Line)
    (cv : CycleVars) (lv : LineVars) (hun : ¬ (lv.errorCount ≤ 2 ∨ cv.formattedSpeed < 3))
    (hcheck : f db.stmts = false) (hinsert : f (db.stmts + 1) = false) :
    (∀ (env : Env) (c : Checker) (w w1 : World) (x y : Int),
      c.processRandomCityID env w x = Except.ok w1 →
        sqlBadCount y w1.db.tables = sqlBadCount y w.db.tables) ∧
    sqlBadCount id (Checker.processRandomCityID.classify f db id false line cv
      lv).tables = sqlBadCount id db.tables ∧
    sqlGoodCount id (Checker.processRandomCityID.classify f db id false line cv
      lv).tables = sqlGoodCount id db.tables ∧
    (Checker.processRandomCityID.classify f db id false line cv lv).tables.bad_line =
      (if id ∈ db.tables.bad_line.map Prod.snd ∨
          line.OutboundIP ∈ db.tables.bad_line.map Prod.fst then db.tables.bad_line
        else db.tables.bad_line ++ [(line.OutboundIP, id)]) := by
  refine ⟨fun env c w w1 x y hrun => processRandomCityID_bad_count env c w w1 x y hrun, ?_⟩
  rw [classify_unresolved_tables f db id line cv lv hun hcheck hinsert]
  by_cases hin : id ∈ db.tables.bad_line.map Prod.snd
  · simp [hin]
  · simp only [hin, if_false, false_or]
    refine ⟨sqlBadCount_of_cities id _ _ (sqlInsertBadLine_cities _ _ _),
      sqlGoodCount_of_cities id _ _ (sqlInsertBadLine_cities _ _ _), ?_⟩
    rw [sqlInsertBadLine_bad_line]

theorem unresolved_inserts_without_counter_witness :
    ((Checker.processRandomCityID.classified faultyUrlEnv quadWatcher 7 592 false
        (dropScheme quadWatcher.Config.ConnectBaseURL) [] probeLine idleListed).2 =
        (unresolvedCycle, threeErrors) ∧
      (Checker.processRandomCityID.classified faultyUrlEnv quadWatcher 7 592 false
        (dropScheme quadWatcher.Config.ConnectBaseURL) [] probeLine idleListed).1.db =
        { idleLine.db with stmts := 5 }) ∧
    sqlBadCount 7 (Checker.processRandomCityID.classify faultyUrlEnv.dbFaults
      (Checker.processRandomCityID.classified faultyUrlEnv quadWatcher 7 592 false
        (dropScheme quadWatcher.Config.ConnectBaseURL) [] probeLine idleListed).1.db 7 false
      probeLine unresolvedCycle threeErrors).tables = some 0 ∧
    (Checker.processRandomCityID.classify faultyUrlEnv.dbFaults
      (Checker.processRandomCityID.classified faultyUrlEnv quadWatcher 7 592 false
        (dropScheme quadWatcher.Config.ConnectBaseURL) [] probeLine idleListed).1.db 7 false
      probeLine unresolvedCycle threeErrors).tables.bad_line = [("1.2.3.4", 7)] :=
  have h := unresolved_inserts_without_counter faultyUrlEnv.dbFaults
    (Checker.processRandomCityID.classified faultyUrlEnv quadWatcher 7 592 false
      (dropScheme quadWatcher.Config.ConnectBaseURL) [] probeLine idleListed).1.db 7
    probeLine unresolvedCycle threeErrors (by with_unfolding_all decide)
    (by with_unfolding_all decide) (by with_unfolding_all decide)
  ⟨⟨by with_unfolding_all decide, by with_unfolding_all decide⟩,
    h.2.1.trans (by with_unfolding_all decide), h.2.2.2.trans (by with_unfolding_all decide)⟩

end unresolved

/-! ## Entries of `ExitErrorMap` and the failures behind them -/

section history

open database checker
open http_requests (Line Config)

theorem sinceRemoval_snoc (h : List MapOp) (op : MapOp) (id : Int) :
    MapOp.sinceRemoval (h ++ [op]) id =
      if op = MapOp.pop id then [] else MapOp.sinceRemoval h id ++ [op] := by
  unfold MapOp.sinceRemoval
  rw [List.reverse_append, List.reverse_singleton, List.singleton_append, List.takeWhile_cons]
  by_cases hop : op = MapOp.pop id
  · simp [hop]
  · simp [hop]

theorem witnessed_snoc (h : List MapOp) (op : MapOp) (id : Int) (ip : String)
    (hop : op ≠ MapOp.pop id)
    (hw : (MapOp.sinceRemoval h id).any (MapOp.isHardFailure id ip) = true) :
    (MapOp.sinceRemoval (h ++ [op]) id).any (MapOp.isHardFailure id ip) = true := by
  rw [sinceRemoval_snoc, if_neg hop, List.any_append, hw, Bool.true_or]

theorem witnessed_pops (ks : List Int) (id : Int) (ip : String) (hid : id ∉ ks) :
    ∀ h : List MapOp, (MapOp.sinceRemoval h id).any (MapOp.isHardFailure id ip) = true →
      (MapOp.sinceRemoval (h ++ ks.map MapOp.pop) id).any (MapOp.isHardFailure id ip) = true := by
  induction ks with
  | nil => intro h hw; simpa using hw
  | cons k rest ih =>
    intro h hw
    have hk : k ≠ id := fun e => hid (e ▸ List.mem_cons_self _ _)
    have hrest : id ∉ rest := fun e => hid (List.mem_cons_of_mem _ e)
    have hne : MapOp.pop k ≠ MapOp.pop id := fun e => hk (MapOp.pop.inj e)
    have := ih hrest (h ++ [MapOp.pop k]) (witnessed_snoc h _ id ip hne hw)
    rw [List.map_cons]
    rw [List.append_assoc, List.singleton_append] at this
    exact this

theorem cmd_executeCurlCommand_map_cases (env : Env) (dm : cmd.DownloadManager) (w : World)
    (url proxy : String) (x : Int) (p : String) :
    (dm.executeCurlCommand env w url proxy x p).2.ExitErrorMap = w.ExitErrorMap ∨
    (MapOp.isHardFailure x p (MapOp.curl x p (env.workerCurl w.workerCurls)) = true ∧
      (∃ ips, (dm.executeCurlCommand env w url proxy x p).2.ExitErrorMap.get x = some ips ∧
        ∀ q, q ∈ ips ↔ q = p ∨ q ∈ (w.ExitErrorMap.get x).getD []) ∧
      ∀ y, y ≠ x →
        (dm.executeCurlCommand env w url proxy x p).2.ExitErrorMap.get y =
          w.ExitErrorMap.get y) := by
  cases ho : env.workerCurl w.workerCurls with
  | exited c drained rb =>
    by_cases hh : cmd.hardExit c = true
    · right
      have hc : c ≠ 0 := by
        intro h0; rw [h0] at hh; revert hh; decide
      simp only [cmd.DownloadManager.executeCurlCommand, ho, hc, ne_eq, not_false_eq_true,
        if_true, hh, MapOp.isHardFailure, decide_True, Bool.and_self, true_and]
      refine ⟨?_, ?_⟩
      · refine ⟨_, GoMap.get_set_self _ _ _, ?_⟩
        intro q
        cases hg : GoMap.get w.ExitErrorMap x with
        | none =>
          simp [hg, GoMap.get_set_self]
        | some ips =>
          by_cases hp : p ∈ ips
          · simp only [hg, Option.isSome_some, if_true, Option.getD_some, hp]
            constructor
            · intro h; exact Or.inr h
            · rintro (h | h)
              · rw [h]; exact hp
              · exact h
          · simp only [hg, Option.isSome_some, if_true, Option.getD_some, hp, if_false,
              List.mem_append, List.mem_singleton]
            tauto
      · intro y hy
        rw [GoMap.get_set_other _ _ _ _ hy]
        split
        · rfl
        · exact GoMap.get_set_other _ _ _ _ hy
    · left
      have hf : cmd.hardExit c = false := by simpa using hh
      by_cases hc : c = 0
      · cases rb <;> cases drained <;>
          simp [cmd.DownloadManager.executeCurlCommand, ho, hc]
      · simp [cmd.DownloadManager.executeCurlCommand, ho, hc, hf]
  | createFailed => left; simp [cmd.DownloadManager.executeCurlCommand, ho]
  | pipeFailed => left; simp [cmd.DownloadManager.executeCurlCommand, ho]
  | startFailed => left; simp [cmd.DownloadManager.executeCurlCommand, ho]
  | waitFailed => left; simp [cmd.DownloadManager.executeCurlCommand, ho]
  | timedOut => left; simp [cmd.DownloadManager.executeCurlCommand, ho]

theorem scan_map (env : Env) (c : Checker) (cf : Int) (w : World) (id : Int) :
    (∀ cf1 v, Checker.Check.scan env c cf w id = Check.Turn.again cf1 v →
      v.ExitErrorMap = w.ExitErrorMap) ∧
    (∀ w1, Checker.Check.scan env c cf w id = Check.Turn.stop (Except.ok w1) →
      w1.ExitErrorMap = w.ExitErrorMap) := by
  unfold Checker.Check.scan
  constructor
  · intro cf1 v h
    split at h
    · injection h with _ h2; rw [← h2]
    · split at h
      · injection h with _ h2; rw [← h2]; rfl
      · cases h
  · intro w1 h
    split at h
    · cases h
    · split at h
      · cases h
      · injection h with h
        have := processRandomCityID_map env c _ w1 id h
        exact this

theorem goodDraw_map (env : Env) (c : Checker) (cf : Int) (w : World) :
    (∀ cf1 v, Checker.Check.goodDraw env c cf w = Check.Turn.again cf1 v →
      v.ExitErrorMap = w.ExitErrorMap) ∧
    (∀ w1, Checker.Check.goodDraw env c cf w = Check.Turn.stop (Except.ok w1) →
      w1.ExitErrorMap = w.ExitErrorMap) := by
  unfold Checker.Check.goodDraw
  constructor
  · intro cf1 v h
    dsimp only at h
    split at h
    · split at h <;> cases h
    · split at h
      · injection h with _ h2; rw [← h2]
      · exact ((scan_map env c cf _ _).1 cf1 v h).trans rfl
  · intro w1 h
    dsimp only at h
    split at h
    · split at h
      · injection h with h; injection h with h; rw [← h]; rfl
      · injection h with h; injection h with h; rw [← h]
    · split at h
      · cases h
      · exact ((scan_map env c cf _ _).2 w1 h).trans rfl

theorem turn_map (env : Env) (c : Checker) (cf : Int) (w : World) :
    (∀ cf1 v, Checker.Check.turn env c cf w = Check.Turn.again cf1 v →
      v.ExitErrorMap = w.ExitErrorMap) ∧
    (∀ w1, Checker.Check.turn env c cf w = Check.Turn.stop (Except.ok w1) →
      w1.ExitErrorMap = w.ExitErrorMap) := by
  unfold Checker.Check.turn
  constructor
  · intro cf1 v h
    dsimp only at h
    split at h
    · split at h
      · split at h
        · exact ((goodDraw_map env c _ _).1 cf1 v h).trans rfl
        · injection h with _ h2; rw [← h2]
      · cases h
    · exact ((scan_map env c cf _ _).1 cf1 v h).trans rfl
  · intro w1 h
    dsimp only at h
    split at h
    · split at h
      · split at h
        · exact ((goodDraw_map env c _ _).2 w1 h).trans rfl
        · cases h
      · injection h with h; injection h with h; rw [← h]
    · exact ((scan_map env c cf _ _).2 w1 h).trans rfl

theorem Check_loop_map (env : Env) (c : Checker) (fuel : Nat) :
    ∀ (cf : Int) (w w1 : World), Checker.Check.loop env c fuel cf w = some (Except.ok w1) →
      w1.ExitErrorMap = w.ExitErrorMap := by
  induction fuel with
  | zero => intro cf w w1 h; cases h
  | succ fuel ih =>
    intro cf w w1 h
    unfold Checker.Check.loop at h
    have ht := turn_map env c cf w
    split at h
    · rename_i cf1 v heq
      exact (ih cf1 v w1 h).trans (ht.1 cf1 v heq)
    · rename_i r heq
      injection h with h
      rw [h] at heq
      exact ht.2 w1 heq

theorem range_deleted (env : Env) (c : Checker) (keys : List Int) :
    ∀ (w w1 : World), Checker.Check.range env c keys w = Except.ok w1 →
      w1.ExitErrorMap = (Checker.Check.deleted keys).foldl GoMap.delete w.ExitErrorMap := by
  induction keys with
  | nil =>
    intro w w1 h
    unfold Checker.Check.range at h
    injection h with h
    rw [← h]; rfl
  | cons k rest ih =>
    intro w w1 h
    unfold Checker.Check.range at h
    unfold Checker.Check.deleted
    by_cases hk : k = 0
    · simp only [hk, if_true] at h ⊢
      exact ih _ w1 h
    · simp only [hk, if_false] at h ⊢
      exact processRandomCityID_map env c _ w1 k h

theorem foldl_delete_get {ν : Type} (ks : List Int) (id : Int) :
    ∀ m : GoMap Int ν,
      (ks.foldl GoMap.delete m).get id = if id ∈ ks then none else m.get id := by
  induction ks with
  | nil => intro m; simp
  | cons k rest ih =>
    intro m
    rw [List.foldl_cons, ih]
    by_cases hr : id ∈ rest
    · simp [hr]
    · by_cases hk : id = k
      · subst hk
        simp [hr, GoMap.get_delete_self]
      · simp [hr, hk, GoMap.get_delete_other _ _ _ hk]

theorem GoMap.get_nil {ν : Type} (id : Int) : GoMap.get ([] : GoMap Int ν) id = none := rfl

/-- C22 (entries of `ExitErrorMap` witness a failure).  In every state reached
from an empty map by worker `executeCurlCommand` calls, whatever their
outcomes, and by scans of `Check`, a line id that is a key of `ExitErrorMap`
maps to a set of outbound IPs that is not empty, and for each of them the
history holds, after the last removal of that key, an `executeCurlCommand`
call for that line id and that outbound IP whose subprocess exited with code
18, 28 or 97. -/
theorem exit_error_entries_witness_failure (env : Env) (c : Checker) (h : List MapOp)
    (w : World) (hist : History env c h w) (id : Int) (ips : List String)
    (hkey : w.ExitErrorMap.get id = some ips) :
    ips ≠ [] ∧
    ∀ ip ∈ ips, (MapOp.sinceRemoval h id).any (MapOp.isHardFailure id ip) = true := by
  induction hist generalizing id ips with
  | start w hw =>
    rw [hw, GoMap.get_nil] at hkey
    cases hkey
  | worker h w dm url proxy x p _ ih =>
    have hne : ∀ y, MapOp.curl x p (env.workerCurl w.workerCurls) ≠ MapOp.pop y := by
      intro y e; cases e
    rcases cmd_executeCurlCommand_map_cases env dm w url proxy x p with hsame | ⟨hhard, hx, hy⟩
    · rw [hsame] at hkey
      obtain ⟨h1, h2⟩ := ih id ips hkey
      exact ⟨h1, fun ip hip => witnessed_snoc h _ id ip (hne id) (h2 ip hip)⟩
    · by_cases hid : id = x
      · subst hid
        obtain ⟨ips1, hget, hmem⟩ := hx
        rw [hget] at hkey
        injection hkey with hkey
        subst hkey
        refine ⟨?_, ?_⟩
        · intro hnil
          have := (hmem p).mpr (Or.inl rfl)
          rw [hnil] at this
          exact absurd this (List.not_mem_nil p)
        · intro ip hip
          rcases (hmem ip).mp hip with hp | hold
          · subst hp
            rw [sinceRemoval_snoc, if_neg (hne id), List.any_append]
            simp [hhard]
          · cases hg : w.ExitErrorMap.get id with
            | none => rw [hg] at hold; simp at hold
            | some old =>
              rw [hg] at hold
              exact witnessed_snoc h _ id ip (hne id) ((ih id old hg).2 ip hold)
      · rw [hy id hid] at hkey
        obtain ⟨h1, h2⟩ := ih id ips hkey
        exact ⟨h1, fun ip hip => witnessed_snoc h _ id ip (hne id) (h2 ip hip)⟩
  | scan h w w1 fuel _ hcheck ih =>
    unfold Checker.Check at hcheck
    by_cases hlen : w.ExitErrorMap.length = 0
    · simp only [hlen, if_true] at hcheck
      have hm := Check_loop_map env c fuel 0 w w1 hcheck
      have hnil : w.ExitErrorMap = [] := List.length_eq_zero.mp hlen
      rw [hm, hnil, GoMap.get_nil] at hkey
      cases hkey
    · simp only [hlen, if_false] at hcheck
      have hm := range_deleted env c _ w w1 (Option.some.inj hcheck)
      rw [hm, foldl_delete_get] at hkey
      by_cases hd : id ∈ Checker.Check.deleted (w.ExitErrorMap.map Prod.fst)
      · rw [if_pos hd] at hkey; cases hkey
      · rw [if_neg hd] at hkey
        obtain ⟨h1, h2⟩ := ih id ips hkey
        exact ⟨h1, fun ip hip => witnessed_pops _ id ip hd h (h2 ip hip)⟩

theorem exit_error_entries_witness_failure_witness :
    (workerManager.executeCurlCommand timeoutEnv {} "u" "p" 7 "1.2.3.4").2.ExitErrorMap.get 7 =
      some ["1.2.3.4"] ∧
    (["1.2.3.4"] ≠ [] ∧
      ∀ ip ∈ ["1.2.3.4"],
        (MapOp.sinceRemoval
          ([] ++ [MapOp.curl 7 "1.2.3.4" (timeoutEnv.workerCurl ({} : World).workerCurls)])
          7).any (MapOp.isHardFailure 7 ip) = true) :=
  ⟨by decide,
    exit_error_entries_witness_failure timeoutEnv watcher _ _
      (History.worker [] {} workerManager "u" "p" 7 "1.2.3.4" (History.start {} rfl)) 7
      ["1.2.3.4"] (by decide)⟩

end history

/-! ## Good-tier eviction and the membership lookup -/

section lookup

open database checker
open http_requests (Line Config)

end lookup

end MonitoringSystem
